import Mathlib

/-!
# Route-planning session orchestrator of the school-bus routing front end

A shallow embedding of `static/js/calculator.js` (the route calculator page):
the session state, the geocoding pipeline `collectStudentsForPayload`, the
school lookup `ensureSchoolCoords`, the overlay bookkeeping, the computation
cycle `handleComputeRoute`, and the handlers that edit the session: the student
buttons, `handleAddInlineStudent`, `addManualStop`, `setSchoolLocation` and the
driver selects; and of the dashboard helpers of `static/js/data.js`.

Conventions of the embedding.

* The asynchronous functions run on one thread and every `await` is followed to
  its settlement, so a call is a function from the state before to the state
  after; the effects on the outside world are returned next to the state: the
  geocoder calls made (`GeoCall`), the requests sent to the optimizer and the
  notifications shown with `showMessage`.
* A thrown JavaScript value is a `Thrown`; a function that can throw returns
  `Except Thrown _` together with the state it had reached, because mutations
  made before the `throw` stay.
* A JavaScript number is a `JSNum`: `NaN`, an infinity or a finite value, the
  finite value being the exact rational (binary rounding is not modelled).
* An optional property (`lat?`) is an `Option`; `typeof x === "number"` is then
  `Option.isSome`.
* A `Set` of strings is the list of its members in insertion order, a `Map` the
  list of its entries in insertion order.
-/

namespace SBR

/-! ## Values -/

/-- A JavaScript number: `NaN`, a finite value or a signed infinity. -/
inductive JSNum where
  | nan : JSNum
  | fin (q : ℚ) : JSNum
  | inf (neg : Bool) : JSNum
  deriving DecidableEq

/-- A coordinate pair `{ lat, lng }`. -/
structure LatLng where
  lat : JSNum
  lng : JSNum
  deriving DecidableEq

/-- A student stop `{ id, name, address, lat?, lng?, mapsLink? }`. -/
structure Stop where
  id : String
  name : String
  address : String
  lat : Option JSNum
  lng : Option JSNum
  mapsLink : Option String
  deriving DecidableEq

/-- An entry of `state.manualStops`: `{ id, name, lat, lng }` (see `addManualStop`). -/
structure ManualStop where
  id : String
  name : String
  lat : JSNum
  lng : JSNum
  deriving DecidableEq

/-- A stop of a computed route: `{ name, lat, lng }`. -/
structure RouteStop where
  name : String
  lat : JSNum
  lng : JSNum
  deriving DecidableEq

/-- A route of the optimizer response. The three metrics that `renderRoutes` writes with
`toFixed` are `none` when the property is missing or is not a number. -/
structure Route where
  busId : Option String
  totalDistanceKm : Option JSNum
  totalDurationMin : Option JSNum
  fuelLiters : Option JSNum
  usedSeats : JSNum
  capacity : JSNum
  stops : List RouteStop
  deriving DecidableEq

/-- The `summary` object of the optimizer response. The three metrics that
`renderSummary` writes with `toFixed` are `none` when the property is missing or is not a
number. -/
structure Summary where
  objective : String
  totalStudents : JSNum
  busesUsed : JSNum
  busCount : JSNum
  avgDistanceKm : Option JSNum
  avgDurationMin : Option JSNum
  totalFuelLiters : Option JSNum
  maxSpeedKmh : JSNum
  departureTime : Option String
  weightDuration : Option JSNum
  deriving DecidableEq

/-- The JSON body of a successful optimizer response, when it is an object; `summary` and
`routes` may be missing (`renderSummary`, `renderRoutes` and `drawRoutesOnMap` test for
it). -/
structure OptResult where
  summary : Option Summary
  routes : Option (List Route)
  deriving DecidableEq

/-- The `school` object of the payload. -/
structure SchoolRef where
  name : String
  lat : JSNum
  lng : JSNum
  deriving DecidableEq

/-- The request body built by `handleComputeRoute`; `weightDuration` is a property that is
only sometimes set. -/
structure Payload where
  school : SchoolRef
  students : List Stop
  busCount : JSNum
  busCapacity : JSNum
  departureTime : Option String
  maxSpeedKmh : JSNum
  fuelConsumptionLper100 : JSNum
  objective : String
  weightDuration : Option JSNum
  deriving DecidableEq

/-- The value of `state.lastOptimization`: `{ payload, result, assignments }`; `result` is
the body as it was received, `none` for the JSON body `null`; `assignments` maps a route
index to the chosen bus number (`none` for the empty option). -/
structure Optimization where
  payload : Payload
  result : Option OptResult
  assignments : List (Nat × Option String)
  deriving DecidableEq

/-- A `DirectionsRenderer` tracked in `state.activeRenderers`, identified by the path that
was requested for it and its stroke colour. -/
structure Renderer where
  origin : LatLng
  destination : LatLng
  waypoints : List LatLng
  strokeColor : String
  deriving DecidableEq

/-- The session state `state` of calculator.js (the handles `schoolMarker` and `geocoder`
of the map library are left out; `map` and `directionsService` record whether the handle
exists). -/
structure State where
  map : Bool
  schoolLatLng : Option LatLng
  manualStops : List ManualStop
  extraStudents : List Stop
  excludedIds : List String
  lastOptimization : Option Optimization
  directionsService : Bool
  activeRenderers : List Renderer
  studentCoordsByKey : List (String × LatLng)
  deriving DecidableEq

/-- A value thrown inside the computation cycle: an `Error` with its message, or the
string with which `geocodeAddress` rejects (a string has no `message`). -/
inductive Thrown where
  | error (message : String) : Thrown
  | geocodeRejected : Thrown
  deriving DecidableEq

/-- One call of the remote geocoder: the address asked and the answer (`none` for every
status other than `OK` with a result). -/
structure GeoCall where
  address : String
  answer : Option LatLng
  deriving DecidableEq

/-- The remote geocoder. Its answer may depend on the calls made before. -/
abbrev Geocoder := List GeoCall → String → Option LatLng

/-! ## The geocode cache (`state.studentCoordsByKey`, a `Map`) -/

/-- The method `Map.prototype.get`: the value of the first entry with that key. -/
def cacheGet : List (String × LatLng) → String → Option LatLng
  | [], _ => none
  | (k, v) :: rest, key => if k = key then some v else cacheGet rest key

/-- The method `Map.prototype.set`: replaces the value of an existing key in place, appends a new
entry otherwise. -/
def cacheSet : List (String × LatLng) → String → LatLng → List (String × LatLng)
  | [], key, v => [(key, v)]
  | (k, w) :: rest, key, v =>
    if k = key then (k, v) :: rest else (k, w) :: cacheSet rest key v

/-! ## Student table -/

/-- The function `getAllStudents`: `[...window.students, ...state.extraStudents]`. -/
def getAllStudents (students : List Stop) (st : State) : List Stop :=
  students ++ st.extraStudents

/-! ## Geocoding -/

/-- The function `geocodeAddress`: one call of the remote geocoder, recorded in the call log. The
promise resolves with the coordinates or rejects. -/
def geocodeAddress (geo : Geocoder) (address : String) (log : List GeoCall) :
    Option LatLng × List GeoCall :=
  (geo log address, log ++ [⟨address, geo log address⟩])

/-- The test `/^https?:\/\//i.test(address)` on the characters of the address. -/
def isHttpUrlChars : List Char → Bool
  | h :: t1 :: t2 :: p :: rest =>
    h.toLower == 'h' && t1.toLower == 't' && t2.toLower == 't' && p.toLower == 'p' &&
      (match rest with
       | ':' :: '/' :: '/' :: _ => true
       | s :: ':' :: '/' :: '/' :: _ => s.toLower == 's'
       | _ => false)
  | _ => false

/-- The test `/^https?:\/\//i.test(address)`. -/
def isHttpUrl (address : String) : Bool :=
  isHttpUrlChars address.data

/-- The test `typeof s.lat === "number" && typeof s.lng === "number"`. -/
def hasCoords (s : Stop) : Bool :=
  s.lat.isSome && s.lng.isSome

/-- The stop pushed after a cache hit or a successful geocode:
`{ id, name, address, lat: cached.lat, lng: cached.lng }`. -/
def stampedStop (s : Stop) (c : LatLng) : Stop :=
  { id := s.id, name := s.name, address := s.address, lat := some c.lat, lng := some c.lng,
    mapsLink := none }

/-- The stop pushed by the link fallback: `{ id, name, address, mapsLink: address }`. -/
def linkOnlyStop (s : Stop) : Stop :=
  { id := s.id, name := s.name, address := s.address, lat := none, lng := none,
    mapsLink := some s.address }

/-- The stop pushed for a manual stop: `{ id, name, lat, lng, address: "(manual stop)" }`. -/
def manualPayloadStop (m : ManualStop) : Stop :=
  { id := m.id, name := m.name, address := "(manual stop)", lat := some m.lat,
    lng := some m.lng, mapsLink := none }

deriving instance DecidableEq for Except

/-- What the `for (const s of active)` loop of `collectStudentsForPayload` has reached:
the outcome (the list `out`, or the thrown error), the cache and the geocoder call log. -/
structure Collected where
  result : Except Thrown (List Stop)
  cache : List (String × LatLng)
  log : List GeoCall
  deriving DecidableEq

/-- The loop `for (const s of active)` of `collectStudentsForPayload`, from the list `out`
built so far, the cache and the call log. -/
def collectLoop (geo : Geocoder) :
    List Stop → List Stop → List (String × LatLng) → List GeoCall → Collected
  | [], out, cache, log => ⟨.ok out, cache, log⟩
  | s :: rest, out, cache, log =>
    if hasCoords s then
      collectLoop geo rest (out ++ [s]) cache log
    else
      match cacheGet cache s.address with
      | some cached => collectLoop geo rest (out ++ [stampedStop s cached]) cache log
      | none =>
        match geocodeAddress geo s.address log with
        | (some res, log1) =>
          collectLoop geo rest (out ++ [stampedStop s ⟨res.lat, res.lng⟩])
            (cacheSet cache s.address ⟨res.lat, res.lng⟩) log1
        | (none, log1) =>
          if isHttpUrl s.address then
            collectLoop geo rest (out ++ [linkOnlyStop s]) cache log1
          else
            ⟨.error (.error ("Could not geocode: " ++ s.name)), cache, log1⟩

/-- How the loop of `collectStudentsForPayload` turns a stop `s` into the stop `x` that it
pushes, between the cache `before` the loop and the cache `after` it: the id is kept; `x`
carries coordinates or a link; a stop with coordinates is pushed as it is; a stop without
coordinates whose address was cached before is stamped with the cached coordinates, and in
general is stamped with what the cache holds for its address afterwards or is link-only. -/
def Emitted (before after : List (String × LatLng)) (s x : Stop) : Prop :=
  x.id = s.id ∧
  ((x.lat.isSome ∧ x.lng.isSome) ∨ x.mapsLink.isSome) ∧
  (hasCoords s = true → x = s) ∧
  (hasCoords s = false → ∀ w, cacheGet before s.address = some w → x = stampedStop s w) ∧
  (hasCoords s = false →
    x = linkOnlyStop s ∨ ∃ w, cacheGet after s.address = some w ∧ x = stampedStop s w)

/-- The stops that `collectStudentsForPayload` walks through:
`all.filter((s) => !state.excludedIds.has(s.id))`. -/
def activeStudents (students : List Stop) (st : State) : List Stop :=
  (getAllStudents students st).filter (fun s => !(st.excludedIds.contains s.id))

/-- The function `collectStudentsForPayload`. `students` is the roster `window.students`. -/
def collectStudentsForPayload (geo : Geocoder) (students : List Stop) (st : State)
    (log : List GeoCall) : Collected :=
  let active := activeStudents students st
  if active.length = 0 ∧ st.manualStops.length = 0 then
    ⟨.error (.error "No students selected."), st.studentCoordsByKey, log⟩
  else
    match collectLoop geo active [] st.studentCoordsByKey log with
    | ⟨.ok out, cache, log1⟩ => ⟨.ok (out ++ st.manualStops.map manualPayloadStop), cache, log1⟩
    | ⟨.error e, cache, log1⟩ => ⟨.error e, cache, log1⟩

/-- The outcome of `ensureSchoolCoords`: it returns the coordinates or throws, and leaves a state and a call
log behind. -/
structure SchoolLookup where
  result : Except Thrown LatLng
  state : State
  log : List GeoCall
  deriving DecidableEq

/-! ## Text of the form controls -/

/-- The white space that `String.prototype.trim`, `parseInt` and `parseFloat` strip
(WhiteSpace and LineTerminator of ECMAScript). -/
def isStrWhiteSpace (c : Char) : Bool :=
  let n := c.toNat
  n == 0x09 || n == 0x0A || n == 0x0B || n == 0x0C || n == 0x0D || n == 0x20 || n == 0xA0 ||
    n == 0x1680 || (0x2000 ≤ n && n ≤ 0x200A) || n == 0x2028 || n == 0x2029 || n == 0x202F ||
    n == 0x205F || n == 0x3000 || n == 0xFEFF

/-- The method `String.prototype.trim`. -/
def jsTrim (s : String) : String :=
  ⟨((s.data.dropWhile isStrWhiteSpace).reverse.dropWhile isStrWhiteSpace).reverse⟩

/-- The value of a run of decimal digits. -/
def digitsValue (ds : List Char) : Nat :=
  ds.foldl (fun n c => 10 * n + (c.toNat - 48)) 0

/-- An optional sign in front of a numeral: whether it is `-`, and the rest. -/
def takeSign : List Char → Bool × List Char
  | '-' :: rest => (true, rest)
  | '+' :: rest => (false, rest)
  | cs => (false, cs)

/-- The ExponentPart of a decimal literal (`e`, an optional sign and digits); 0 when there
is none or when no digit follows. -/
def exponentPart : List Char → Int
  | e :: rest =>
    if e == 'e' || e == 'E' then
      let signed := takeSign rest
      let ds := signed.2.takeWhile Char.isDigit
      if ds.isEmpty then 0
      else if signed.1 then -(digitsValue ds : Int) else (digitsValue ds : Int)
    else 0
  | [] => 0

/-- The function `parseFloat` on the characters of its argument: the longest prefix, after leading
white space, that is a decimal literal (`Infinity`, or digits with an optional fraction and
exponent), `NaN` when there is none. The result is the exact decimal value of the literal:
its rounding to a binary64 number, and with it the overflow of a literal such as `1e400`
to `Infinity`, is not modelled. -/
def parseFloatChars (cs : List Char) : JSNum :=
  let signed := takeSign (cs.dropWhile isStrWhiteSpace)
  let body := signed.2
  if "Infinity".data.isPrefixOf body then .inf signed.1
  else
    let intPart := body.takeWhile Char.isDigit
    let afterInt := body.dropWhile Char.isDigit
    let fracPart := match afterInt with
      | '.' :: r => r.takeWhile Char.isDigit
      | _ => []
    let afterFrac := match afterInt with
      | '.' :: r => r.dropWhile Char.isDigit
      | _ => afterInt
    if intPart.isEmpty && fracPart.isEmpty then .nan
    else
      let mantissa : ℚ := (digitsValue (intPart ++ fracPart) : ℚ) / (10 : ℚ) ^ fracPart.length
      let value : ℚ := mantissa * (10 : ℚ) ^ exponentPart afterFrac
      .fin (if signed.1 then -value else value)

/-- The function `parseFloat(string)`. -/
def parseFloat (s : String) : JSNum :=
  parseFloatChars s.data

/-- The value of a hexadecimal digit, if the character is one. -/
def hexDigit? (c : Char) : Option Nat :=
  if c.isDigit then some (c.toNat - 48)
  else if 'a' ≤ c ∧ c ≤ 'f' then some (c.toNat - 87)
  else if 'A' ≤ c ∧ c ≤ 'F' then some (c.toNat - 55)
  else none

/-- The function `parseInt(string)` without a radix, on the characters of its argument: leading white
space and a sign are skipped, a prefix `0x` or `0X` selects base 16, and the longest run of
digits is read; `NaN` when that run is empty. -/
def parseIntChars (cs : List Char) : JSNum :=
  let signed := takeSign (cs.dropWhile isStrWhiteSpace)
  let magnitude : Option Nat :=
    match signed.2 with
    | '0' :: x :: rest =>
      if x == 'x' || x == 'X' then
        let ds := rest.takeWhile (fun c => (hexDigit? c).isSome)
        if ds.isEmpty then none
        else some (ds.foldl (fun n c => 16 * n + (hexDigit? c).getD 0) 0)
      else some (digitsValue (('0' :: x :: rest).takeWhile Char.isDigit))
    | body =>
      let ds := body.takeWhile Char.isDigit
      if ds.isEmpty then none else some (digitsValue ds)
  match magnitude with
  | none => .nan
  | some n => .fin (if signed.1 then -(n : ℚ) else (n : ℚ))

/-- The function `parseInt(string)`. -/
def parseInt (s : String) : JSNum :=
  parseIntChars s.data

/-- The expression `value || fallback` on strings: the empty string is falsy. -/
def orDefault (value fallback : String) : String :=
  if value = "" then fallback else value

/-- One radio button of `dom.objectiveRadios`. -/
structure Radio where
  checked : Bool
  value : String
  deriving DecidableEq

/-- The values of the form controls cached in `dom` that the computation reads. -/
structure Dom where
  schoolName : String
  busCount : String
  seatsPerBus : String
  departureTime : String
  maxSpeedKmh : String
  fuelConsumption : String
  objectiveRadios : List Radio
  weightDuration : String
  deriving DecidableEq

/-- The function `getSelectedObjective`: the value of the last checked radio, `"time"` when none is. -/
def getSelectedObjective (dom : Dom) : String :=
  dom.objectiveRadios.foldl (fun val r => if r.checked then r.value else val) "time"

/-! ## School location -/

/-- The function `ensureSchoolCoords`. -/
def ensureSchoolCoords (geo : Geocoder) (dom : Dom) (st : State) (log : List GeoCall) :
    SchoolLookup :=
  match st.schoolLatLng with
  | some loc => ⟨.ok loc, st, log⟩
  | none =>
    let address := jsTrim dom.schoolName
    if address = "" then
      ⟨.error (.error "Please type/select the school name."), st, log⟩
    else
      match cacheGet st.studentCoordsByKey ("school:" ++ address) with
      | some loc => ⟨.ok loc, { st with schoolLatLng := some loc }, log⟩
      | none =>
        match geocodeAddress geo address log with
        | (some res, log1) =>
          let loc : LatLng := ⟨res.lat, res.lng⟩
          ⟨.ok loc,
            { st with
              studentCoordsByKey := cacheSet st.studentCoordsByKey ("school:" ++ address) loc
              schoolLatLng := some loc },
            log1⟩
        | (none, log1) => ⟨.error .geocodeRejected, st, log1⟩

/-! ## Route overlays -/

/-- The function `clearExistingRoutesOnMap`: every tracked renderer is taken off the map and the
collection is emptied. -/
def clearExistingRoutesOnMap (st : State) : State :=
  { st with activeRenderers := [] }

/-- The stroke colours of `drawRoutesOnMap`. -/
def colors : List String :=
  ["#2563eb", "#10b981", "#f97316", "#a855f7", "#ef4444"]

/-- The body of `routes.forEach((route, idx) => ...)` in `drawRoutesOnMap`: the renderer
created for the route at index `idx`, none when the route has fewer than two stops. -/
def routeRenderer (route : Route) (idx : Nat) : Option Renderer :=
  let stops := route.stops
  match stops with
  | first :: second :: more =>
    let last := (second :: more).getLast (List.cons_ne_nil second more)
    some
      { origin := ⟨first.lat, first.lng⟩
        destination := ⟨last.lat, last.lng⟩
        waypoints :=
          if stops.length > 2 then
            ((stops.drop 1).dropLast).map (fun s => (⟨s.lat, s.lng⟩ : LatLng))
          else []
        strokeColor := colors.get ⟨idx % colors.length, Nat.mod_lt idx (by decide)⟩ }
  | _ => none

/-- The loop `routes.forEach((route, idx) => ...)` of `drawRoutesOnMap`, from index `idx`
and the renderers tracked so far. -/
def drawLoop : List Route → Nat → List Renderer → List Renderer
  | [], _, tracked => tracked
  | route :: rest, idx, tracked =>
    match routeRenderer route idx with
    | some renderer => drawLoop rest (idx + 1) (tracked ++ [renderer])
    | none => drawLoop rest (idx + 1) tracked

/-- The function `drawRoutesOnMap`. -/
def drawRoutesOnMap (routes : Option (List Route)) (st : State) : State :=
  match routes with
  | none => st
  | some rs =>
    if !st.map then st
    else
      let st1 := { st with directionsService := true }
      let st2 := clearExistingRoutesOnMap st1
      { st2 with activeRenderers := drawLoop rs 0 st2.activeRenderers }

/-! ## The computation cycle -/

/-- A call of `showMessage(msg, type)`. -/
structure Notification where
  msg : String
  type : String
  deriving DecidableEq

/-- How the request to `/optimize` ends: the promise of `fetch` (or of `resp.json()`)
rejects with an error, the response is not OK, or it is OK with a JSON body (`none` for
the body `null`). -/
inductive FetchOutcome where
  | rejected (message : String) : FetchOutcome
  | notOk : FetchOutcome
  | ok (result : Option OptResult) : FetchOutcome
  deriving DecidableEq

/-- The remote optimizer behind `POST /optimize`. -/
abbrev Optimizer := Payload → FetchOutcome

/-- What one run of `handleComputeRoute` leaves behind: the session state, the geocoder
call log, the request bodies sent to the optimizer and the notifications shown. -/
structure Cycle where
  state : State
  log : List GeoCall
  requests : List Payload
  messages : List Notification
  deriving DecidableEq

/-- The text shown by the `catch` of `handleComputeRoute`:
`err.message || "Error computing routes."`. -/
def errorText : Thrown → String
  | .error message => orDefault message "Error computing routes."
  | .geocodeRejected => "Error computing routes."

/-- The payload assembled by `handleComputeRoute` from the resolved school, the collected
stops and the form controls. -/
def buildPayload (dom : Dom) (school : LatLng) (students : List Stop) : Payload :=
  let obj := getSelectedObjective dom
  let objective := if obj = "hybrid" then "hybrid" else obj
  { school := { name := jsTrim dom.schoolName, lat := school.lat, lng := school.lng }
    students := students
    busCount := parseInt (orDefault dom.busCount "1")
    busCapacity := parseInt (orDefault dom.seatsPerBus "10")
    departureTime := if dom.departureTime = "" then none else some dom.departureTime
    maxSpeedKmh := parseFloat (orDefault dom.maxSpeedKmh "60")
    fuelConsumptionLper100 := parseFloat (orDefault dom.fuelConsumption "6.0")
    objective := objective
    weightDuration := if objective = "hybrid" then some (parseFloat dom.weightDuration) else none }

/-- The `TypeError` that the engine throws when `toFixed` is read from a metric that is
missing; the text of the message is the one of V8. -/
def missingMetric : Thrown :=
  .error "Cannot read properties of undefined (reading \x27toFixed\x27)"

/-- The `TypeError` that the engine throws when `summary` is read from the body `null`. -/
def nullBody : Thrown :=
  .error "Cannot read properties of null (reading \x27summary\x27)"

/-- The function `renderSummary`, as far as the session is concerned: it returns for a
missing summary, and throws when `toFixed` is called on a metric that is not a number.
What it writes to the summary box is left out (see `hybridWeights` for the weights). -/
def renderSummary (summary : Option Summary) : Except Thrown Unit :=
  match summary with
  | none => .ok ()
  | some s =>
    if s.avgDistanceKm.isSome ∧ s.avgDurationMin.isSome ∧ s.totalFuelLiters.isSome then .ok ()
    else .error missingMetric

/-- The function `renderRoutes`, as far as the session is concerned: it returns for
missing or empty routes, and throws at the first route one of whose metrics is not a
number. The stops of a `Route` are typed with numeric coordinates, so the `toFixed` of a
stop does not throw here; a throw there would leave the session in the same state. The
cards it writes are left out; the `change` handler it gives to the driver select of a
card is `assignDriver`. -/
def renderRoutes (routes : Option (List Route)) : Except Thrown Unit :=
  match routes with
  | none => .ok ()
  | some rs =>
    if rs.all (fun route =>
        route.totalDistanceKm.isSome && route.totalDurationMin.isSome &&
          route.fuelLiters.isSome) then .ok ()
    else .error missingMetric

/-- The statements `renderSummary(result.summary); renderRoutes(result.routes);` of
`handleComputeRoute`: the body whose routes are drawn next, or what was thrown. -/
def renderResult (result : Option OptResult) : Except Thrown OptResult :=
  match result with
  | none => .error nullBody
  | some body =>
    match renderSummary body.summary with
    | .error err => .error err
    | .ok _ =>
      match renderRoutes body.routes with
      | .error err => .error err
      | .ok _ => .ok body

/-- The function `handleComputeRoute`. `students` is the roster `window.students`, `dom`
the form controls, `geo` and `optimizer` the two remote services. What it writes to the
page (the label of the button, the summary box, the route cards) is not part of the
session state and is left out. The session result is replaced as soon as the body has
been received; a throw of the rendering that follows ends in the `catch` like every other
throw. -/
def handleComputeRoute (geo : Geocoder) (optimizer : Optimizer) (students : List Stop)
    (dom : Dom) (st : State) (log : List GeoCall) : Cycle :=
  let st1 := clearExistingRoutesOnMap st
  match ensureSchoolCoords geo dom st1 log with
  | ⟨.error err, st2, log2⟩ => ⟨st2, log2, [], [⟨errorText err, "error"⟩]⟩
  | ⟨.ok school, st2, log2⟩ =>
    match collectStudentsForPayload geo students st2 log2 with
    | ⟨.error err, cache, log3⟩ =>
      ⟨{ st2 with studentCoordsByKey := cache }, log3, [], [⟨errorText err, "error"⟩]⟩
    | ⟨.ok stops, cache, log3⟩ =>
      let st3 := { st2 with studentCoordsByKey := cache }
      let payload := buildPayload dom school stops
      match optimizer payload with
      | .rejected message =>
        ⟨st3, log3, [payload], [⟨errorText (.error message), "error"⟩]⟩
      | .notOk => ⟨st3, log3, [payload], [⟨"Failed to compute routes.", "error"⟩]⟩
      | .ok result =>
        let st4 :=
          { st3 with
            lastOptimization := some { payload := payload, result := result, assignments := [] } }
        match renderResult result with
        | .error err => ⟨st4, log3, [payload], [⟨errorText err, "error"⟩]⟩
        | .ok body =>
          let st5 := drawRoutesOnMap body.routes st4
          ⟨st5, log3, [payload], [⟨"Routes computed successfully.", "success"⟩]⟩

/-! ## Concrete sessions -/

/-- A geocoder that resolves nothing. -/
def noGeocoder : Geocoder := fun _ _ => none

/-- A geocoder that resolves every address except `"nowhere"` and the addresses that are
links. -/
def townGeocoder : Geocoder := fun _ address =>
  if address = "nowhere" ∨ isHttpUrl address then none else some ⟨.fin 33, .fin 7⟩

/-- The roster student `S1` of the end-to-end scenario, with resolved coordinates. -/
def scenarioS1 : Stop :=
  { id := "S1", name := "Student one", address := "Rue 32, Hay Mohammedia",
    lat := some (.fin 33), lng := some (.fin 7), mapsLink := none }

/-- The roster student `S2` of the end-to-end scenario, with address `X`. -/
def scenarioS2 : Stop :=
  { id := "S2", name := "Student two", address := "X", lat := none, lng := none,
    mapsLink := none }

/-- The manual stop `M1` of the end-to-end scenario. -/
def scenarioM1 : ManualStop :=
  { id := "M1", name := "Manual stop 1", lat := .fin 34, lng := .fin 8 }

/-- The session of the end-to-end scenario: `S2` excluded, one manual stop. -/
def scenarioState : State :=
  { map := true, schoolLatLng := some ⟨.fin 33, .fin 7⟩, manualStops := [scenarioM1],
    extraStudents := [], excludedIds := ["S2"], lastOptimization := none,
    directionsService := false, activeRenderers := [], studentCoordsByKey := [] }

/-- A session with nothing excluded, no manual stop and an empty cache. -/
def plainState : State :=
  { map := true, schoolLatLng := some ⟨.fin 33, .fin 7⟩, manualStops := [],
    extraStudents := [], excludedIds := [], lastOptimization := none,
    directionsService := false, activeRenderers := [], studentCoordsByKey := [] }

/-- A stop `A` with a plain address and no coordinates. -/
def stopA : Stop :=
  { id := "001", name := "A", address := "Ain Chok, Casablanca", lat := none, lng := none,
    mapsLink := none }

/-- A stop `B` whose address cannot be geocoded and is not a link. -/
def stopB : Stop :=
  { id := "002", name := "B", address := "nowhere", lat := none, lng := none,
    mapsLink := none }

/-- A stop `C` with a plain address and no coordinates. -/
def stopC : Stop :=
  { id := "003", name := "C", address := "Hay Hassani, Casablanca", lat := none, lng := none,
    mapsLink := none }

/-- A stop pasted as a map link. -/
def stopLink : Stop :=
  { id := "X001", name := "L", address := "https://maps.example/x", lat := none, lng := none,
    mapsLink := none }

/-- The weight of a hybrid objective lies in the closed interval from 0 to 1. -/
def JSNum.inUnitInterval : JSNum → Prop
  | .fin q => 0 ≤ q ∧ q ≤ 1
  | _ => False

/-- An optimizer that always answers with a non-OK response. -/
def failingOptimizer : Optimizer := fun _ => .notOk

/-- A response body with one route of two stops. -/
def sampleResult : OptResult :=
  { summary := none
    routes := some [{ busId := some "1", totalDistanceKm := some (.fin 12),
                      totalDurationMin := some (.fin 30), fuelLiters := some (.fin 1),
                      usedSeats := .fin 2, capacity := .fin 10,
                      stops := [⟨"School", .fin 33, .fin 7⟩, ⟨"A", .fin 34, .fin 8⟩] }] }

/-- An optimizer that always answers OK with `sampleResult`. -/
def sampleOptimizer : Optimizer := fun _ => .ok (some sampleResult)

/-- Form controls with the objective `time`. -/
def timeDom : Dom :=
  { schoolName := " Ecole ", busCount := "2", seatsPerBus := "", departureTime := "07:30",
    maxSpeedKmh := "", fuelConsumption := "", objectiveRadios := [⟨true, "time"⟩,
      ⟨false, "distance"⟩, ⟨false, "hybrid"⟩], weightDuration := "0.7" }

/-- Form controls with the objective `hybrid` and the weight text `1.5`. -/
def hybridDom : Dom :=
  { timeDom with
    objectiveRadios := [⟨false, "time"⟩, ⟨false, "distance"⟩, ⟨true, "hybrid"⟩]
    weightDuration := "1.5" }

/-- A renderer left on the map by an earlier computation. -/
def staleRenderer : Renderer :=
  { origin := ⟨.fin 33, .fin 7⟩, destination := ⟨.fin 34, .fin 8⟩, waypoints := [],
    strokeColor := "#2563eb" }

/-- The session result of an earlier successful computation, with a driver assigned to
route 0. -/
def priorOptimization : Optimization :=
  { payload :=
      { school := ⟨"Ecole", .fin 33, .fin 7⟩, students := [scenarioS1], busCount := .fin 1,
        busCapacity := .fin 10, departureTime := none, maxSpeedKmh := .fin 60,
        fuelConsumptionLper100 := .fin 6, objective := "time", weightDuration := none }
    result := some sampleResult
    assignments := [(0, some "7")] }

/-- A session after an earlier successful computation: a session result with an
assignment and one overlay on the map. -/
def laterState : State :=
  { map := true, schoolLatLng := some ⟨.fin 33, .fin 7⟩, manualStops := [], extraStudents := [],
    excludedIds := [], lastOptimization := some priorOptimization, directionsService := true,
    activeRenderers := [staleRenderer], studentCoordsByKey := [] }

/-- A second stop at the address of `stopA`. -/
def stopA2 : Stop :=
  { id := "004", name := "A2", address := "Ain Chok, Casablanca", lat := none, lng := none,
    mapsLink := none }

/-- The session `plainState` after the address of `stopA` has been geocoded. -/
def cachedState : State :=
  { plainState with studentCoordsByKey := [("Ain Chok, Casablanca", ⟨.fin 33, .fin 7⟩)] }

/-- A response body whose only route has two stops and no `totalDistanceKm`. -/
def brokenResult : OptResult :=
  { summary := none
    routes := some [{ busId := some "1", totalDistanceKm := none,
                      totalDurationMin := some (.fin 30), fuelLiters := some (.fin 1),
                      usedSeats := .fin 2, capacity := .fin 10,
                      stops := [⟨"School", .fin 33, .fin 7⟩, ⟨"A", .fin 34, .fin 8⟩] }] }

/-- An optimizer that always answers OK with `brokenResult`. -/
def brokenOptimizer : Optimizer := fun _ => .ok (some brokenResult)

/-! ## The exclusion set and the student table -/

/-- The method `Set.prototype.delete` on the list of members: the member is gone. -/
def setDelete (members : List String) (x : String) : List String :=
  members.filter (fun y => y != x)

/-- The method `Set.prototype.add` on the list of members: a new member comes last. -/
def setAdd (members : List String) (x : String) : List String :=
  if members.contains x then members else members ++ [x]

/-- The `onclick` handler that `renderStudentsTable` gives to the button of the student
`id`: an excluded id is included again, an included id is excluded. -/
def toggleExcluded (id : String) (st : State) : State :=
  if st.excludedIds.contains id then { st with excludedIds := setDelete st.excludedIds id }
  else { st with excludedIds := setAdd st.excludedIds id }

/-- A place chosen in the address autocomplete; it may come without geometry. -/
structure Place where
  geometry : Option LatLng
  deriving DecidableEq

/-- The inline form for adding a student: the two inputs and the place that the
autocomplete remembered (`_lastPlace`). -/
structure InlineForm where
  name : String
  address : String
  lastPlace : Option Place
  deriving DecidableEq

/-- What `handleAddInlineStudent` leaves behind: the session state, the inline form and the
notifications shown. -/
structure Added where
  state : State
  form : InlineForm
  messages : List Notification
  deriving DecidableEq

/-- The method `String.prototype.padStart(targetLength, padString)`: the string is
preceded by the pad string, repeated and cut to the missing length. -/
def padStart (s : String) (targetLength : Nat) (padString : String) : String :=
  if targetLength ≤ s.length ∨ padString = "" then s
  else
    ⟨(List.range (targetLength - s.length)).map
        (fun i => padString.data.getD (i % padString.length) ' ') ++ s.data⟩

/-- The id given to the added student number `count + 1`:
`X` followed by `String(count + 1).padStart(3, "0")`. -/
def inlineStudentId (count : Nat) : String :=
  "X" ++ padStart (toString (count + 1)) 3 "0"

/-- The function `handleAddInlineStudent`. -/
def handleAddInlineStudent (form : InlineForm) (st : State) : Added :=
  let name := jsTrim form.name
  let addr := jsTrim form.address
  if name = "" then ⟨st, form, [⟨"Please enter a student name.", "error"⟩]⟩
  else if addr = "" then ⟨st, form, [⟨"Enter an address or Google Maps link.", "error"⟩]⟩
  else
    let id := inlineStudentId st.extraStudents.length
    let coords : Option LatLng :=
      match form.lastPlace with
      | some place => place.geometry
      | none => none
    let s : Stop :=
      { id := id, name := name, address := addr, lat := coords.map LatLng.lat,
        lng := coords.map LatLng.lng, mapsLink := none }
    ⟨{ st with
        extraStudents := st.extraStudents ++ [s]
        excludedIds := setDelete st.excludedIds id },
      { name := "", address := "", lastPlace := none }, []⟩

/-- The id given to the manual stop number `count + 1`: `M` followed by the number. -/
def manualStopId (count : Nat) : String :=
  "M" ++ toString (count + 1)

/-- The function `addManualStop`: the state afterwards and the notification shown. -/
def addManualStop (latLng : LatLng) (st : State) : State × Notification :=
  ({ st with
      manualStops := st.manualStops ++
        [{ id := manualStopId st.manualStops.length
           name := "Manual stop " ++ toString (st.manualStops.length + 1)
           lat := latLng.lat, lng := latLng.lng }] },
    ⟨"Manual stop added to route candidates (CTRL+click).", "info"⟩)

/-- The function `setSchoolLocation`: the school location is the given position, and an
empty school input receives the name `nameFrom`. -/
def setSchoolLocation (latLng : LatLng) (nameFrom : String) (st : State) (dom : Dom) :
    State × Dom :=
  ({ st with schoolLatLng := some ⟨latLng.lat, latLng.lng⟩ },
    if dom.schoolName = "" then { dom with schoolName := nameFrom } else dom)

/-- The value of `state` when the script is loaded. -/
def initialState : State :=
  { map := false, schoolLatLng := none, manualStops := [], extraStudents := [],
    excludedIds := [], lastOptimization := none, directionsService := false,
    activeRenderers := [], studentCoordsByKey := [] }

/-- The centre of the map in `initMap`. -/
def defaultCenter : LatLng := ⟨.fin 33.5724, .fin (-7.6570)⟩

/-- The function `initMap`: the map is created and the school is put at the default
centre. -/
def initMap (st : State) (dom : Dom) : State × Dom :=
  setSchoolLocation defaultCenter "Default center" { st with map := true } dom

/-- The roster `students` of data.js. -/
def rosterStudents : List Stop :=
  [{ id := "001", name := "Youssef Amrani", address := "Rue 32, Hay Mohammedia", lat := none,
     lng := none, mapsLink := none },
   { id := "002", name := "Imane Talbi", address := "Quartier Californie, Casablanca",
     lat := none, lng := none, mapsLink := none },
   { id := "003", name := "Omar Bouziane", address := "Ain Chok, Casablanca", lat := none,
     lng := none, mapsLink := none },
   { id := "004", name := "Nadia Lamrani", address := "Hay Hassani, Casablanca", lat := none,
     lng := none, mapsLink := none }]

/-- The states of a session: it starts with no added student and no manual stop; students
are added with `handleAddInlineStudent`, manual stops with `addManualStop`; every other
operation leaves the two lists as they are. -/
inductive Reachable : State → Prop where
  | start (st : State) (hextra : st.extraStudents = []) (hmanual : st.manualStops = []) :
    Reachable st
  | addInline (form : InlineForm) (st : State) (h : Reachable st) :
    Reachable (handleAddInlineStudent form st).state
  | addManual (latLng : LatLng) (st : State) (h : Reachable st) :
    Reachable (addManualStop latLng st).1
  | other (st next : State) (h : Reachable st)
    (hextra : next.extraStudents = st.extraStudents)
    (hmanual : next.manualStops = st.manualStops) : Reachable next

/-! ## Driver assignment -/

/-- The read `assignments[idx]`: `none` when the ledger has no entry for the index. -/
def assignGet : List (Nat × Option String) → Nat → Option (Option String)
  | [], _ => none
  | (k, v) :: rest, idx => if k = idx then some v else assignGet rest idx

/-- The write `assignments[idx] = v`. -/
def assignSet : List (Nat × Option String) → Nat → Option String → List (Nat × Option String)
  | [], idx, v => [(idx, v)]
  | (k, w) :: rest, idx, v =>
    if k = idx then (k, v) :: rest else (k, w) :: assignSet rest idx v

/-- The `change` handler that `renderRoutes` gives to the driver select of the route at
index `idx`, with `value` the value of the select: the state afterwards and the
notification shown. -/
def assignDriver (idx : Nat) (value : String) (st : State) : State × Notification :=
  let v : Option String := if value = "" then none else some value
  (match st.lastOptimization with
    | some opt =>
      { st with
        lastOptimization := some { opt with assignments := assignSet opt.assignments idx v } }
    | none => st,
    ⟨"Driver successfully assigned to this route!", "success"⟩)

/-! ## The request body -/

/-- The property names of the request body, in the order in which `handleComputeRoute`
sets them. -/
def payloadKeys (p : Payload) : List String :=
  ["school", "students", "busCount", "busCapacity", "departureTime", "maxSpeedKmh",
    "fuelConsumptionLper100", "objective"] ++
    (if p.weightDuration.isSome then ["weightDuration"] else [])

/-- A route with the given stops. -/
def routeOf (stops : List RouteStop) : Route :=
  { busId := none, totalDistanceKm := some (.fin 1), totalDurationMin := some (.fin 1),
    fuelLiters := some (.fin 1), usedSeats := .fin 1, capacity := .fin 10, stops := stops }

/-- Three routes: with three stops, with one stop, with two stops. -/
def threeRoutes : List Route :=
  [routeOf [⟨"School", .fin 33, .fin 7⟩, ⟨"A", .fin 34, .fin 8⟩, ⟨"B", .fin 35, .fin 9⟩],
   routeOf [⟨"School", .fin 33, .fin 7⟩],
   routeOf [⟨"School", .fin 33, .fin 7⟩, ⟨"C", .fin 36, .fin 6⟩]]

/-- The session after `initialState` in which two students and then a manual stop were
added. -/
def twoAddedState : State :=
  (addManualStop ⟨.fin 34, .fin 8⟩
    (handleAddInlineStudent ⟨"Sara", "Maarif, Casablanca", none⟩
      (handleAddInlineStudent ⟨"Adam", "Bourgogne, Casablanca", some ⟨some ⟨.fin 33, .fin 7⟩⟩⟩
        initialState).state).state).1

/-- A geocoder that knows the school `Ecole`, the school `Lycee` and the address
`school:Ecole`, each at a place of its own. -/
def namesakeGeocoder : Geocoder := fun _ address =>
  if address = "Ecole" then some ⟨.fin 33, .fin 7⟩
  else if address = "Lycee" then some ⟨.fin 36, .fin 6⟩
  else if address = "school:Ecole" then some ⟨.fin 35, .fin 9⟩
  else none

/-- A student whose address is the text `school:Ecole`. -/
def stopNamesake : Stop :=
  { id := "X001", name := "N", address := "school:Ecole", lat := none, lng := none,
    mapsLink := none }

/-- A session in which the school location is not set. -/
def unsetSchoolState : State :=
  { plainState with schoolLatLng := none }

/-- Form controls with an empty school input. -/
def blankDom : Dom :=
  { timeDom with schoolName := "" }

/-! ## The hybrid weights of the summary -/

/-- The rounding that `Number.prototype.toFixed(f)` applies to a rational `q`, on its
absolute value: the integer `n` for which `n / 10^f` is nearest, the larger one of two. -/
def roundScaled (q : ℚ) (f : Nat) : Nat :=
  (2 * q.num.natAbs * 10 ^ f + q.den) / (2 * q.den)

/-- The text that `toFixed(f)` writes for the scaled integer `n`: its decimal digits,
padded with zeros to at least `f + 1` digits, with a point before the last `f` digits. -/
def fixedDigits (n f : Nat) : String :=
  let m := padStart (toString n) (f + 1) "0"
  if f = 0 then m
  else ⟨m.data.take (m.length - f)⟩ ++ "." ++ ⟨m.data.drop (m.length - f)⟩

/-- The method `Number.prototype.toFixed(f)` (for a finite number below `10^21` in absolute
value; from there on JavaScript writes the exponent notation, which is not modelled). -/
def toFixed (x : JSNum) (f : Nat) : String :=
  match x with
  | .nan => "NaN"
  | .inf neg => if neg then "-Infinity" else "Infinity"
  | .fin q => (if q < 0 then "-" else "") ++ fixedDigits (roundScaled q f) f

/-- The conversion of a text written by `toFixed` to a number, as in `1 - w` with `w` a
string: the decimal value, rounded to a JavaScript number by `fl`. -/
def toNumberRounded (fl : ℚ → ℚ) (s : String) : JSNum :=
  match parseFloat s with
  | .fin q => .fin (fl q)
  | other => other

/-- The expression `1 - x` on JavaScript numbers, the result rounded by `fl`. -/
def oneMinus (fl : ℚ → ℚ) : JSNum → JSNum
  | .fin q => .fin (fl (1 - q))
  | .nan => .nan
  | .inf neg => .inf (!neg)

/-- The two weights that `renderSummary` shows in the paragraph `Hybrid weights` (the
markup around them is left out): the text of the time weight,
`parseFloat(summary.weightDuration).toFixed(2)`, and the text of the distance weight,
`(1 - w).toFixed(2)` with `w` the first text; none when the objective is not `hybrid`.
The parameter `fl` is the rounding of a real value to a JavaScript number; the identity
gives exact arithmetic. -/
def hybridWeights (fl : ℚ → ℚ) (summary : Summary) : Option (String × String) :=
  if summary.objective = "hybrid" then
    let w := toFixed (match summary.weightDuration with
      | some x => x
      | none => .nan) 2
    some (w, toFixed (oneMinus fl (toNumberRounded fl w)) 2)
  else none

/-- A hybrid summary with the weight 0.7. -/
def hybridSummary : Summary :=
  { objective := "hybrid", totalStudents := .fin 4, busesUsed := .fin 1, busCount := .fin 2,
    avgDistanceKm := some (.fin 12), avgDurationMin := some (.fin 30),
    totalFuelLiters := some (.fin 1),
    maxSpeedKmh := .fin 60, departureTime := some "07:30",
    weightDuration := some (.fin (7 / 10)) }

/-! ## The mock data and the dashboard helpers (data.js) -/

/-- A driver of `drivers`. A property that the helpers test with `typeof` is `none` when
it is missing or is not a number, so `typeof d.fuelLiters === "number"` is
`d.fuelLiters.isSome`; as a number it can be any JavaScript number, `NaN` included. -/
structure Driver where
  busNumber : ℚ
  name : String
  contact : String
  fuelLiters : Option JSNum
  costMAD : Option JSNum
  punctuality : Option JSNum
  deriving DecidableEq

/-- A route of the sample `routes` of data.js. -/
structure SampleRoute where
  id : String
  driver : String
  distanceKm : ℚ
  fuelLiters : ℚ
  costMAD : ℚ
  stops : ℚ
  deriving DecidableEq

/-- The arrays of data.js and the arrays that the helpers create while they run: the
global arrays `drivers`, `students` and `routes`, and the arrays of drivers made by a
spread, a `filter` or a `slice`, in the order of their creation. -/
structure DataStore where
  drivers : List Driver
  students : List Stop
  routes : List SampleRoute
  temporaries : List (List Driver)
  deriving DecidableEq

/-- A reference to an array of drivers: the global `drivers`, or an array created by a
helper. -/
inductive ArrayRef where
  | drivers : ArrayRef
  | temporary (index : Nat) : ArrayRef
  deriving DecidableEq

/-- The elements of the array behind a reference. -/
def readArray (store : DataStore) : ArrayRef → List Driver
  | .drivers => store.drivers
  | .temporary index => store.temporaries.getD index []

/-- The store after the array behind a reference has been overwritten in place. -/
def writeArray (store : DataStore) : ArrayRef → List Driver → DataStore
  | .drivers, elements => { store with drivers := elements }
  | .temporary index, elements =>
    { store with temporaries := store.temporaries.set index elements }

/-- A new array with the given elements: its reference and the store that holds it. -/
def newArray (store : DataStore) (elements : List Driver) : ArrayRef × DataStore :=
  (.temporary store.temporaries.length,
    { store with temporaries := store.temporaries ++ [elements] })

/-- The spread `[...array]`: a new array with the same elements. -/
def spreadArray (store : DataStore) (array : ArrayRef) : ArrayRef × DataStore :=
  newArray store (readArray store array)

/-- The method `Array.prototype.filter`: a new array with the elements that pass. -/
def filterArray (store : DataStore) (array : ArrayRef) (keep : Driver → Bool) :
    ArrayRef × DataStore :=
  newArray store ((readArray store array).filter keep)

/-- The method `Array.prototype.sort(comparefn)`: the array is sorted in place, stably, and
returned; `before a b` says that `comparefn(a, b)` is not positive. -/
def sortArray (store : DataStore) (array : ArrayRef) (before : Driver → Driver → Prop)
    [DecidableRel before] : ArrayRef × DataStore :=
  (array, writeArray store array ((readArray store array).insertionSort before))

/-- The method `Array.prototype.slice(0, end)`: a new array with the first elements. -/
def sliceArray (store : DataStore) (array : ArrayRef) (limit : Nat) : ArrayRef × DataStore :=
  newArray store ((readArray store array).take limit)

/-- The expression `a - b` on two numbers. -/
def jsSub : JSNum → JSNum → JSNum
  | .fin p, .fin q => .fin (p - q)
  | .nan, _ => .nan
  | _, .nan => .nan
  | .inf a, .inf b => if a = b then .nan else .inf a
  | .inf a, .fin _ => .inf a
  | .fin _, .inf b => .inf (!b)

/-- The expression `a + b` on two numbers. -/
def jsAdd : JSNum → JSNum → JSNum
  | .fin p, .fin q => .fin (p + q)
  | .nan, _ => .nan
  | _, .nan => .nan
  | .inf a, .inf b => if a = b then .inf a else .nan
  | .inf a, .fin _ => .inf a
  | .fin _, .inf b => .inf b

/-- The expression `x * c` for a positive finite constant `c`. -/
def jsTimes (x : JSNum) (c : ℚ) : JSNum :=
  match x with
  | .fin q => .fin (q * c)
  | other => other

/-- The expression `x / d` for a positive finite constant `d`. -/
def jsDividedBy (x : JSNum) (d : ℚ) : JSNum :=
  match x with
  | .fin q => .fin (q / d)
  | other => other

/-- The function `Math.round`: the nearest integer, the larger one of two. -/
def mathRound : JSNum → JSNum
  | .fin q => .fin ⌊q + 1 / 2⌋
  | other => other

/-- The comparison `a <= b` on two numbers; it is false as soon as one is `NaN`. -/
def jsLe : JSNum → JSNum → Prop
  | .fin p, .fin q => p ≤ q
  | .nan, _ => False
  | _, .nan => False
  | .inf a, .inf b => a = true ∨ b = false
  | .inf a, .fin _ => a = true
  | .fin _, .inf b => b = false

/-- The value of `a - b` on two properties that are numbers; the compare functions are
only called on the drivers that the filter has kept, and a property that is not a number
counts as `NaN` here. -/
def minus (a b : Option JSNum) : JSNum :=
  match a, b with
  | some x, some y => jsSub x y
  | _, _ => .nan

/-- Whether a result of a compare function is not positive; `sort` takes `NaN` as
zero. -/
def notPositive : JSNum → Prop
  | .fin v => v ≤ 0
  | .nan => True
  | .inf neg => neg = true

instance : DecidablePred notPositive := fun v =>
  match v with
  | .fin v => inferInstanceAs (Decidable (v ≤ 0))
  | .nan => isTrue trivial
  | .inf neg => inferInstanceAs (Decidable (neg = true))

/-- The order of `(a, b) => a.fuelLiters - b.fuelLiters`. -/
def byFuel (a b : Driver) : Prop :=
  notPositive (minus a.fuelLiters b.fuelLiters)

instance : DecidableRel byFuel := fun a b =>
  inferInstanceAs (Decidable (notPositive (minus a.fuelLiters b.fuelLiters)))

/-- The order of `(a, b) => b.punctuality - a.punctuality`. -/
def byPunctuality (a b : Driver) : Prop :=
  notPositive (minus b.punctuality a.punctuality)

instance : DecidableRel byPunctuality := fun a b =>
  inferInstanceAs (Decidable (notPositive (minus b.punctuality a.punctuality)))

/-- The function `getTopDriversByFuel(limit)`: the drivers returned and the store
afterwards. -/
def getTopDriversByFuel (store : DataStore) (limit : Nat := 5) : List Driver × DataStore :=
  let copy := spreadArray store .drivers
  let kept := filterArray copy.2 copy.1 (fun d => d.fuelLiters.isSome)
  let sorted := sortArray kept.2 kept.1 byFuel
  let top := sliceArray sorted.2 sorted.1 limit
  (readArray top.2 top.1, top.2)

/-- The function `getTopDriversByPunctuality(limit)`: the drivers returned and the store
afterwards. -/
def getTopDriversByPunctuality (store : DataStore) (limit : Nat := 5) :
    List Driver × DataStore :=
  let copy := spreadArray store .drivers
  let kept := filterArray copy.2 copy.1 (fun d => d.punctuality.isSome)
  let sorted := sortArray kept.2 kept.1 byPunctuality
  let top := sliceArray sorted.2 sorted.1 limit
  (readArray top.2 top.1, top.2)

/-- The object returned by `getDashboardTotals`. -/
structure DashboardTotals where
  totalDrivers : Nat
  totalStudents : Nat
  totalRoutes : Nat
  avgPunctuality : JSNum
  onTimePercent : JSNum
  totalFuelLiters : JSNum
  totalFuelMAD : JSNum
  deriving DecidableEq

/-- The function `getDashboardTotals`: the totals and the store afterwards. -/
def getDashboardTotals (store : DataStore) : DashboardTotals × DataStore :=
  let totalDrivers := store.drivers.length
  let totalPunct := store.drivers.foldl
    (fun sum d => match d.punctuality with
      | some x => jsAdd sum x
      | none => sum) (.fin 0)
  let totalFuelLiters := store.drivers.foldl
    (fun sum d => match d.fuelLiters with
      | some x => jsAdd sum x
      | none => sum) (.fin 0)
  let totalFuelMAD := store.drivers.foldl
    (fun sum d => match d.costMAD with
      | some x => jsAdd sum x
      | none => sum) (.fin 0)
  let avgPunctuality : JSNum :=
    if totalDrivers > 0 then jsDividedBy totalPunct totalDrivers else .fin 0
  ({ totalDrivers := totalDrivers, totalStudents := store.students.length,
     totalRoutes := store.routes.length, avgPunctuality := avgPunctuality,
     onTimePercent := mathRound (jsTimes (jsDividedBy avgPunctuality 5) 100),
     totalFuelLiters := totalFuelLiters, totalFuelMAD := totalFuelMAD },
    store)

/-- The data of data.js. -/
def mockData : DataStore :=
  { drivers :=
      [{ busNumber := 7, name := "Ahmed Idrissi", contact := "+212 6 87 23 45 10",
         fuelLiters := some (.fin 23.5), costMAD := some (.fin 220),
         punctuality := some (.fin 4.5) },
       { busNumber := 9, name := "Hassan El Alaoui", contact := "+212 6 45 32 11 20",
         fuelLiters := some (.fin 25.2), costMAD := some (.fin 240),
         punctuality := some (.fin 4.2) },
       { busNumber := 11, name := "Fatima Benali", contact := "+212 6 77 00 22 55",
         fuelLiters := some (.fin 21.8), costMAD := some (.fin 210),
         punctuality := some (.fin 4.8) }]
    students := rosterStudents
    routes :=
      [{ id := "R001", driver := "Ahmed Idrissi", distanceKm := 45.3, fuelLiters := 12.8,
         costMAD := 120, stops := 18 },
       { id := "R002", driver := "Hassan El Alaoui", distanceKm := 52.7, fuelLiters := 14.2,
         costMAD := 138, stops := 20 }]
    temporaries := [] }

/-- The data of data.js with other fuel values: 3 for the first driver, `NaN` for the
second, 1 for the third. -/
def nanData : DataStore :=
  { mockData with
    drivers :=
      [{ busNumber := 7, name := "Ahmed Idrissi", contact := "+212 6 87 23 45 10",
         fuelLiters := some (.fin 3), costMAD := some (.fin 220),
         punctuality := some (.fin 4.5) },
       { busNumber := 9, name := "Hassan El Alaoui", contact := "+212 6 45 32 11 20",
         fuelLiters := some .nan, costMAD := some (.fin 240),
         punctuality := some (.fin 4.2) },
       { busNumber := 11, name := "Fatima Benali", contact := "+212 6 77 00 22 55",
         fuelLiters := some (.fin 1), costMAD := some (.fin 210),
         punctuality := some (.fin 4.8) }] }

/-! # Theorems -/

/-! ## The geocode cache -/

theorem cacheGet_cacheSet_self (cache : List (String × LatLng)) (key : String) (v : LatLng) :
    cacheGet (cacheSet cache key v) key = some v := by
  induction cache with
  | nil => simp [cacheSet, cacheGet]
  | cons e rest ih =>
    obtain ⟨k, w⟩ := e
    by_cases hk : k = key
    · simp [cacheSet, cacheGet, hk]
    · simp [cacheSet, cacheGet, hk, ih]

theorem cacheGet_cacheSet_of_ne (cache : List (String × LatLng)) (key other : String)
    (v : LatLng) (hne : other ≠ key) :
    cacheGet (cacheSet cache key v) other = cacheGet cache other := by
  induction cache with
  | nil =>
    have hne2 : key ≠ other := fun h => hne h.symm
    simp [cacheSet, cacheGet, hne2]
  | cons e rest ih =>
    obtain ⟨k, w⟩ := e
    by_cases hk : k = key
    · subst hk
      have hne2 : k ≠ other := fun h => hne h.symm
      simp [cacheSet, cacheGet, hne2]
    · by_cases hko : k = other
      · subst hko
        simp [cacheSet, cacheGet, hk]
      · simp [cacheSet, cacheGet, hk, hko, ih]

/-- Writing a key that is absent keeps every entry that is present. -/
theorem cacheGet_cacheSet_keeps (cache : List (String × LatLng)) (key other : String)
    (v w : LatLng) (hmiss : cacheGet cache key = none) (hother : cacheGet cache other = some w) :
    cacheGet (cacheSet cache key v) other = some w := by
  have hne : other ≠ key := by
    intro h
    rw [h, hmiss] at hother
    cases hother
  rw [cacheGet_cacheSet_of_ne cache key other v hne, hother]

/-! ## One turn of the loop of `collectStudentsForPayload` -/

theorem collectLoop_nil (geo : Geocoder) (out : List Stop) (cache : List (String × LatLng))
    (log : List GeoCall) : collectLoop geo [] out cache log = ⟨.ok out, cache, log⟩ := rfl

theorem collectLoop_cons_coords (geo : Geocoder) (s : Stop) (rest out : List Stop)
    (cache : List (String × LatLng)) (log : List GeoCall) (hs : hasCoords s = true) :
    collectLoop geo (s :: rest) out cache log = collectLoop geo rest (out ++ [s]) cache log := by
  simp [collectLoop, hs]

theorem collectLoop_cons_hit (geo : Geocoder) (s : Stop) (rest out : List Stop)
    (cache : List (String × LatLng)) (log : List GeoCall) (w : LatLng)
    (hs : hasCoords s = false) (hhit : cacheGet cache s.address = some w) :
    collectLoop geo (s :: rest) out cache log =
      collectLoop geo rest (out ++ [stampedStop s w]) cache log := by
  simp [collectLoop, hs, hhit]

theorem collectLoop_cons_geocoded (geo : Geocoder) (s : Stop) (rest out : List Stop)
    (cache : List (String × LatLng)) (log : List GeoCall) (res : LatLng)
    (hs : hasCoords s = false) (hmiss : cacheGet cache s.address = none)
    (hgeo : geo log s.address = some res) :
    collectLoop geo (s :: rest) out cache log =
      collectLoop geo rest (out ++ [stampedStop s res]) (cacheSet cache s.address res)
        (log ++ [⟨s.address, some res⟩]) := by
  simp [collectLoop, hs, hmiss, geocodeAddress, hgeo]

theorem collectLoop_cons_link (geo : Geocoder) (s : Stop) (rest out : List Stop)
    (cache : List (String × LatLng)) (log : List GeoCall)
    (hs : hasCoords s = false) (hmiss : cacheGet cache s.address = none)
    (hgeo : geo log s.address = none) (hurl : isHttpUrl s.address = true) :
    collectLoop geo (s :: rest) out cache log =
      collectLoop geo rest (out ++ [linkOnlyStop s]) cache (log ++ [⟨s.address, none⟩]) := by
  simp [collectLoop, hs, hmiss, geocodeAddress, hgeo, hurl]

theorem collectLoop_cons_abort (geo : Geocoder) (s : Stop) (rest out : List Stop)
    (cache : List (String × LatLng)) (log : List GeoCall)
    (hs : hasCoords s = false) (hmiss : cacheGet cache s.address = none)
    (hgeo : geo log s.address = none) (hurl : isHttpUrl s.address = false) :
    collectLoop geo (s :: rest) out cache log =
      ⟨.error (.error ("Could not geocode: " ++ s.name)), cache, log ++ [⟨s.address, none⟩]⟩ := by
  simp [collectLoop, hs, hmiss, geocodeAddress, hgeo, hurl]

/-- The five ways a turn of the loop can go. -/
theorem collectLoop_cons_cases (geo : Geocoder) (s : Stop) (rest out : List Stop)
    (cache : List (String × LatLng)) (log : List GeoCall) :
    (hasCoords s = true ∧
      collectLoop geo (s :: rest) out cache log = collectLoop geo rest (out ++ [s]) cache log) ∨
    (∃ w, hasCoords s = false ∧ cacheGet cache s.address = some w ∧
      collectLoop geo (s :: rest) out cache log =
        collectLoop geo rest (out ++ [stampedStop s w]) cache log) ∨
    (∃ res, hasCoords s = false ∧ cacheGet cache s.address = none ∧
      geo log s.address = some res ∧
      collectLoop geo (s :: rest) out cache log =
        collectLoop geo rest (out ++ [stampedStop s res]) (cacheSet cache s.address res)
          (log ++ [⟨s.address, some res⟩])) ∨
    (hasCoords s = false ∧ cacheGet cache s.address = none ∧ geo log s.address = none ∧
      isHttpUrl s.address = true ∧
      collectLoop geo (s :: rest) out cache log =
        collectLoop geo rest (out ++ [linkOnlyStop s]) cache (log ++ [⟨s.address, none⟩])) ∨
    (hasCoords s = false ∧ cacheGet cache s.address = none ∧ geo log s.address = none ∧
      isHttpUrl s.address = false ∧
      collectLoop geo (s :: rest) out cache log =
        ⟨.error (.error ("Could not geocode: " ++ s.name)), cache,
          log ++ [⟨s.address, none⟩]⟩) := by
  cases hs : hasCoords s with
  | true => exact Or.inl ⟨rfl, collectLoop_cons_coords geo s rest out cache log hs⟩
  | false =>
    cases hc : cacheGet cache s.address with
    | some w =>
      exact Or.inr (Or.inl ⟨w, rfl, rfl, collectLoop_cons_hit geo s rest out cache log w hs hc⟩)
    | none =>
      cases hg : geo log s.address with
      | some res =>
        exact Or.inr (Or.inr (Or.inl ⟨res, rfl, rfl, rfl,
          collectLoop_cons_geocoded geo s rest out cache log res hs hc hg⟩))
      | none =>
        cases hu : isHttpUrl s.address with
        | true =>
          exact Or.inr (Or.inr (Or.inr (Or.inl ⟨rfl, rfl, rfl, rfl,
            collectLoop_cons_link geo s rest out cache log hs hc hg hu⟩)))
        | false =>
          exact Or.inr (Or.inr (Or.inr (Or.inr ⟨rfl, rfl, rfl, rfl,
            collectLoop_cons_abort geo s rest out cache log hs hc hg hu⟩)))

/-- The loop over `pre ++ post` is the loop over `pre` followed, when that one went
through, by the loop over `post` from where it arrived. -/
theorem collectLoop_append (geo : Geocoder) (pre post : List Stop) :
    ∀ (out : List Stop) (cache : List (String × LatLng)) (log : List GeoCall)
      (out1 : List Stop) (cache1 : List (String × LatLng)) (log1 : List GeoCall),
      collectLoop geo pre out cache log = ⟨.ok out1, cache1, log1⟩ →
      collectLoop geo (pre ++ post) out cache log = collectLoop geo post out1 cache1 log1 := by
  induction pre with
  | nil =>
    intro out cache log out1 cache1 log1 h
    rw [collectLoop_nil] at h
    injection h with h1 h2 h3
    injection h1 with h1
    subst h1 h2 h3
    rfl
  | cons s rest ih =>
    intro out cache log out1 cache1 log1 h
    rcases collectLoop_cons_cases geo s rest out cache log with
      ⟨_, e⟩ | ⟨w, _, _, e⟩ | ⟨res, _, _, _, e⟩ | ⟨_, _, _, _, e⟩ | ⟨_, _, _, _, e⟩
    · rw [e] at h
      rw [List.cons_append, collectLoop_cons_coords geo s (rest ++ post) out cache log ‹_›]
      exact ih _ _ _ _ _ _ h
    · rw [e] at h
      rw [List.cons_append, collectLoop_cons_hit geo s (rest ++ post) out cache log w ‹_› ‹_›]
      exact ih _ _ _ _ _ _ h
    · rw [e] at h
      rw [List.cons_append,
        collectLoop_cons_geocoded geo s (rest ++ post) out cache log res ‹_› ‹_› ‹_›]
      exact ih _ _ _ _ _ _ h
    · rw [e] at h
      rw [List.cons_append, collectLoop_cons_link geo s (rest ++ post) out cache log ‹_› ‹_› ‹_› ‹_›]
      exact ih _ _ _ _ _ _ h
    · rw [e] at h
      injection h with h1 _ _
      cases h1

/-- The loop never removes or changes a cache entry. -/
theorem collectLoop_cache_keeps (geo : Geocoder) (l : List Stop) :
    ∀ (out : List Stop) (cache : List (String × LatLng)) (log : List GeoCall)
      (key : String) (w : LatLng), cacheGet cache key = some w →
      cacheGet (collectLoop geo l out cache log).cache key = some w := by
  induction l with
  | nil => intro out cache log key w h; exact h
  | cons s rest ih =>
    intro out cache log key w h
    rcases collectLoop_cons_cases geo s rest out cache log with
      ⟨_, e⟩ | ⟨w1, _, _, e⟩ | ⟨res, _, hmiss, _, e⟩ | ⟨_, _, _, _, e⟩ | ⟨_, _, _, _, e⟩
    · rw [e]; exact ih _ _ _ _ _ h
    · rw [e]; exact ih _ _ _ _ _ h
    · rw [e]
      exact ih _ _ _ _ _ (cacheGet_cacheSet_keeps cache s.address key res w hmiss h)
    · rw [e]; exact ih _ _ _ _ _ h
    · rw [e]; exact h

/-- An address that is absent from the cache after the loop was absent before it. -/
theorem collectLoop_cache_miss (geo : Geocoder) (l : List Stop) (out : List Stop)
    (cache : List (String × LatLng)) (log : List GeoCall) (key : String)
    (h : cacheGet (collectLoop geo l out cache log).cache key = none) :
    cacheGet cache key = none := by
  cases hc : cacheGet cache key with
  | none => rfl
  | some w =>
    rw [collectLoop_cache_keeps geo l out cache log key w hc] at h
    cases h

/-- The calls of the loop are appended to the log; each is for an address that the cache
did not hold when the loop began; and an address that a call resolved is in the cache
afterwards and is not asked again by the calls after it. -/
theorem collectLoop_log (geo : Geocoder) (l : List Stop) :
    ∀ (out : List Stop) (cache : List (String × LatLng)) (log : List GeoCall),
      ∃ added : List GeoCall,
        (collectLoop geo l out cache log).log = log ++ added ∧
        (∀ d ∈ added, cacheGet cache d.address = none) ∧
        (∀ (l1 : List GeoCall) (c : GeoCall) (l2 : List GeoCall) (v : LatLng),
          added = l1 ++ c :: l2 → c.answer = some v →
          cacheGet (collectLoop geo l out cache log).cache c.address = some v ∧
            ∀ d ∈ l2, d.address ≠ c.address) := by
  induction l with
  | nil =>
    intro out cache log
    refine ⟨[], by simp [collectLoop_nil], by simp, ?_⟩
    intro l1 c l2 v h
    simp at h
  | cons s rest ih =>
    intro out cache log
    rcases collectLoop_cons_cases geo s rest out cache log with
      ⟨_, e⟩ | ⟨w1, _, _, e⟩ | ⟨res, _, hmiss, hgeo, e⟩ | ⟨_, hmiss, hgeo, _, e⟩ |
      ⟨_, hmiss, hgeo, _, e⟩
    · rw [e]; exact ih _ _ _
    · rw [e]; exact ih _ _ _
    · rw [e]
      obtain ⟨added, hlog, hfresh, hres⟩ :=
        ih (out ++ [stampedStop s res]) (cacheSet cache s.address res)
          (log ++ [⟨s.address, some res⟩])
      have hfresh1 : ∀ d ∈ added, d.address ≠ s.address := by
        intro d hd heq
        have h1 := hfresh d hd
        rw [heq, cacheGet_cacheSet_self] at h1
        cases h1
      refine ⟨⟨s.address, some res⟩ :: added, by rw [hlog]; simp, ?_, ?_⟩
      · intro d hd
        rcases List.mem_cons.mp hd with hd | hd
        · rw [hd]; exact hmiss
        · have h1 := hfresh d hd
          rw [cacheGet_cacheSet_of_ne cache s.address d.address res (hfresh1 d hd)] at h1
          exact h1
      · intro l1 c l2 v hsplit hans
        cases l1 with
        | nil =>
          simp only [List.nil_append] at hsplit
          injection hsplit with hc hl2
          subst hc hl2
          simp only at hans
          injection hans with hans
          subst hans
          refine ⟨?_, ?_⟩
          · exact collectLoop_cache_keeps geo rest _ _ _ _ _
              (cacheGet_cacheSet_self cache s.address res)
          · intro d hd
            exact hfresh1 d hd
        | cons c1 l1 =>
          simp only [List.cons_append] at hsplit
          injection hsplit with _ hrest
          exact hres l1 c l2 v hrest hans
    · rw [e]
      obtain ⟨added, hlog, hfresh, hres⟩ :=
        ih (out ++ [linkOnlyStop s]) cache (log ++ [⟨s.address, none⟩])
      refine ⟨⟨s.address, none⟩ :: added, by rw [hlog]; simp, ?_, ?_⟩
      · intro d hd
        rcases List.mem_cons.mp hd with hd | hd
        · rw [hd]; exact hmiss
        · exact hfresh d hd
      · intro l1 c l2 v hsplit hans
        cases l1 with
        | nil =>
          simp only [List.nil_append] at hsplit
          injection hsplit with hc hl2
          subst hc
          simp at hans
        | cons c1 l1 =>
          simp only [List.cons_append] at hsplit
          injection hsplit with _ hrest
          exact hres l1 c l2 v hrest hans
    · rw [e]
      refine ⟨[⟨s.address, none⟩], rfl, ?_, ?_⟩
      · intro d hd
        rw [List.mem_singleton.mp hd]; exact hmiss
      · intro l1 c l2 v hsplit hans
        cases l1 with
        | nil =>
          simp only [List.nil_append] at hsplit
          injection hsplit with hc hl2
          subst hc
          simp at hans
        | cons c1 l1 =>
          simp only [List.cons_append] at hsplit
          injection hsplit with _ hrest
          simp at hrest

theorem hasCoords_iff (s : Stop) : hasCoords s = true ↔ s.lat.isSome ∧ s.lng.isSome := by
  simp [hasCoords]

/-- The relation `Emitted` only gets weaker when the cache before is replaced by an earlier
one. -/
theorem Emitted.of_earlier {before1 before2 after : List (String × LatLng)} {s x : Stop}
    (hkeep : ∀ key w, cacheGet before1 key = some w → cacheGet before2 key = some w)
    (h : Emitted before2 after s x) : Emitted before1 after s x :=
  ⟨h.1, h.2.1, h.2.2.1, fun hs w hw => h.2.2.2.1 hs w (hkeep _ _ hw), h.2.2.2.2⟩

/-- When the loop goes through, it has pushed one stop for each stop it walked over, in
the same order, each related to its source by `Emitted`. -/
theorem collectLoop_ok (geo : Geocoder) (l : List Stop) :
    ∀ (out : List Stop) (cache : List (String × LatLng)) (log : List GeoCall)
      (res : List Stop), (collectLoop geo l out cache log).result = .ok res →
      ∃ added : List Stop, res = out ++ added ∧
        List.Forall₂ (Emitted cache (collectLoop geo l out cache log).cache) l added := by
  induction l with
  | nil =>
    intro out cache log res h
    rw [collectLoop_nil] at h
    injection h with h
    exact ⟨[], by simp [h], List.Forall₂.nil⟩
  | cons s rest ih =>
    intro out cache log res h
    rcases collectLoop_cons_cases geo s rest out cache log with
      ⟨hs, e⟩ | ⟨w1, hs, hhit, e⟩ | ⟨g, hs, hmiss, hgeo, e⟩ | ⟨hs, hmiss, hgeo, hurl, e⟩ |
      ⟨_, _, _, _, e⟩
    · rw [e] at h ⊢
      obtain ⟨added, hres, hrel⟩ := ih _ _ _ _ h
      refine ⟨s :: added, by rw [hres]; simp, List.Forall₂.cons ?_ hrel⟩
      refine ⟨rfl, Or.inl ((hasCoords_iff s).mp hs), fun _ => rfl, ?_, ?_⟩
      · intro hs2; rw [hs] at hs2; cases hs2
      · intro hs2; rw [hs] at hs2; cases hs2
    · rw [e] at h ⊢
      obtain ⟨added, hres, hrel⟩ := ih _ _ _ _ h
      refine ⟨stampedStop s w1 :: added, by rw [hres]; simp, List.Forall₂.cons ?_ hrel⟩
      refine ⟨rfl, Or.inl ⟨rfl, rfl⟩, ?_, ?_, ?_⟩
      · intro hs2; rw [hs] at hs2; cases hs2
      · intro _ w hw
        rw [hhit] at hw
        injection hw with hw
        rw [hw]
      · intro _
        exact Or.inr ⟨w1, collectLoop_cache_keeps geo rest _ _ _ _ _ hhit, rfl⟩
    · rw [e] at h ⊢
      obtain ⟨added, hres, hrel⟩ := ih _ _ _ _ h
      refine ⟨stampedStop s g :: added, by rw [hres]; simp, List.Forall₂.cons ?_ ?_⟩
      · refine ⟨rfl, Or.inl ⟨rfl, rfl⟩, ?_, ?_, ?_⟩
        · intro hs2; rw [hs] at hs2; cases hs2
        · intro _ w hw
          rw [hmiss] at hw
          cases hw
        · intro _
          exact Or.inr ⟨g, collectLoop_cache_keeps geo rest _ _ _ _ _
            (cacheGet_cacheSet_self cache s.address g), rfl⟩
      · exact hrel.imp (fun _ _ hr => Emitted.of_earlier
          (fun key w hw => cacheGet_cacheSet_keeps cache s.address key g w hmiss hw) hr)
    · rw [e] at h ⊢
      obtain ⟨added, hres, hrel⟩ := ih _ _ _ _ h
      refine ⟨linkOnlyStop s :: added, by rw [hres]; simp, List.Forall₂.cons ?_ hrel⟩
      refine ⟨rfl, Or.inr rfl, ?_, ?_, ?_⟩
      · intro hs2; rw [hs] at hs2; cases hs2
      · intro _ w hw
        rw [hmiss] at hw
        cases hw
      · intro _
        exact Or.inl rfl
    · rw [e] at h
      cases h

/-- The three outcomes of `collectStudentsForPayload` in terms of its loop. -/
theorem collectStudentsForPayload_empty (geo : Geocoder) (students : List Stop) (st : State)
    (log : List GeoCall) (hact : activeStudents students st = [])
    (hman : st.manualStops = []) :
    collectStudentsForPayload geo students st log =
      ⟨.error (.error "No students selected."), st.studentCoordsByKey, log⟩ := by
  simp [collectStudentsForPayload, hact, hman]

theorem collectStudentsForPayload_ok (geo : Geocoder) (students : List Stop) (st : State)
    (log : List GeoCall) (out : List Stop) (cache : List (String × LatLng))
    (log1 : List GeoCall)
    (hne : ¬ (activeStudents students st = [] ∧ st.manualStops = []))
    (hloop : collectLoop geo (activeStudents students st) [] st.studentCoordsByKey log =
      ⟨.ok out, cache, log1⟩) :
    collectStudentsForPayload geo students st log =
      ⟨.ok (out ++ st.manualStops.map manualPayloadStop), cache, log1⟩ := by
  have hne2 : ¬ ((activeStudents students st).length = 0 ∧ st.manualStops.length = 0) := by
    simpa [List.length_eq_zero] using hne
  simp only [collectStudentsForPayload, hne2, if_false, hloop]

theorem collectStudentsForPayload_error (geo : Geocoder) (students : List Stop) (st : State)
    (log : List GeoCall) (err : Thrown) (cache : List (String × LatLng))
    (log1 : List GeoCall)
    (hne : ¬ (activeStudents students st = [] ∧ st.manualStops = []))
    (hloop : collectLoop geo (activeStudents students st) [] st.studentCoordsByKey log =
      ⟨.error err, cache, log1⟩) :
    collectStudentsForPayload geo students st log = ⟨.error err, cache, log1⟩ := by
  have hne2 : ¬ ((activeStudents students st).length = 0 ∧ st.manualStops.length = 0) := by
    simpa [List.length_eq_zero] using hne
  simp only [collectStudentsForPayload, hne2, if_false, hloop]

/-- When the loop aborts, it is with the geocoding error of one of its stops. -/
theorem collectLoop_error (geo : Geocoder) (l : List Stop) :
    ∀ (out : List Stop) (cache : List (String × LatLng)) (log : List GeoCall) (err : Thrown),
      (collectLoop geo l out cache log).result = .error err →
      ∃ s ∈ l, err = .error ("Could not geocode: " ++ s.name) := by
  induction l with
  | nil =>
    intro out cache log err h
    rw [collectLoop_nil] at h
    cases h
  | cons s rest ih =>
    intro out cache log err h
    rcases collectLoop_cons_cases geo s rest out cache log with
      ⟨_, e⟩ | ⟨w1, _, _, e⟩ | ⟨g, _, _, _, e⟩ | ⟨_, _, _, _, e⟩ | ⟨_, _, _, _, e⟩
    · rw [e] at h
      obtain ⟨t, ht, herr⟩ := ih _ _ _ _ h
      exact ⟨t, List.mem_cons_of_mem _ ht, herr⟩
    · rw [e] at h
      obtain ⟨t, ht, herr⟩ := ih _ _ _ _ h
      exact ⟨t, List.mem_cons_of_mem _ ht, herr⟩
    · rw [e] at h
      obtain ⟨t, ht, herr⟩ := ih _ _ _ _ h
      exact ⟨t, List.mem_cons_of_mem _ ht, herr⟩
    · rw [e] at h
      obtain ⟨t, ht, herr⟩ := ih _ _ _ _ h
      exact ⟨t, List.mem_cons_of_mem _ ht, herr⟩
    · rw [e] at h
      injection h with h
      exact ⟨s, List.mem_cons_self _ _, h.symm⟩

/-- The geocoding error is never the empty-selection error. -/
theorem geocode_error_ne_empty_selection (name : String) :
    "Could not geocode: " ++ name ≠ "No students selected." := by
  intro h
  have h2 := congrArg (fun t : String => t.data.head?) h
  simp at h2

/-- What a successful `collectStudentsForPayload` returns: one stop per active stop, each
related to its source by `Emitted`, followed by the manual stops. -/
theorem collectStudentsForPayload_ok_inv (geo : Geocoder) (students : List Stop) (st : State)
    (log : List GeoCall) (out : List Stop)
    (h : (collectStudentsForPayload geo students st log).result = .ok out) :
    ∃ added : List Stop,
      out = added ++ st.manualStops.map manualPayloadStop ∧
      List.Forall₂
        (Emitted st.studentCoordsByKey (collectStudentsForPayload geo students st log).cache)
        (activeStudents students st) added ∧
      collectLoop geo (activeStudents students st) [] st.studentCoordsByKey log =
        ⟨.ok added, (collectStudentsForPayload geo students st log).cache,
          (collectStudentsForPayload geo students st log).log⟩ := by
  by_cases hempty : activeStudents students st = [] ∧ st.manualStops = []
  · rw [collectStudentsForPayload_empty geo students st log hempty.1 hempty.2] at h
    cases h
  · rcases hloop : collectLoop geo (activeStudents students st) [] st.studentCoordsByKey log with
      ⟨r, cache, log1⟩
    cases r with
    | error err =>
      rw [collectStudentsForPayload_error geo students st log err cache log1 hempty hloop] at h
      cases h
    | ok res =>
      have hc := collectStudentsForPayload_ok geo students st log res cache log1 hempty hloop
      rw [hc] at h ⊢
      injection h with h
      have hres : (collectLoop geo (activeStudents students st) [] st.studentCoordsByKey
          log).result = .ok res := by rw [hloop]
      obtain ⟨added, hadd, hrel⟩ := collectLoop_ok geo _ _ _ _ _ hres
      rw [hloop] at hrel
      simp only [List.nil_append] at hadd
      subst hadd
      exact ⟨res, h.symm, hrel, rfl⟩

theorem Emitted.forall₂_ids {before after : List (String × LatLng)} {l added : List Stop}
    (h : List.Forall₂ (Emitted before after) l added) :
    added.map Stop.id = l.map Stop.id := by
  induction h with
  | nil => rfl
  | cons hx _ ih => simp [hx.1, ih]

/-! ## Claims on `collectStudentsForPayload` -/

/-- C1. Whenever `collectStudentsForPayload` succeeds, the ids of the stops it returns are
the ids of the roster students followed by the user-added students, each list in its own
order, without the ids that are in `excludedIds`, followed by the ids of all manual stops
in the order of their creation. -/
theorem collectStudentsForPayload_ids (geo : Geocoder) (students : List Stop) (st : State)
    (log : List GeoCall) (out : List Stop)
    (h : (collectStudentsForPayload geo students st log).result = .ok out) :
    out.map Stop.id =
      ((students ++ st.extraStudents).map Stop.id).filter
          (fun id => !(st.excludedIds.contains id)) ++
        st.manualStops.map ManualStop.id := by
  obtain ⟨added, hout, hrel, _⟩ := collectStudentsForPayload_ok_inv geo students st log out h
  have hids := Emitted.forall₂_ids hrel
  have hman : (st.manualStops.map manualPayloadStop).map Stop.id =
      st.manualStops.map ManualStop.id := by
    simp [List.map_map, Function.comp_def, manualPayloadStop]
  rw [hout, List.map_append, hids, hman, activeStudents, getAllStudents, List.filter_map]
  rfl

/-- C1, the end-to-end scenario: roster `[S1, S2]` with `S1` resolved, `S2` excluded and
one manual stop `M1` give the stop list `[S1, M1]`. -/
theorem collectStudentsForPayload_ids_scenario :
    (collectStudentsForPayload noGeocoder [scenarioS1, scenarioS2] scenarioState []).result =
        .ok [scenarioS1, manualPayloadStop scenarioM1] ∧
      [scenarioS1, manualPayloadStop scenarioM1].map Stop.id =
        (([scenarioS1, scenarioS2] ++ scenarioState.extraStudents).map Stop.id).filter
            (fun id => !(scenarioState.excludedIds.contains id)) ++
          scenarioState.manualStops.map ManualStop.id :=
  ⟨by decide,
    collectStudentsForPayload_ids noGeocoder [scenarioS1, scenarioS2] scenarioState [] _
      (by decide)⟩

/-- C3. Let `B` be a stop of the active list such that the stops `pre` before it are all
collected (so `B` is the first stop at which the loop can abort), and `B` has no
coordinates, no cache entry when it is reached, a geocoding that fails and an address that
is not an http/https link. Then `collectStudentsForPayload` fails with
`Could not geocode: <B.name>`, returns no stop list, and the geocoder calls it has made
are those made for `pre` and the one for `B`: none for a stop after `B`. -/
theorem collectStudentsForPayload_abort_at_first_failure (geo : Geocoder)
    (students : List Stop) (st : State) (log : List GeoCall) (pre post : List Stop) (B : Stop)
    (out1 : List Stop) (cache1 : List (String × LatLng)) (log1 : List GeoCall)
    (hactive : activeStudents students st = pre ++ B :: post)
    (hpre : collectLoop geo pre [] st.studentCoordsByKey log = ⟨.ok out1, cache1, log1⟩)
    (hcoords : hasCoords B = false) (hmiss : cacheGet cache1 B.address = none)
    (hfail : geo log1 B.address = none) (hurl : isHttpUrl B.address = false) :
    collectStudentsForPayload geo students st log =
      ⟨.error (.error ("Could not geocode: " ++ B.name)), cache1,
        log1 ++ [⟨B.address, none⟩]⟩ := by
  have hne : ¬ (activeStudents students st = [] ∧ st.manualStops = []) := by
    rw [hactive]
    simp
  apply collectStudentsForPayload_error geo students st log _ _ _ hne
  rw [hactive, collectLoop_append geo pre (B :: post) _ _ _ _ _ _ hpre]
  exact collectLoop_cons_abort geo B post out1 cache1 log1 hcoords hmiss hfail hurl

/-- C3 at the stops `[A, B, C]`: `A` is geocoded, `B` fails, `C` is never asked. -/
theorem collectStudentsForPayload_abort_at_first_failure_witness :
    collectStudentsForPayload townGeocoder [stopA, stopB, stopC] plainState [] =
      ⟨.error (.error "Could not geocode: B"),
        [("Ain Chok, Casablanca", ⟨.fin 33, .fin 7⟩)],
        [⟨"Ain Chok, Casablanca", some ⟨.fin 33, .fin 7⟩⟩, ⟨"nowhere", none⟩]⟩ :=
  collectStudentsForPayload_abort_at_first_failure townGeocoder [stopA, stopB, stopC]
    plainState [] [stopA] [stopC] stopB
    [stampedStop stopA ⟨.fin 33, .fin 7⟩] [("Ain Chok, Casablanca", ⟨.fin 33, .fin 7⟩)]
    [⟨"Ain Chok, Casablanca", some ⟨.fin 33, .fin 7⟩⟩]
    (by decide) (by decide) (by decide) (by decide) (by decide) (by decide)

theorem Emitted.forall₂_length {before after : List (String × LatLng)} {l added : List Stop}
    (h : List.Forall₂ (Emitted before after) l added) : added.length = l.length :=
  h.length_eq.symm

theorem getElem?_append_cons_length {α : Type} (l : List α) (x : α) (r : List α) :
    (l ++ x :: r)[l.length]? = some x := by
  induction l with
  | nil => simp
  | cons a l ih => simpa using ih

/-- Every address that starts with `http://` or with `https://` passes the link test
`/^https?:\/\//i`. -/
theorem isHttpUrl_of_scheme (rest : String) :
    isHttpUrl ("http://" ++ rest) = true ∧ isHttpUrl ("https://" ++ rest) = true := by
  constructor
  · show isHttpUrlChars ("http://".data ++ rest.data) = true
    rfl
  · show isHttpUrlChars ("https://".data ++ rest.data) = true
    rfl

/-- C5. Let `s` be a stop of the active list such that the stops `pre` before it are all
collected, and `s` has no coordinates, no cache entry when it is reached, a geocoding that
fails and an address that starts with `http://` or `https://`. Then
`collectStudentsForPayload` does not abort at `s`: its loop goes on with the stops
`post` after `s`, having pushed for `s` a stop with the same id, name and address, with
`mapsLink` equal to the address and neither `lat` nor `lng`; when the call succeeds that
stop is at the position of `s` in the returned list. -/
theorem collectStudentsForPayload_link_fallback (geo : Geocoder) (students : List Stop)
    (st : State) (log : List GeoCall) (pre post : List Stop) (s : Stop)
    (out1 : List Stop) (cache1 : List (String × LatLng)) (log1 : List GeoCall)
    (hactive : activeStudents students st = pre ++ s :: post)
    (hpre : collectLoop geo pre [] st.studentCoordsByKey log = ⟨.ok out1, cache1, log1⟩)
    (hcoords : hasCoords s = false) (hmiss : cacheGet cache1 s.address = none)
    (hfail : geo log1 s.address = none)
    (hscheme : ∃ rest, s.address = "http://" ++ rest ∨ s.address = "https://" ++ rest) :
    collectLoop geo (activeStudents students st) [] st.studentCoordsByKey log =
        collectLoop geo post
          (out1 ++ [{ id := s.id, name := s.name, address := s.address, lat := none,
                      lng := none, mapsLink := some s.address }])
          cache1 (log1 ++ [⟨s.address, none⟩]) ∧
      ∀ out, (collectStudentsForPayload geo students st log).result = .ok out →
        out[pre.length]? =
          some { id := s.id, name := s.name, address := s.address, lat := none, lng := none,
                 mapsLink := some s.address } := by
  have hurl : isHttpUrl s.address = true := by
    obtain ⟨rest, h | h⟩ := hscheme
    · rw [h]; exact (isHttpUrl_of_scheme rest).1
    · rw [h]; exact (isHttpUrl_of_scheme rest).2
  have hloop : collectLoop geo (activeStudents students st) [] st.studentCoordsByKey log =
      collectLoop geo post (out1 ++ [linkOnlyStop s]) cache1 (log1 ++ [⟨s.address, none⟩]) := by
    rw [hactive, collectLoop_append geo pre (s :: post) _ _ _ _ _ _ hpre]
    exact collectLoop_cons_link geo s post out1 cache1 log1 hcoords hmiss hfail hurl
  refine ⟨hloop, ?_⟩
  intro out hout
  obtain ⟨added, houtEq, _, hadded⟩ :=
    collectStudentsForPayload_ok_inv geo students st log out hout
  have hpre1 : (collectLoop geo pre [] st.studentCoordsByKey log).result = .ok out1 := by
    rw [hpre]
  obtain ⟨a1, ha1, hrel1⟩ := collectLoop_ok geo pre _ _ _ _ hpre1
  simp only [List.nil_append] at ha1
  subst ha1
  have hlen : out1.length = pre.length := Emitted.forall₂_length hrel1
  rw [hloop] at hadded
  have hres : (collectLoop geo post (out1 ++ [linkOnlyStop s]) cache1
      (log1 ++ [⟨s.address, none⟩])).result = .ok added := by rw [hadded]
  obtain ⟨a2, ha2, _⟩ := collectLoop_ok geo post _ _ _ _ hres
  rw [houtEq, ha2, ← hlen, List.append_assoc, List.append_assoc, List.singleton_append]
  exact getElem?_append_cons_length out1 (linkOnlyStop s) _

/-- C5 at the stops `[A, L, C]` with `L` the link `https://maps.example/x`: the call
succeeds and `L` is link-only at the second position. -/
theorem collectStudentsForPayload_link_fallback_witness :
    (collectStudentsForPayload townGeocoder [stopA, stopLink, stopC] plainState []).result =
        .ok [stampedStop stopA ⟨.fin 33, .fin 7⟩, linkOnlyStop stopLink,
          stampedStop stopC ⟨.fin 33, .fin 7⟩] ∧
      [stampedStop stopA ⟨.fin 33, .fin 7⟩, linkOnlyStop stopLink,
          stampedStop stopC ⟨.fin 33, .fin 7⟩][[stopA].length]? =
        some { id := "X001", name := "L", address := "https://maps.example/x", lat := none,
               lng := none, mapsLink := some "https://maps.example/x" } :=
  ⟨by decide,
    (collectStudentsForPayload_link_fallback townGeocoder [stopA, stopLink, stopC] plainState []
      [stopA] [stopC] stopLink
      [stampedStop stopA ⟨.fin 33, .fin 7⟩] [("Ain Chok, Casablanca", ⟨.fin 33, .fin 7⟩)]
      [⟨"Ain Chok, Casablanca", some ⟨.fin 33, .fin 7⟩⟩]
      (by decide) (by decide) (by decide) (by decide) (by decide)
      ⟨"maps.example/x", Or.inr rfl⟩).2 _ (by decide)⟩

/-- Every stop returned by a successful `collectStudentsForPayload` carries coordinates or
a link. -/
theorem collected_stop_located (geo : Geocoder) (students : List Stop) (st : State)
    (log : List GeoCall) (out : List Stop)
    (h : (collectStudentsForPayload geo students st log).result = .ok out)
    (x : Stop) (hx : x ∈ out) :
    (x.lat.isSome ∧ x.lng.isSome) ∨ x.mapsLink.isSome := by
  obtain ⟨added, hout, hrel, _⟩ := collectStudentsForPayload_ok_inv geo students st log out h
  rw [hout] at hx
  rcases List.mem_append.mp hx with hx | hx
  · have hall : ∀ {l a : List Stop},
        List.Forall₂ (Emitted st.studentCoordsByKey
          (collectStudentsForPayload geo students st log).cache) l a →
        ∀ y ∈ a, (y.lat.isSome ∧ y.lng.isSome) ∨ y.mapsLink.isSome := by
      intro l a hr
      induction hr with
      | nil => intro y hy; cases hy
      | cons h1 _ ih =>
        intro y hy
        rcases List.mem_cons.mp hy with hy | hy
        · rw [hy]; exact h1.2.1
        · exact ih y hy
    exact hall hrel x hx
  · obtain ⟨m, _, hm⟩ := List.mem_map.mp hx
    rw [← hm]
    exact Or.inl ⟨rfl, rfl⟩

/-- C7. `collectStudentsForPayload` fails with `No students selected.` exactly when the
roster followed by the added students is empty once the excluded ids are removed and
there is no manual stop; and when it fails this way the geocoder has not been called (the
call log is as before) and the cache is as before. -/
theorem collectStudentsForPayload_empty_selection (geo : Geocoder) (students : List Stop)
    (st : State) (log : List GeoCall) :
    ((collectStudentsForPayload geo students st log).result =
        .error (.error "No students selected.") ↔
      ((students ++ st.extraStudents).filter (fun s => !(st.excludedIds.contains s.id)) = [] ∧
        st.manualStops = [])) ∧
    ((collectStudentsForPayload geo students st log).result =
        .error (.error "No students selected.") →
      (collectStudentsForPayload geo students st log).log = log ∧
        (collectStudentsForPayload geo students st log).cache = st.studentCoordsByKey) := by
  have hiff : (collectStudentsForPayload geo students st log).result =
        .error (.error "No students selected.") ↔
      (activeStudents students st = [] ∧ st.manualStops = []) := by
    constructor
    · intro h
      by_contra hne
      rcases hloop : collectLoop geo (activeStudents students st) [] st.studentCoordsByKey
        log with ⟨r, cache, log1⟩
      cases r with
      | error err =>
        rw [collectStudentsForPayload_error geo students st log err cache log1 hne hloop] at h
        have herr : (collectLoop geo (activeStudents students st) [] st.studentCoordsByKey
            log).result = .error err := by rw [hloop]
        obtain ⟨s, _, hs⟩ := collectLoop_error geo _ _ _ _ _ herr
        injection h with h
        rw [hs] at h
        injection h with h
        exact geocode_error_ne_empty_selection s.name h
      | ok res =>
        rw [collectStudentsForPayload_ok geo students st log res cache log1 hne hloop] at h
        cases h
    · intro h
      rw [collectStudentsForPayload_empty geo students st log h.1 h.2]
  refine ⟨hiff, ?_⟩
  intro h
  have hempty := hiff.mp h
  rw [collectStudentsForPayload_empty geo students st log hempty.1 hempty.2]
  exact ⟨rfl, rfl⟩

/-- C7 in a session whose only student is excluded and that has no manual stop. -/
theorem collectStudentsForPayload_empty_selection_witness :
    (collectStudentsForPayload townGeocoder [scenarioS2]
        { scenarioState with manualStops := [] } []).result =
        .error (.error "No students selected.") ∧
      (collectStudentsForPayload townGeocoder [scenarioS2]
        { scenarioState with manualStops := [] } []).log = [] :=
  ⟨by decide,
    ((collectStudentsForPayload_empty_selection townGeocoder [scenarioS2]
      { scenarioState with manualStops := [] } []).2 (by decide)).1⟩

/-! ## The school lookup and the computation cycle -/

theorem ensureSchoolCoords_set (geo : Geocoder) (dom : Dom) (st : State) (log : List GeoCall)
    (loc : LatLng) (hloc : st.schoolLatLng = some loc) :
    ensureSchoolCoords geo dom st log = ⟨.ok loc, st, log⟩ := by
  simp [ensureSchoolCoords, hloc]

theorem ensureSchoolCoords_blank (geo : Geocoder) (dom : Dom) (st : State)
    (log : List GeoCall) (hloc : st.schoolLatLng = none) (haddr : jsTrim dom.schoolName = "") :
    ensureSchoolCoords geo dom st log =
      ⟨.error (.error "Please type/select the school name."), st, log⟩ := by
  simp [ensureSchoolCoords, hloc, haddr]

theorem ensureSchoolCoords_cached (geo : Geocoder) (dom : Dom) (st : State)
    (log : List GeoCall) (loc : LatLng) (hloc : st.schoolLatLng = none)
    (haddr : jsTrim dom.schoolName ≠ "")
    (hhit : cacheGet st.studentCoordsByKey ("school:" ++ jsTrim dom.schoolName) = some loc) :
    ensureSchoolCoords geo dom st log =
      ⟨.ok loc, { st with schoolLatLng := some loc }, log⟩ := by
  simp [ensureSchoolCoords, hloc, haddr, hhit]

theorem ensureSchoolCoords_geocoded (geo : Geocoder) (dom : Dom) (st : State)
    (log : List GeoCall) (res : LatLng) (hloc : st.schoolLatLng = none)
    (haddr : jsTrim dom.schoolName ≠ "")
    (hmiss : cacheGet st.studentCoordsByKey ("school:" ++ jsTrim dom.schoolName) = none)
    (hgeo : geo log (jsTrim dom.schoolName) = some res) :
    ensureSchoolCoords geo dom st log =
      ⟨.ok res,
        { st with
          studentCoordsByKey :=
            cacheSet st.studentCoordsByKey ("school:" ++ jsTrim dom.schoolName) res
          schoolLatLng := some res },
        log ++ [⟨jsTrim dom.schoolName, some res⟩]⟩ := by
  simp [ensureSchoolCoords, hloc, haddr, hmiss, geocodeAddress, hgeo]

theorem ensureSchoolCoords_rejected (geo : Geocoder) (dom : Dom) (st : State)
    (log : List GeoCall) (hloc : st.schoolLatLng = none)
    (haddr : jsTrim dom.schoolName ≠ "")
    (hmiss : cacheGet st.studentCoordsByKey ("school:" ++ jsTrim dom.schoolName) = none)
    (hgeo : geo log (jsTrim dom.schoolName) = none) :
    ensureSchoolCoords geo dom st log =
      ⟨.error .geocodeRejected, st, log ++ [⟨jsTrim dom.schoolName, none⟩]⟩ := by
  simp [ensureSchoolCoords, hloc, haddr, hmiss, geocodeAddress, hgeo]

/-- The function `ensureSchoolCoords` touches only `schoolLatLng` and the cache; it keeps every cache
entry and keeps a school location that is already set. -/
theorem ensureSchoolCoords_frame (geo : Geocoder) (dom : Dom) (st : State)
    (log : List GeoCall) :
    (ensureSchoolCoords geo dom st log).state =
        { st with
          schoolLatLng := (ensureSchoolCoords geo dom st log).state.schoolLatLng
          studentCoordsByKey := (ensureSchoolCoords geo dom st log).state.studentCoordsByKey } ∧
      (∀ key w, cacheGet st.studentCoordsByKey key = some w →
        cacheGet (ensureSchoolCoords geo dom st log).state.studentCoordsByKey key = some w) ∧
      (∀ loc, st.schoolLatLng = some loc →
        (ensureSchoolCoords geo dom st log).state.schoolLatLng = some loc) := by
  cases hloc : st.schoolLatLng with
  | some loc =>
    rw [ensureSchoolCoords_set geo dom st log loc hloc]
    exact ⟨rfl, fun _ _ h => h, fun _ h => by rw [hloc]; exact h⟩
  | none =>
    by_cases haddr : jsTrim dom.schoolName = ""
    · rw [ensureSchoolCoords_blank geo dom st log hloc haddr]
      exact ⟨rfl, fun _ _ h => h, fun _ h => by cases h⟩
    · cases hhit : cacheGet st.studentCoordsByKey ("school:" ++ jsTrim dom.schoolName) with
      | some loc =>
        rw [ensureSchoolCoords_cached geo dom st log loc hloc haddr hhit]
        exact ⟨rfl, fun _ _ h => h, fun _ h => by cases h⟩
      | none =>
        cases hgeo : geo log (jsTrim dom.schoolName) with
        | some res =>
          rw [ensureSchoolCoords_geocoded geo dom st log res hloc haddr hhit hgeo]
          exact ⟨rfl, fun key w h => cacheGet_cacheSet_keeps _ _ _ _ _ hhit h,
            fun _ h => by cases h⟩
        | none =>
          rw [ensureSchoolCoords_rejected geo dom st log hloc haddr hhit hgeo]
          exact ⟨rfl, fun _ _ h => h, fun _ h => by cases h⟩

/-- The ways a run of `handleComputeRoute` can go: the school lookup throws; the stops
cannot be collected; the request is rejected; the response is not OK; the response is OK
and the rendering of the body throws; the response is OK and the body is rendered and
drawn. -/
theorem handleComputeRoute_cases (geo : Geocoder) (optimizer : Optimizer)
    (students : List Stop) (dom : Dom) (st : State) (log : List GeoCall) :
    (∃ err st2 log2,
      ensureSchoolCoords geo dom (clearExistingRoutesOnMap st) log = ⟨.error err, st2, log2⟩ ∧
      handleComputeRoute geo optimizer students dom st log =
        ⟨st2, log2, [], [⟨errorText err, "error"⟩]⟩) ∨
    (∃ school st2 log2,
      ensureSchoolCoords geo dom (clearExistingRoutesOnMap st) log = ⟨.ok school, st2, log2⟩ ∧
      ((∃ err cache log3,
          collectStudentsForPayload geo students st2 log2 = ⟨.error err, cache, log3⟩ ∧
          handleComputeRoute geo optimizer students dom st log =
            ⟨{ st2 with studentCoordsByKey := cache }, log3, [],
              [⟨errorText err, "error"⟩]⟩) ∨
        (∃ stops cache log3,
          collectStudentsForPayload geo students st2 log2 = ⟨.ok stops, cache, log3⟩ ∧
          ((∃ message,
              optimizer (buildPayload dom school stops) = .rejected message ∧
              handleComputeRoute geo optimizer students dom st log =
                ⟨{ st2 with studentCoordsByKey := cache }, log3,
                  [buildPayload dom school stops],
                  [⟨errorText (.error message), "error"⟩]⟩) ∨
            (optimizer (buildPayload dom school stops) = .notOk ∧
              handleComputeRoute geo optimizer students dom st log =
                ⟨{ st2 with studentCoordsByKey := cache }, log3,
                  [buildPayload dom school stops],
                  [⟨"Failed to compute routes.", "error"⟩]⟩) ∨
            (∃ result,
              optimizer (buildPayload dom school stops) = .ok result ∧
              ((∃ err,
                  renderResult result = .error err ∧
                  handleComputeRoute geo optimizer students dom st log =
                    ⟨{ st2 with
                        studentCoordsByKey := cache
                        lastOptimization :=
                          some { payload := buildPayload dom school stops, result := result,
                                 assignments := [] } },
                      log3, [buildPayload dom school stops],
                      [⟨errorText err, "error"⟩]⟩) ∨
                (∃ body,
                  renderResult result = .ok body ∧
                  handleComputeRoute geo optimizer students dom st log =
                    ⟨drawRoutesOnMap body.routes
                        { st2 with
                          studentCoordsByKey := cache
                          lastOptimization :=
                            some { payload := buildPayload dom school stops, result := result,
                                   assignments := [] } },
                      log3, [buildPayload dom school stops],
                      [⟨"Routes computed successfully.", "success"⟩]⟩))))))) := by
  rcases hschool : ensureSchoolCoords geo dom (clearExistingRoutesOnMap st) log with
    ⟨r, st2, log2⟩
  cases r with
  | error err =>
    refine Or.inl ⟨err, st2, log2, rfl, ?_⟩
    simp only [handleComputeRoute, hschool]
  | ok school =>
    refine Or.inr ⟨school, st2, log2, rfl, ?_⟩
    rcases hcollect : collectStudentsForPayload geo students st2 log2 with ⟨r2, cache, log3⟩
    cases r2 with
    | error err =>
      refine Or.inl ⟨err, cache, log3, rfl, ?_⟩
      simp only [handleComputeRoute, hschool, hcollect]
    | ok stops =>
      refine Or.inr ⟨stops, cache, log3, rfl, ?_⟩
      cases hopt : optimizer (buildPayload dom school stops) with
      | rejected message =>
        refine Or.inl ⟨message, rfl, ?_⟩
        simp only [handleComputeRoute, hschool, hcollect, hopt]
      | notOk =>
        refine Or.inr (Or.inl ⟨rfl, ?_⟩)
        simp only [handleComputeRoute, hschool, hcollect, hopt]
      | ok result =>
        refine Or.inr (Or.inr ⟨result, rfl, ?_⟩)
        cases hrender : renderResult result with
        | error err =>
          refine Or.inl ⟨err, rfl, ?_⟩
          simp only [handleComputeRoute, hschool, hcollect, hopt, hrender]
        | ok body =>
          refine Or.inr ⟨body, rfl, ?_⟩
          simp only [handleComputeRoute, hschool, hcollect, hopt, hrender]

/-- The cache and the call log that `collectStudentsForPayload` leaves are those of its
loop. -/
theorem collectStudentsForPayload_cache_log (geo : Geocoder) (students : List Stop)
    (st : State) (log : List GeoCall) :
    (collectStudentsForPayload geo students st log).cache =
        (collectLoop geo (activeStudents students st) [] st.studentCoordsByKey log).cache ∧
      (collectStudentsForPayload geo students st log).log =
        (collectLoop geo (activeStudents students st) [] st.studentCoordsByKey log).log := by
  by_cases hempty : activeStudents students st = [] ∧ st.manualStops = []
  · rw [collectStudentsForPayload_empty geo students st log hempty.1 hempty.2, hempty.1]
    exact ⟨rfl, rfl⟩
  · rcases hloop : collectLoop geo (activeStudents students st) [] st.studentCoordsByKey log with
      ⟨r, cache, log1⟩
    cases r with
    | error err =>
      rw [collectStudentsForPayload_error geo students st log err cache log1 hempty hloop]
      exact ⟨rfl, rfl⟩
    | ok res =>
      rw [collectStudentsForPayload_ok geo students st log res cache log1 hempty hloop]
      exact ⟨rfl, rfl⟩

/-- The function `collectStudentsForPayload` never removes or changes a cache entry. -/
theorem collectStudentsForPayload_cache_keeps (geo : Geocoder) (students : List Stop)
    (st : State) (log : List GeoCall) (key : String) (w : LatLng)
    (h : cacheGet st.studentCoordsByKey key = some w) :
    cacheGet (collectStudentsForPayload geo students st log).cache key = some w := by
  rw [(collectStudentsForPayload_cache_log geo students st log).1]
  exact collectLoop_cache_keeps geo _ _ _ _ _ _ h

/-- The function `drawRoutesOnMap` touches only the overlays and the directions service. -/
theorem drawRoutesOnMap_frame (routes : Option (List Route)) (st : State) :
    drawRoutesOnMap routes st =
      { st with
        directionsService := (drawRoutesOnMap routes st).directionsService
        activeRenderers := (drawRoutesOnMap routes st).activeRenderers } := by
  cases routes with
  | none => rfl
  | some rs =>
    simp only [drawRoutesOnMap]
    split_ifs <;> rfl

theorem drawRoutesOnMap_lastOptimization (routes : Option (List Route)) (st : State) :
    (drawRoutesOnMap routes st).lastOptimization = st.lastOptimization := by
  rw [drawRoutesOnMap_frame]

/-- C2, amended. Whenever a computation attempt fails (it ends with an error notification:
empty selection, missing school location, geocode failure, rejected request, non-OK
optimizer response, or a throw while the body of an OK response is rendered),
`excludedIds`, the manual stops, the added students, `map` and `directionsService` are
exactly as before the attempt; the overlay collection `activeRenderers` is empty; the
geocode cache has kept every entry it had, with the same value; a school location that
was set before is still the school location; and `lastOptimization` is exactly as before
unless the optimizer answered the request with an OK response: then it is the fresh
triple of the payload sent, the body received and an empty ledger. -/
theorem failed_attempt_frame (geo : Geocoder) (optimizer : Optimizer)
    (students : List Stop) (dom : Dom) (st : State) (log : List GeoCall) (text : String)
    (hfail : (handleComputeRoute geo optimizer students dom st log).messages =
      [⟨text, "error"⟩]) :
    (handleComputeRoute geo optimizer students dom st log).state =
        { st with
          activeRenderers := []
          schoolLatLng := (handleComputeRoute geo optimizer students dom st log).state.schoolLatLng
          studentCoordsByKey :=
            (handleComputeRoute geo optimizer students dom st log).state.studentCoordsByKey
          lastOptimization :=
            (handleComputeRoute geo optimizer students dom st log).state.lastOptimization } ∧
      (∀ key w, cacheGet st.studentCoordsByKey key = some w →
        cacheGet (handleComputeRoute geo optimizer students dom st log).state.studentCoordsByKey
          key = some w) ∧
      (∀ loc, st.schoolLatLng = some loc →
        (handleComputeRoute geo optimizer students dom st log).state.schoolLatLng =
          some loc) ∧
      ((∀ p ∈ (handleComputeRoute geo optimizer students dom st log).requests,
          ∀ result, optimizer p ≠ .ok result) →
        (handleComputeRoute geo optimizer students dom st log).state.lastOptimization =
          st.lastOptimization) ∧
      (∀ p ∈ (handleComputeRoute geo optimizer students dom st log).requests,
        ∀ result, optimizer p = .ok result →
          (handleComputeRoute geo optimizer students dom st log).state.lastOptimization =
            some { payload := p, result := result, assignments := [] }) := by
  have hfr := ensureSchoolCoords_frame geo dom (clearExistingRoutesOnMap st) log
  rcases handleComputeRoute_cases geo optimizer students dom st log with
    ⟨err, st2, log2, hschool, hrun⟩ | ⟨school, st2, log2, hschool, hrest⟩
  · rw [hschool] at hfr
    rw [hrun]
    have h1 := hfr.1
    simp only at h1
    have hlast : st2.lastOptimization = st.lastOptimization := by
      rw [h1]
      rfl
    refine ⟨?_, hfr.2.1, hfr.2.2, fun _ => hlast, fun p hp => by cases hp⟩
    rw [h1]
    rfl
  · rw [hschool] at hfr
    have h1 := hfr.1
    simp only at h1
    have hlast : st2.lastOptimization = st.lastOptimization := by
      rw [h1]
      rfl
    have hstate : ∀ (cache : List (String × LatLng)) (last : Option Optimization),
        ({ st2 with studentCoordsByKey := cache, lastOptimization := last } : State) =
          { st with activeRenderers := [], schoolLatLng := st2.schoolLatLng,
                    studentCoordsByKey := cache, lastOptimization := last } := by
      intro cache last
      rw [h1]
      rfl
    have hstate0 : ∀ cache : List (String × LatLng),
        ({ st2 with studentCoordsByKey := cache } : State) =
          { st with activeRenderers := [], schoolLatLng := st2.schoolLatLng,
                    studentCoordsByKey := cache, lastOptimization := st2.lastOptimization } := by
      intro cache
      rw [h1]
      rfl
    rcases hrest with ⟨err, cache, log3, hcollect, hrun⟩ | ⟨stops, cache, log3, hcollect, hopt⟩
    · have hkeep := collectStudentsForPayload_cache_keeps geo students st2 log2
      rw [hcollect] at hkeep
      rw [hrun]
      exact ⟨hstate0 cache, fun key w h => hkeep key w (hfr.2.1 key w h), hfr.2.2,
        fun _ => hlast, fun p hp => by cases hp⟩
    · have hkeep := collectStudentsForPayload_cache_keeps geo students st2 log2
      rw [hcollect] at hkeep
      rcases hopt with ⟨message, hanswer, hrun⟩ | ⟨hanswer, hrun⟩ |
        ⟨result, hanswer, ⟨err, _, hrun⟩ | ⟨body, _, hrun⟩⟩
      · rw [hrun]
        refine ⟨hstate0 cache, fun key w h => hkeep key w (hfr.2.1 key w h), hfr.2.2,
          fun _ => hlast, ?_⟩
        intro p hp result hok
        rw [List.mem_singleton.mp hp, hanswer] at hok
        cases hok
      · rw [hrun]
        refine ⟨hstate0 cache, fun key w h => hkeep key w (hfr.2.1 key w h), hfr.2.2,
          fun _ => hlast, ?_⟩
        intro p hp result hok
        rw [List.mem_singleton.mp hp, hanswer] at hok
        cases hok
      · rw [hrun]
        refine ⟨hstate cache _, fun key w h => hkeep key w (hfr.2.1 key w h), hfr.2.2, ?_, ?_⟩
        · intro hnone
          exact absurd hanswer (hnone _ (List.mem_singleton.mpr rfl) result)
        · intro p hp result2 hok
          rw [List.mem_singleton.mp hp, hanswer] at hok
          injection hok with hres
          rw [List.mem_singleton.mp hp, hres]
      · rw [hrun] at hfail
        simp at hfail

/-- C2, a failed attempt that changes the state: in a session with one overlay on the map
and an empty cache, the stops `[A, B, C]` make the attempt fail at `B`; afterwards the
overlay collection is empty and the cache holds the address of `A`. -/
theorem failed_attempt_changes_state :
    (handleComputeRoute townGeocoder failingOptimizer [stopA, stopB, stopC] timeDom laterState
        []).messages = [⟨"Could not geocode: B", "error"⟩] ∧
      laterState.activeRenderers = [staleRenderer] ∧
      (handleComputeRoute townGeocoder failingOptimizer [stopA, stopB, stopC] timeDom laterState
        []).state.activeRenderers = [] ∧
      laterState.studentCoordsByKey = [] ∧
      (handleComputeRoute townGeocoder failingOptimizer [stopA, stopB, stopC] timeDom laterState
        []).state.studentCoordsByKey = [("Ain Chok, Casablanca", ⟨.fin 33, .fin 7⟩)] ∧
      (handleComputeRoute townGeocoder failingOptimizer [stopA, stopB, stopC] timeDom laterState
        []).state ≠ laterState := by
  decide

/-- C2, amended, at the failed attempt over `[A, B, C]`. -/
theorem failed_attempt_frame_witness :
    (handleComputeRoute townGeocoder failingOptimizer [stopA, stopB, stopC] timeDom laterState
        []).messages = [⟨"Could not geocode: B", "error"⟩] ∧
      (handleComputeRoute townGeocoder failingOptimizer [stopA, stopB, stopC] timeDom laterState
        []).state =
        { laterState with
          activeRenderers := []
          schoolLatLng :=
            (handleComputeRoute townGeocoder failingOptimizer [stopA, stopB, stopC] timeDom
              laterState []).state.schoolLatLng
          studentCoordsByKey :=
            (handleComputeRoute townGeocoder failingOptimizer [stopA, stopB, stopC] timeDom
              laterState []).state.studentCoordsByKey
          lastOptimization :=
            (handleComputeRoute townGeocoder failingOptimizer [stopA, stopB, stopC] timeDom
              laterState []).state.lastOptimization } :=
  ⟨by decide,
    (failed_attempt_frame townGeocoder failingOptimizer [stopA, stopB, stopC] timeDom laterState
      [] "Could not geocode: B" (by decide)).1⟩

/-- A failed attempt after an OK response: the only route of the body has no
`totalDistanceKm`, so `renderRoutes` throws; the attempt ends with an error notification,
the session result is already the new one with an empty ledger, and no overlay is on the
map. -/
theorem render_failure_replaces_last_result :
    (handleComputeRoute townGeocoder brokenOptimizer [scenarioS1] timeDom laterState
        []).messages =
        [⟨"Cannot read properties of undefined (reading \x27toFixed\x27)", "error"⟩] ∧
      laterState.lastOptimization = some priorOptimization ∧
      (handleComputeRoute townGeocoder brokenOptimizer [scenarioS1] timeDom laterState
        []).state.lastOptimization =
        some { payload := buildPayload timeDom ⟨.fin 33, .fin 7⟩ [scenarioS1],
               result := some brokenResult, assignments := [] } ∧
      (handleComputeRoute townGeocoder brokenOptimizer [scenarioS1] timeDom laterState
        []).state.activeRenderers = [] := by
  refine ⟨by decide, rfl, rfl, by decide⟩

/-- C6. Every stop in the list returned by a successful `collectStudentsForPayload` has a
numeric `lat` and a numeric `lng`, or has a `mapsLink`; and so has every stop of every
payload that `handleComputeRoute` sends to the optimizer. -/
theorem collected_stops_resolved_or_link (geo : Geocoder) (optimizer : Optimizer)
    (students : List Stop) (dom : Dom) (st : State) (log : List GeoCall) :
    (∀ out, (collectStudentsForPayload geo students st log).result = .ok out →
      ∀ x ∈ out, (x.lat.isSome ∧ x.lng.isSome) ∨ x.mapsLink.isSome) ∧
    (∀ p ∈ (handleComputeRoute geo optimizer students dom st log).requests,
      ∀ x ∈ p.students, (x.lat.isSome ∧ x.lng.isSome) ∨ x.mapsLink.isSome) := by
  refine ⟨fun out h x hx => collected_stop_located geo students st log out h x hx, ?_⟩
  intro p hp x hx
  rcases handleComputeRoute_cases geo optimizer students dom st log with
    ⟨err, st2, log2, _, hrun⟩ | ⟨school, st2, log2, _, hrest⟩
  · rw [hrun] at hp
    cases hp
  · rcases hrest with ⟨err, cache, log3, _, hrun⟩ | ⟨stops, cache, log3, hcollect, hopt⟩
    · rw [hrun] at hp
      cases hp
    · have hreq : (handleComputeRoute geo optimizer students dom st log).requests =
          [buildPayload dom school stops] := by
        rcases hopt with ⟨_, _, hrun⟩ | ⟨_, hrun⟩ | ⟨_, _, ⟨_, _, hrun⟩ | ⟨_, _, hrun⟩⟩ <;>
          rw [hrun]
      rw [hreq] at hp
      rw [List.mem_singleton.mp hp] at hx
      have hres : (collectStudentsForPayload geo students st2 log2).result = .ok stops := by
        rw [hcollect]
      exact collected_stop_located geo students st2 log2 stops hres x hx

/-- C6 at the stops `[A, L, C]`: the resolved stops carry coordinates, the link carries
`mapsLink`. -/
theorem collected_stops_resolved_or_link_witness :
    (collectStudentsForPayload townGeocoder [stopA, stopLink, stopC] plainState []).result =
        .ok [stampedStop stopA ⟨.fin 33, .fin 7⟩, linkOnlyStop stopLink,
          stampedStop stopC ⟨.fin 33, .fin 7⟩] ∧
      ∀ x ∈ [stampedStop stopA ⟨.fin 33, .fin 7⟩, linkOnlyStop stopLink,
          stampedStop stopC ⟨.fin 33, .fin 7⟩],
        (x.lat.isSome ∧ x.lng.isSome) ∨ x.mapsLink.isSome :=
  ⟨by decide,
    (collected_stops_resolved_or_link townGeocoder failingOptimizer [stopA, stopLink, stopC]
      timeDom plainState []).1 _ (by decide)⟩

/-- C8. When the optimizer answers the request of `handleComputeRoute` with a non-OK
response, `state.lastOptimization` is what it was before the call (the result of the
previous successful computation with its assignments, or still null), and the failure is
reported. -/
theorem non_ok_response_keeps_last_result (geo : Geocoder) (optimizer : Optimizer)
    (students : List Stop) (dom : Dom) (st : State) (log : List GeoCall) (p : Payload)
    (hsent : (handleComputeRoute geo optimizer students dom st log).requests = [p])
    (hnotOk : optimizer p = .notOk) :
    (handleComputeRoute geo optimizer students dom st log).state.lastOptimization =
        st.lastOptimization ∧
      (handleComputeRoute geo optimizer students dom st log).messages =
        [⟨"Failed to compute routes.", "error"⟩] := by
  have hfr := ensureSchoolCoords_frame geo dom (clearExistingRoutesOnMap st) log
  rcases handleComputeRoute_cases geo optimizer students dom st log with
    ⟨err, st2, log2, _, hrun⟩ | ⟨school, st2, log2, hschool, hrest⟩
  · rw [hrun] at hsent
    cases hsent
  · rcases hrest with ⟨err, cache, log3, _, hrun⟩ | ⟨stops, cache, log3, hcollect, hopt⟩
    · rw [hrun] at hsent
      cases hsent
    · rw [hschool] at hfr
      have h1 := hfr.1
      simp only at h1
      have hlast : st2.lastOptimization = st.lastOptimization := by
        rw [h1]
        rfl
      rcases hopt with ⟨message, hanswer, hrun⟩ | ⟨_, hrun⟩ |
        ⟨result, hanswer, ⟨_, _, hrun⟩ | ⟨_, _, hrun⟩⟩
      · rw [hrun] at hsent
        injection hsent with hp _
        rw [hp, hnotOk] at hanswer
        cases hanswer
      · rw [hrun]
        exact ⟨hlast, rfl⟩
      · rw [hrun] at hsent
        injection hsent with hp _
        rw [hp, hnotOk] at hanswer
        cases hanswer
      · rw [hrun] at hsent
        injection hsent with hp _
        rw [hp, hnotOk] at hanswer
        cases hanswer

/-- C8 in a session that holds the result of an earlier computation with an assignment:
the failing second computation leaves that result and its assignment in place. -/
theorem non_ok_response_keeps_last_result_witness :
    (handleComputeRoute townGeocoder failingOptimizer [scenarioS1] timeDom laterState
        []).state.lastOptimization = some priorOptimization ∧
      (handleComputeRoute townGeocoder failingOptimizer [scenarioS1] timeDom laterState
        []).messages = [⟨"Failed to compute routes.", "error"⟩] :=
  non_ok_response_keeps_last_result townGeocoder failingOptimizer [scenarioS1] timeDom
    laterState [] (buildPayload timeDom ⟨.fin 33, .fin 7⟩ [scenarioS1]) rfl rfl

/-- C9. After every successful `handleComputeRoute` (the optimizer answers the request
with an OK response) the session result is the triple of the payload that was sent, the
result that was received and an empty assignment ledger, whatever the session result and
its assignments were before. The triple is stored before the body is rendered: the run
reports success when the rendering returns, and the error thrown by the rendering
otherwise. -/
theorem success_replaces_last_result (geo : Geocoder) (optimizer : Optimizer)
    (students : List Stop) (dom : Dom) (st : State) (log : List GeoCall) (p : Payload)
    (result : Option OptResult)
    (hsent : (handleComputeRoute geo optimizer students dom st log).requests = [p])
    (hok : optimizer p = .ok result) :
    (handleComputeRoute geo optimizer students dom st log).state.lastOptimization =
        some { payload := p, result := result, assignments := [] } ∧
      (handleComputeRoute geo optimizer students dom st log).messages =
        [match renderResult result with
          | .ok _ => ⟨"Routes computed successfully.", "success"⟩
          | .error err => ⟨errorText err, "error"⟩] := by
  rcases handleComputeRoute_cases geo optimizer students dom st log with
    ⟨err, st2, log2, _, hrun⟩ | ⟨school, st2, log2, hschool, hrest⟩
  · rw [hrun] at hsent
    cases hsent
  · rcases hrest with ⟨err, cache, log3, _, hrun⟩ | ⟨stops, cache, log3, hcollect, hopt⟩
    · rw [hrun] at hsent
      cases hsent
    · rcases hopt with ⟨message, hanswer, hrun⟩ | ⟨hanswer, hrun⟩ |
        ⟨result2, hanswer, ⟨err, hrender, hrun⟩ | ⟨body, hrender, hrun⟩⟩
      · rw [hrun] at hsent
        injection hsent with hp _
        rw [hp, hok] at hanswer
        cases hanswer
      · rw [hrun] at hsent
        injection hsent with hp _
        rw [hp, hok] at hanswer
        cases hanswer
      · rw [hrun] at hsent ⊢
        injection hsent with hp _
        rw [hp, hok] at hanswer
        injection hanswer with hres
        rw [hres, hrender]
        refine ⟨?_, rfl⟩
        simp only
        rw [hp]
      · rw [hrun] at hsent ⊢
        injection hsent with hp _
        rw [hp, hok] at hanswer
        injection hanswer with hres
        rw [hres, hrender]
        refine ⟨?_, rfl⟩
        simp only
        rw [drawRoutesOnMap_lastOptimization, hp]

/-- C9 in a session that holds the result of an earlier computation with a driver
assigned to route 0: after the second successful computation the ledger is empty. -/
theorem success_replaces_last_result_witness :
    laterState.lastOptimization = some priorOptimization ∧
      priorOptimization.assignments = [(0, some "7")] ∧
      (handleComputeRoute townGeocoder sampleOptimizer [scenarioS1] timeDom laterState
        []).state.lastOptimization =
        some { payload := buildPayload timeDom ⟨.fin 33, .fin 7⟩ [scenarioS1],
               result := some sampleResult, assignments := [] } :=
  ⟨rfl, rfl,
    (success_replaces_last_result townGeocoder sampleOptimizer [scenarioS1] timeDom laterState
      [] (buildPayload timeDom ⟨.fin 33, .fin 7⟩ [scenarioS1]) (some sampleResult) rfl rfl).1⟩

/-! ## The cache across stops and runs -/

theorem forall₂_getElem? {α β : Type} {R : α → β → Prop} {l : List α} {m : List β}
    (h : List.Forall₂ R l m) :
    ∀ (i : Nat) (a : α), l[i]? = some a → ∃ b, m[i]? = some b ∧ R a b := by
  induction h with
  | nil => intro i a hi; simp at hi
  | cons hab _ ih =>
    intro i a hi
    cases i with
    | zero =>
      simp only [List.getElem?_cons_zero, Option.some.injEq] at hi
      subst hi
      exact ⟨_, by simp, hab⟩
    | succ i =>
      simp only [List.getElem?_cons_succ] at hi
      obtain ⟨b, hb, hr⟩ := ih i a hi
      exact ⟨b, by simpa using hb, hr⟩

theorem getElem?_append_of_some {α : Type} (l r : List α) (i : Nat) (a : α)
    (h : l[i]? = some a) : (l ++ r)[i]? = some a := by
  induction l generalizing i with
  | nil => simp at h
  | cons x l ih =>
    cases i with
    | zero => simpa using h
    | succ i =>
      simp only [List.getElem?_cons_succ] at h
      simpa using ih i h

theorem stampedStop_coords (s t : Stop) (v w : LatLng) (h : stampedStop s v = stampedStop t w) :
    v = w := by
  have h1 := congrArg Stop.lat h
  have h2 := congrArg Stop.lng h
  simp only [stampedStop, Option.some.injEq] at h1 h2
  cases v; cases w
  simp only at h1 h2
  rw [h1, h2]

/-- Within one run of the loop: once a stop without coordinates has been stamped with the
coordinates `w`, every later stop without coordinates at the same address is stamped with
`w` too. -/
theorem collectLoop_same_coords (geo : Geocoder) (l : List Stop) :
    ∀ (out : List Stop) (cache : List (String × LatLng)) (log : List GeoCall)
      (added : List Stop),
      (collectLoop geo l out cache log).result = .ok (out ++ added) →
      ∀ (i j : Nat) (s t : Stop) (w : LatLng), i < j → l[i]? = some s → l[j]? = some t →
        hasCoords s = false → hasCoords t = false → s.address = t.address →
        added[i]? = some (stampedStop s w) → added[j]? = some (stampedStop t w) := by
  induction l with
  | nil =>
    intro out cache log added _ i j s t w _ hi
    simp at hi
  | cons s0 rest ih =>
    intro out cache log added h i j s t w hij hi hj hs ht haddr hxi
    -- the rest of the loop, from the state after the first stop
    have key : ∀ (x0 : Stop) (cache1 : List (String × LatLng)) (log1 : List GeoCall),
        collectLoop geo (s0 :: rest) out cache log =
          collectLoop geo rest (out ++ [x0]) cache1 log1 →
        (i = 0 → x0 = stampedStop s0 w → cacheGet cache1 s0.address = some w) →
        added[j]? = some (stampedStop t w) := by
      intro x0 cache1 log1 e hcache
      rw [e] at h
      obtain ⟨added1, hadd, hrel⟩ := collectLoop_ok geo rest _ _ _ _ h
      have hadded : added = x0 :: added1 := by
        have h2 : out ++ added = out ++ (x0 :: added1) := by
          rw [hadd]; simp
        exact List.append_cancel_left h2
      subst hadded
      cases j with
      | zero => exact absurd hij (Nat.not_lt_zero _)
      | succ j =>
        simp only [List.getElem?_cons_succ] at hj ⊢
        cases i with
        | zero =>
          simp only [List.getElem?_cons_zero, Option.some.injEq] at hi hxi
          subst hi
          have hc := hcache rfl hxi
          obtain ⟨x, hx, hr⟩ := forall₂_getElem? hrel j t hj
          rw [hx, hr.2.2.2.1 ht w (by rw [← haddr]; exact hc)]
        | succ i =>
          simp only [List.getElem?_cons_succ] at hi hxi
          have h3 : (collectLoop geo rest (out ++ [x0]) cache1 log1).result =
              .ok ((out ++ [x0]) ++ added1) := by
            rw [h]; simp
          exact ih _ _ _ _ h3 i j s t w (Nat.lt_of_succ_lt_succ hij) hi hj hs ht haddr hxi
    rcases collectLoop_cons_cases geo s0 rest out cache log with
      ⟨hs0, e⟩ | ⟨w1, hs0, hhit, e⟩ | ⟨g, hs0, hmiss, hgeo, e⟩ | ⟨hs0, hmiss, hgeo, hurl, e⟩ |
      ⟨_, _, _, _, e⟩
    · refine key s0 cache log e ?_
      intro hi0 _
      subst hi0
      simp only [List.getElem?_cons_zero, Option.some.injEq] at hi
      subst hi
      rw [hs0] at hs
      cases hs
    · refine key (stampedStop s0 w1) cache log e ?_
      intro _ hx
      rw [← stampedStop_coords s0 s0 w1 w hx]
      exact hhit
    · refine key (stampedStop s0 g) _ _ e ?_
      intro _ hx
      rw [← stampedStop_coords s0 s0 g w hx]
      exact cacheGet_cacheSet_self cache s0.address g
    · refine key (linkOnlyStop s0) cache _ e ?_
      intro _ hx
      have h1 := congrArg Stop.mapsLink hx
      simp [linkOnlyStop, stampedStop] at h1
    · rw [e] at h
      cases h

/-- C4. Suppose a run of `collectStudentsForPayload` has made the geocoder call `c` for
the address `a` and the geocoder has resolved it to `v`. Then, in that run, no later call
is for `a`, every stop without own coordinates at `a` is returned either link-only (an
earlier attempt had failed) or stamped with `v`, and once one is stamped with `v` so are
all such stops after it. And in any later run, from any state whose cache has kept the
entries of the first run, no geocoder call is for `a` and every stop without own
coordinates whose address is `a` is returned stamped with the cached `v`. -/
theorem geocoded_address_not_asked_again (geo : Geocoder) (students : List Stop) (st : State)
    (log : List GeoCall) (before : List GeoCall) (c : GeoCall) (after : List GeoCall)
    (v : LatLng) (geo2 : Geocoder) (students2 : List Stop) (st2 : State)
    (log2 : List GeoCall)
    (hrun : (collectStudentsForPayload geo students st log).log = log ++ (before ++ c :: after))
    (hresolved : c.answer = some v)
    (hkept : ∀ key w,
      cacheGet (collectStudentsForPayload geo students st log).cache key = some w →
      cacheGet st2.studentCoordsByKey key = some w) :
    (∀ d ∈ after, d.address ≠ c.address) ∧
    (∀ out, (collectStudentsForPayload geo students st log).result = .ok out →
      (∀ (i : Nat) (s : Stop), (activeStudents students st)[i]? = some s →
        hasCoords s = false → s.address = c.address →
        out[i]? = some (stampedStop s v) ∨ out[i]? = some (linkOnlyStop s)) ∧
      (∀ (i j : Nat) (s t : Stop), i < j → (activeStudents students st)[i]? = some s →
        (activeStudents students st)[j]? = some t → hasCoords s = false →
        hasCoords t = false → s.address = c.address → t.address = c.address →
        out[i]? = some (stampedStop s v) → out[j]? = some (stampedStop t v))) ∧
    (∃ added, (collectStudentsForPayload geo2 students2 st2 log2).log = log2 ++ added ∧
      ∀ d ∈ added, d.address ≠ c.address) ∧
    (∀ out, (collectStudentsForPayload geo2 students2 st2 log2).result = .ok out →
      ∀ (i : Nat) (s : Stop), (activeStudents students2 st2)[i]? = some s →
        hasCoords s = false → s.address = c.address → out[i]? = some (stampedStop s v)) := by
  -- the first run, through its loop
  obtain ⟨added1, hlog1, _, hres1⟩ :=
    collectLoop_log geo (activeStudents students st) [] st.studentCoordsByKey log
  have hcl := collectStudentsForPayload_cache_log geo students st log
  rw [← hcl.1] at hres1
  rw [← hcl.2, hrun] at hlog1
  have hsplit : added1 = before ++ c :: after := (List.append_cancel_left hlog1).symm
  obtain ⟨hcached, hlater⟩ := hres1 before c after v hsplit hresolved
  have hcached2 : cacheGet st2.studentCoordsByKey c.address = some v := hkept _ _ hcached
  refine ⟨hlater, ?_, ?_, ?_⟩
  · intro out hout
    obtain ⟨added, houtEq, hrel, hloop⟩ :=
      collectStudentsForPayload_ok_inv geo students st log out hout
    refine ⟨?_, ?_⟩
    · intro i s hi hs haddr
      obtain ⟨x, hx, hr⟩ := forall₂_getElem? hrel i s hi
      have hxo : out[i]? = some x := by
        rw [houtEq]; exact getElem?_append_of_some _ _ _ _ hx
      rcases hr.2.2.2.2 hs with hlink | ⟨w, hw, hstamp⟩
      · exact Or.inr (by rw [hxo, hlink])
      · rw [haddr, hcached] at hw
        injection hw with hw
        exact Or.inl (by rw [hxo, hstamp, hw])
    · intro i j s t hij hi hj hs ht haddr haddr2 hxi
      obtain ⟨x, hx, _⟩ := forall₂_getElem? hrel i s hi
      obtain ⟨y, hy, _⟩ := forall₂_getElem? hrel j t hj
      have hxo : out[i]? = some x := by
        rw [houtEq]; exact getElem?_append_of_some _ _ _ _ hx
      have hyo : out[j]? = some y := by
        rw [houtEq]; exact getElem?_append_of_some _ _ _ _ hy
      rw [hxo] at hxi
      rw [hxi] at hx
      have hres : (collectLoop geo (activeStudents students st) [] st.studentCoordsByKey
          log).result = .ok ([] ++ added) := by
        rw [hloop]; rfl
      have := collectLoop_same_coords geo _ _ _ _ _ hres i j s t v hij hi hj hs ht
        (by rw [haddr, haddr2]) hx
      rw [hyo, ← hy, this]
  · obtain ⟨added2, hlog2, hfresh2, _⟩ :=
      collectLoop_log geo2 (activeStudents students2 st2) [] st2.studentCoordsByKey log2
    rw [← (collectStudentsForPayload_cache_log geo2 students2 st2 log2).2] at hlog2
    refine ⟨added2, hlog2, ?_⟩
    intro d hd heq
    have h1 := hfresh2 d hd
    rw [heq, hcached2] at h1
    cases h1
  · intro out hout i s hi hs haddr
    obtain ⟨added, houtEq, hrel, _⟩ :=
      collectStudentsForPayload_ok_inv geo2 students2 st2 log2 out hout
    obtain ⟨x, hx, hr⟩ := forall₂_getElem? hrel i s hi
    rw [houtEq, getElem?_append_of_some _ _ _ _ hx,
      hr.2.2.2.1 hs v (by rw [haddr]; exact hcached2)]

/-- C4 with two stops at one address: the first run geocodes the address once for both,
and a later run over the kept cache makes no call at all. -/
theorem geocoded_address_not_asked_again_witness :
    (collectStudentsForPayload townGeocoder [stopA, stopA2] plainState []).log =
        [⟨"Ain Chok, Casablanca", some ⟨.fin 33, .fin 7⟩⟩] ∧
      (collectStudentsForPayload townGeocoder [stopA, stopA2] plainState []).result =
        .ok [stampedStop stopA ⟨.fin 33, .fin 7⟩, stampedStop stopA2 ⟨.fin 33, .fin 7⟩] ∧
      (∃ added, (collectStudentsForPayload noGeocoder [stopA2] cachedState []).log =
          [] ++ added ∧
        ∀ d ∈ added, d.address ≠ "Ain Chok, Casablanca") ∧
      (collectStudentsForPayload noGeocoder [stopA2] cachedState []).result =
        .ok [stampedStop stopA2 ⟨.fin 33, .fin 7⟩] :=
  ⟨by decide, by decide,
    (geocoded_address_not_asked_again townGeocoder [stopA, stopA2] plainState [] []
      ⟨"Ain Chok, Casablanca", some ⟨.fin 33, .fin 7⟩⟩ [] ⟨.fin 33, .fin 7⟩ noGeocoder
      [stopA2] cachedState [] (by decide) rfl (fun _ _ h => h)).2.2.1,
    by decide⟩

/-! ## The hybrid weight -/

/-- The requests of a run: one, built from the resolved school and stops, when both
resolve, none otherwise. -/
theorem handleComputeRoute_requests (geo : Geocoder) (optimizer : Optimizer)
    (students : List Stop) (dom : Dom) (st : State) (log : List GeoCall) :
    (handleComputeRoute geo optimizer students dom st log).requests =
      match (ensureSchoolCoords geo dom (clearExistingRoutesOnMap st) log).result with
      | .error _ => []
      | .ok school =>
        match (collectStudentsForPayload geo students
            (ensureSchoolCoords geo dom (clearExistingRoutesOnMap st) log).state
            (ensureSchoolCoords geo dom (clearExistingRoutesOnMap st) log).log).result with
        | .error _ => []
        | .ok stops => [buildPayload dom school stops] := by
  rcases handleComputeRoute_cases geo optimizer students dom st log with
    ⟨err, st2, log2, hschool, hrun⟩ | ⟨school, st2, log2, hschool, hrest⟩
  · rw [hrun, hschool]
  · rcases hrest with ⟨err, cache, log3, hcollect, hrun⟩ | ⟨stops, cache, log3, hcollect, hopt⟩
    · rw [hrun, hschool]
      simp only [hcollect]
    · have hreq : (handleComputeRoute geo optimizer students dom st log).requests =
          [buildPayload dom school stops] := by
        rcases hopt with ⟨_, _, hrun⟩ | ⟨_, hrun⟩ | ⟨_, _, ⟨_, _, hrun⟩ | ⟨_, _, hrun⟩⟩ <;>
          rw [hrun]
      rw [hreq, hschool]
      simp only [hcollect]

/-- C10, a hybrid weight outside the interval that is sent: with the objective `hybrid`
and the weight text `1.5` the request is submitted with `weightDuration` 1.5, and the
computation is reported as successful; with an empty weight text the request is submitted
with `weightDuration` NaN. -/
theorem hybrid_weight_sent_unchecked :
    (handleComputeRoute townGeocoder sampleOptimizer [scenarioS1] hybridDom plainState
        []).requests.map (fun p => (p.objective, p.weightDuration)) =
        [("hybrid", some (.fin (3 / 2)))] ∧
      ¬ JSNum.inUnitInterval (.fin (3 / 2)) ∧
      (handleComputeRoute townGeocoder sampleOptimizer [scenarioS1] hybridDom plainState
        []).messages = [⟨"Routes computed successfully.", "success"⟩] ∧
      (handleComputeRoute townGeocoder sampleOptimizer [scenarioS1]
        { hybridDom with weightDuration := "" } plainState
        []).requests.map (fun p => (p.objective, p.weightDuration)) =
        [("hybrid", some .nan)] := by
  refine ⟨by decide!, ?_, by decide, by decide!⟩
  simp only [JSNum.inUnitInterval]
  norm_num

/-- C10, amended. When the objective is hybrid, every payload that `handleComputeRoute`
submits carries as `weightDuration` the number that `parseFloat` reads from the text of
the weight control, whatever that number is; the weight is not checked: the same number of
requests is submitted for every text of the weight control. -/
theorem hybrid_weight_is_slider_text (geo : Geocoder) (optimizer : Optimizer)
    (students : List Stop) (dom : Dom) (st : State) (log : List GeoCall) (p : Payload)
    (hsent : p ∈ (handleComputeRoute geo optimizer students dom st log).requests)
    (hhybrid : getSelectedObjective dom = "hybrid") :
    p.objective = "hybrid" ∧
      p.weightDuration = some (parseFloat dom.weightDuration) ∧
      ∀ text : String,
        (handleComputeRoute geo optimizer students { dom with weightDuration := text } st
          log).requests.length =
          (handleComputeRoute geo optimizer students dom st log).requests.length := by
  have hbuild : ∀ school stops,
      (buildPayload dom school stops).objective = "hybrid" ∧
        (buildPayload dom school stops).weightDuration =
          some (parseFloat dom.weightDuration) := by
    intro school stops
    simp [buildPayload, hhybrid]
  refine ⟨?_, ?_, ?_⟩
  · rw [handleComputeRoute_requests] at hsent
    split at hsent
    · cases hsent
    · split at hsent
      · cases hsent
      · rw [List.mem_singleton.mp hsent]
        exact (hbuild _ _).1
  · rw [handleComputeRoute_requests] at hsent
    split at hsent
    · cases hsent
    · split at hsent
      · cases hsent
      · rw [List.mem_singleton.mp hsent]
        exact (hbuild _ _).2
  · intro text
    rw [handleComputeRoute_requests, handleComputeRoute_requests]
    have hsame : ensureSchoolCoords geo { dom with weightDuration := text }
        (clearExistingRoutesOnMap st) log =
        ensureSchoolCoords geo dom (clearExistingRoutesOnMap st) log := rfl
    rw [hsame]
    split
    · rfl
    · split <;> rfl

/-- C10, amended, at the weight text `1.5`. -/
theorem hybrid_weight_is_slider_text_witness :
    buildPayload hybridDom ⟨.fin 33, .fin 7⟩ [scenarioS1] ∈
        (handleComputeRoute townGeocoder sampleOptimizer [scenarioS1] hybridDom plainState
          []).requests ∧
      (buildPayload hybridDom ⟨.fin 33, .fin 7⟩ [scenarioS1]).weightDuration =
        some (parseFloat "1.5") :=
  ⟨List.mem_singleton.mpr rfl,
    (hybrid_weight_is_slider_text townGeocoder sampleOptimizer [scenarioS1] hybridDom
      plainState [] _ (List.mem_singleton.mpr rfl) (by decide)).2.1⟩


/-! ## The request body -/

/-- The payload built from the form controls carries the selected objective, carries
`weightDuration` exactly when that objective is `hybrid`, and has no property besides the
eight fixed ones and `weightDuration`. -/
theorem buildPayload_weight (dom : Dom) (school : LatLng) (stops : List Stop) :
    (buildPayload dom school stops).objective = getSelectedObjective dom ∧
      ((buildPayload dom school stops).weightDuration.isSome ↔
        getSelectedObjective dom = "hybrid") ∧
      payloadKeys (buildPayload dom school stops) =
        ["school", "students", "busCount", "busCapacity", "departureTime", "maxSpeedKmh",
          "fuelConsumptionLper100", "objective"] ++
          (if getSelectedObjective dom = "hybrid" then ["weightDuration"] else []) := by
  by_cases h : getSelectedObjective dom = "hybrid"
  · simp [buildPayload, payloadKeys, h]
  · simp [buildPayload, payloadKeys, h]

/-- C11. Every payload that `handleComputeRoute` builds and sends has the property
`weightDuration` if and only if the selected objective is `hybrid`; its properties are the
eight fixed ones (`school`, `students`, `busCount`, `busCapacity`, `departureTime`,
`maxSpeedKmh`, `fuelConsumptionLper100`, `objective`) and, for `hybrid`, `weightDuration`:
there is no separate property for the distance weight, whatever the objective and the text
of the weight control. -/
theorem payload_weight_iff_hybrid (geo : Geocoder) (optimizer : Optimizer)
    (students : List Stop) (dom : Dom) (st : State) (log : List GeoCall) (p : Payload)
    (hsent : p ∈ (handleComputeRoute geo optimizer students dom st log).requests) :
    (p.weightDuration.isSome ↔ getSelectedObjective dom = "hybrid") ∧
      ("weightDuration" ∈ payloadKeys p ↔ getSelectedObjective dom = "hybrid") ∧
      payloadKeys p =
        ["school", "students", "busCount", "busCapacity", "departureTime", "maxSpeedKmh",
          "fuelConsumptionLper100", "objective"] ++
          (if getSelectedObjective dom = "hybrid" then ["weightDuration"] else []) := by
  have hp : ∃ school stops, p = buildPayload dom school stops := by
    rw [handleComputeRoute_requests] at hsent
    split at hsent
    · cases hsent
    · split at hsent
      · cases hsent
      · exact ⟨_, _, List.mem_singleton.mp hsent⟩
  obtain ⟨school, stops, rfl⟩ := hp
  obtain ⟨_, hiff, hkeys⟩ := buildPayload_weight dom school stops
  refine ⟨hiff, ?_, hkeys⟩
  rw [hkeys]
  by_cases h : getSelectedObjective dom = "hybrid"
  · simp [h]
  · simp [h]

/-- C11 for the objectives `hybrid` and `time`: the first payload has the nine
properties, the second the eight fixed ones. -/
theorem payload_weight_iff_hybrid_witness :
    payloadKeys (buildPayload hybridDom ⟨.fin 33, .fin 7⟩ [scenarioS1]) =
        ["school", "students", "busCount", "busCapacity", "departureTime", "maxSpeedKmh",
          "fuelConsumptionLper100", "objective", "weightDuration"] ∧
      payloadKeys (buildPayload timeDom ⟨.fin 33, .fin 7⟩ [scenarioS1]) =
        ["school", "students", "busCount", "busCapacity", "departureTime", "maxSpeedKmh",
          "fuelConsumptionLper100", "objective"] :=
  ⟨(payload_weight_iff_hybrid townGeocoder sampleOptimizer [scenarioS1] hybridDom plainState []
      _ (List.mem_singleton.mpr rfl)).2.2,
    (payload_weight_iff_hybrid townGeocoder sampleOptimizer [scenarioS1] timeDom plainState []
      _ (List.mem_singleton.mpr rfl)).2.2⟩

/-! ## The exclusion set -/

theorem mem_setDelete (members : List String) (x y : String) :
    y ∈ setDelete members x ↔ y ∈ members ∧ y ≠ x := by
  simp [setDelete]

theorem mem_setAdd (members : List String) (x y : String) :
    y ∈ setAdd members x ↔ y ∈ members ∨ y = x := by
  unfold setAdd
  by_cases hx : x ∈ members
  · have hc : members.contains x = true := by simpa using hx
    simp only [hc, if_true]
    constructor
    · exact Or.inl
    · rintro (h | h)
      · exact h
      · rw [h]; exact hx
  · have hc : members.contains x = false := by simpa using hx
    rw [hc]
    simp

/-- Deleting an id that is not a member changes nothing. -/
theorem setDelete_of_not_mem (members : List String) (x : String) (hx : x ∉ members) :
    setDelete members x = members := by
  unfold setDelete
  rw [List.filter_eq_self]
  intro a ha
  have : a ≠ x := fun h => hx (h ▸ ha)
  simpa using this

theorem contains_eq_of_mem_iff (l1 l2 : List String) (h : ∀ x, x ∈ l1 ↔ x ∈ l2) (x : String) :
    l1.contains x = l2.contains x := by
  rw [Bool.eq_iff_iff]
  simpa using h x

/-- The active students depend on `excludedIds` only through its membership test. -/
theorem activeStudents_congr (students : List Stop) (st1 st2 : State)
    (hextra : st2.extraStudents = st1.extraStudents)
    (hmem : ∀ x, st2.excludedIds.contains x = st1.excludedIds.contains x) :
    activeStudents students st2 = activeStudents students st1 := by
  simp only [activeStudents, getAllStudents, hextra, hmem]


/-- What one click on the button of the student `id` does to the exclusion set. -/
theorem toggleExcluded_cases (id : String) (st : State) :
    (id ∈ st.excludedIds ∧
        toggleExcluded id st = { st with excludedIds := setDelete st.excludedIds id }) ∨
      (id ∉ st.excludedIds ∧
        toggleExcluded id st = { st with excludedIds := st.excludedIds ++ [id] }) := by
  by_cases h : id ∈ st.excludedIds
  · have hc : st.excludedIds.contains id = true := by simpa using h
    refine Or.inl ⟨h, ?_⟩
    unfold toggleExcluded
    rw [if_pos hc]
  · have hc : ¬ st.excludedIds.contains id = true := by simpa using h
    refine Or.inr ⟨h, ?_⟩
    unfold toggleExcluded setAdd
    rw [if_neg hc, if_neg hc]

/-- After two clicks on the button of one student the exclusion set has the members it
had. -/
theorem toggleExcluded_twice_mem (id : String) (st : State) (x : String) :
    x ∈ (toggleExcluded id (toggleExcluded id st)).excludedIds ↔ x ∈ st.excludedIds := by
  rcases toggleExcluded_cases id st with ⟨hin, e1⟩ | ⟨hout, e1⟩
  · rcases toggleExcluded_cases id (toggleExcluded id st) with ⟨hin2, _⟩ | ⟨_, e2⟩
    · rw [e1] at hin2
      exact absurd ((mem_setDelete _ _ _).mp hin2).2 (fun h => h rfl)
    · rw [e2, e1]
      simp only [List.mem_append, List.mem_singleton, mem_setDelete]
      constructor
      · rintro (⟨h, _⟩ | h)
        · exact h
        · rw [h]; exact hin
      · intro h
        by_cases hx : x = id
        · exact Or.inr hx
        · exact Or.inl ⟨h, hx⟩
  · rcases toggleExcluded_cases id (toggleExcluded id st) with ⟨_, e2⟩ | ⟨hout2, _⟩
    · rw [e2, e1]
      simp only [mem_setDelete, List.mem_append, List.mem_singleton]
      constructor
      · rintro ⟨h | h, hne⟩
        · exact h
        · exact absurd h hne
      · intro h
        exact ⟨Or.inl h, fun hx => hout (hx ▸ h)⟩
    · rw [e1] at hout2
      exact absurd (List.mem_append_right _ (List.mem_singleton.mpr rfl)) hout2

/-- C12. Two clicks on the button of the same student (exclude then include, or include
then exclude) leave `excludedIds` with the members it had: the membership test `has`
answers as before for every id, so the active list (roster followed by the added
students, without the excluded ids) is the list it was, in the same order; nothing else
of the state is touched, and when the id was not excluded at first the set is restored
entry for entry. -/
theorem toggle_twice_restores (id : String) (st : State) (students : List Stop) :
    (∀ x, (toggleExcluded id (toggleExcluded id st)).excludedIds.contains x =
        st.excludedIds.contains x) ∧
      activeStudents students (toggleExcluded id (toggleExcluded id st)) =
        activeStudents students st ∧
      toggleExcluded id (toggleExcluded id st) =
        { st with excludedIds := (toggleExcluded id (toggleExcluded id st)).excludedIds } ∧
      (id ∉ st.excludedIds → toggleExcluded id (toggleExcluded id st) = st) := by
  have hmem := contains_eq_of_mem_iff _ _ (toggleExcluded_twice_mem id st)
  have hframe : ∀ s : State, ∃ l, toggleExcluded id s = { s with excludedIds := l } := by
    intro s
    rcases toggleExcluded_cases id s with ⟨_, e⟩ | ⟨_, e⟩ <;> exact ⟨_, e⟩
  obtain ⟨l1, h1⟩ := hframe st
  obtain ⟨l2, h2⟩ := hframe (toggleExcluded id st)
  have hextra : (toggleExcluded id (toggleExcluded id st)).extraStudents =
      st.extraStudents := by
    rw [h2, h1]
  refine ⟨hmem, activeStudents_congr students st _ hextra hmem, ?_, ?_⟩
  · rw [h2, h1]
  · intro hout
    rcases toggleExcluded_cases id st with ⟨hin, _⟩ | ⟨_, e1⟩
    · exact absurd hin hout
    · rcases toggleExcluded_cases id (toggleExcluded id st) with ⟨_, e2⟩ | ⟨hout2, _⟩
      · rw [e2, e1]
        have hdel : setDelete (st.excludedIds ++ [id]) id = st.excludedIds := by
          unfold setDelete
          rw [List.filter_append]
          have h1 := setDelete_of_not_mem st.excludedIds id hout
          unfold setDelete at h1
          rw [h1]
          simp
        simp only [hdel]
      · rw [e1] at hout2
        exact absurd (List.mem_append_right _ (List.mem_singleton.mpr rfl)) hout2

/-- C12 with the roster of data.js: `002` is excluded, then included; `003`, excluded from
the start, is included, then excluded. -/
theorem toggle_twice_restores_witness :
    activeStudents rosterStudents
        (toggleExcluded "002" (toggleExcluded "002" { plainState with excludedIds := ["003"] })) =
        activeStudents rosterStudents { plainState with excludedIds := ["003"] } ∧
      activeStudents rosterStudents
        (toggleExcluded "003"
          (toggleExcluded "003" { plainState with excludedIds := ["003", "004"] })) =
        activeStudents rosterStudents { plainState with excludedIds := ["003", "004"] } :=
  ⟨(toggle_twice_restores "002" { plainState with excludedIds := ["003"] } rosterStudents).2.1,
    (toggle_twice_restores "003" { plainState with excludedIds := ["003", "004"] }
      rosterStudents).2.1⟩

/-- C13. Manual stops cannot be excluded: whatever `excludedIds` holds, also the id of a
manual stop, the list returned by a successful `collectStudentsForPayload` ends with the
stops of all manual stops, in their order; so every manual stop is in it. -/
theorem manual_stops_not_excludable (geo : Geocoder) (students : List Stop) (st : State)
    (log : List GeoCall) (out : List Stop)
    (h : (collectStudentsForPayload geo students st log).result = .ok out) :
    (∃ added, out = added ++ st.manualStops.map manualPayloadStop) ∧
      ∀ m ∈ st.manualStops,
        ({ id := m.id, name := m.name, address := "(manual stop)", lat := some m.lat,
           lng := some m.lng, mapsLink := none } : Stop) ∈ out := by
  obtain ⟨added, hout, _, _⟩ := collectStudentsForPayload_ok_inv geo students st log out h
  refine ⟨⟨added, hout⟩, ?_⟩
  intro m hm
  rw [hout]
  exact List.mem_append_right _ (List.mem_map.mpr ⟨m, hm, rfl⟩)

/-- C13 in the end-to-end scenario with the id `M1` of the manual stop put into
`excludedIds`: the manual stop is returned all the same. -/
theorem manual_stops_not_excludable_witness :
    (collectStudentsForPayload noGeocoder [scenarioS1, scenarioS2]
        { scenarioState with excludedIds := ["S2", "M1"] } []).result =
        .ok [scenarioS1, manualPayloadStop scenarioM1] ∧
      manualPayloadStop scenarioM1 ∈ [scenarioS1, manualPayloadStop scenarioM1] :=
  ⟨by decide,
    (manual_stops_not_excludable noGeocoder [scenarioS1, scenarioS2]
      { scenarioState with excludedIds := ["S2", "M1"] } [] _ (by decide)).2 scenarioM1
      (List.mem_singleton.mpr rfl)⟩


/-! ## Route overlays -/

/-- A renderer is created for a route exactly when the route has at least two stops. -/
theorem routeRenderer_isSome (route : Route) (idx : Nat) :
    (routeRenderer route idx).isSome = decide (2 ≤ route.stops.length) := by
  unfold routeRenderer
  rcases hstops : route.stops with _ | ⟨first, _ | ⟨second, more⟩⟩
  · rfl
  · rfl
  · simp

theorem drawLoop_length (routes : List Route) :
    ∀ (idx : Nat) (tracked : List Renderer),
      (drawLoop routes idx tracked).length =
        tracked.length + (routes.filter (fun r => decide (2 ≤ r.stops.length))).length := by
  induction routes with
  | nil => intro idx tracked; simp [drawLoop]
  | cons route rest ih =>
    intro idx tracked
    have hsome := routeRenderer_isSome route idx
    cases hr : routeRenderer route idx with
    | none =>
      rw [hr] at hsome
      have hfew : decide (2 ≤ route.stops.length) = false := by
        rw [← hsome]; rfl
      simp only [drawLoop, hr, ih, List.filter_cons, hfew]
      simp
    | some renderer =>
      rw [hr] at hsome
      have hmany : decide (2 ≤ route.stops.length) = true := by
        rw [← hsome]; rfl
      simp only [drawLoop, hr, ih, List.filter_cons, hmany]
      simp
      omega

/-- On an initialised map `drawRoutesOnMap` tracks the renderers of the given routes and
nothing else. -/
theorem drawRoutesOnMap_initialised (routes : List Route) (st : State) (hmap : st.map = true) :
    drawRoutesOnMap (some routes) st =
      { st with directionsService := true, activeRenderers := drawLoop routes 0 [] } := by
  simp [drawRoutesOnMap, hmap, clearExistingRoutesOnMap]

/-- C14. Overlays never accumulate: after `drawRoutesOnMap(routes)` on an initialised map
the number of renderers tracked in `activeRenderers` is the number of routes of `routes`
with at least two stops, whatever the collection held before; so after any number of
successive draws it is that number for the routes drawn last; and after a
`handleComputeRoute` that ends with the success notification it is that number for the
routes of the result received, while after every other `handleComputeRoute` the
collection is empty: it is never more than that number. -/
theorem overlays_do_not_accumulate (st : State) (hmap : st.map = true) :
    (∀ routes : List Route,
      (drawRoutesOnMap (some routes) st).activeRenderers.length =
        (routes.filter (fun r => decide (2 ≤ r.stops.length))).length) ∧
    (∀ (earlier : List (List Route)) (last : List Route),
      ((earlier ++ [last]).foldl (fun s routes => drawRoutesOnMap (some routes) s)
          st).activeRenderers.length =
        (last.filter (fun r => decide (2 ≤ r.stops.length))).length) ∧
    (∀ (geo : Geocoder) (optimizer : Optimizer) (students : List Stop) (dom : Dom)
        (log : List GeoCall) (p : Payload) (body : OptResult) (routes : List Route),
      (handleComputeRoute geo optimizer students dom st log).requests = [p] →
      optimizer p = .ok (some body) → body.routes = some routes →
      (handleComputeRoute geo optimizer students dom st log).messages =
        [⟨"Routes computed successfully.", "success"⟩] →
      (handleComputeRoute geo optimizer students dom st log).state.activeRenderers.length =
        (routes.filter (fun r => decide (2 ≤ r.stops.length))).length) ∧
    (∀ (geo : Geocoder) (optimizer : Optimizer) (students : List Stop) (dom : Dom)
        (log : List GeoCall),
      (handleComputeRoute geo optimizer students dom st log).messages ≠
        [⟨"Routes computed successfully.", "success"⟩] →
      (handleComputeRoute geo optimizer students dom st log).state.activeRenderers = []) := by
  have hdraw : ∀ (s : State), s.map = true → ∀ routes : List Route,
      (drawRoutesOnMap (some routes) s).activeRenderers.length =
        (routes.filter (fun r => decide (2 ≤ r.stops.length))).length := by
    intro s hs routes
    rw [drawRoutesOnMap_initialised routes s hs]
    simp [drawLoop_length]
  have hkeep : ∀ (s : State) (routes : Option (List Route)),
      (drawRoutesOnMap routes s).map = s.map := by
    intro s routes
    rw [drawRoutesOnMap_frame]
  refine ⟨hdraw st hmap, ?_, ?_, ?_⟩
  · intro earlier last
    have hfold : ∀ (l : List (List Route)) (s : State), s.map = true →
        (l.foldl (fun s routes => drawRoutesOnMap (some routes) s) s).map = true := by
      intro l
      induction l with
      | nil => intro s hs; exact hs
      | cons routes rest ih =>
        intro s hs
        exact ih _ (by rw [hkeep]; exact hs)
    rw [List.foldl_append]
    exact hdraw _ (hfold earlier st hmap) last
  · intro geo optimizer students dom log p body routes hsent hok hroutes hsuccess
    have hfr := ensureSchoolCoords_frame geo dom (clearExistingRoutesOnMap st) log
    rcases handleComputeRoute_cases geo optimizer students dom st log with
      ⟨err, st2, log2, _, hrun⟩ | ⟨school, st2, log2, hschool, hrest⟩
    · rw [hrun] at hsent
      cases hsent
    · rcases hrest with ⟨err, cache, log3, _, hrun⟩ | ⟨stops, cache, log3, hcollect, hopt⟩
      · rw [hrun] at hsent
        cases hsent
      · rw [hschool] at hfr
        have h1 := hfr.1
        simp only at h1
        have hmap2 : st2.map = true := by
          rw [h1]
          exact hmap
        rcases hopt with ⟨message, hanswer, hrun⟩ | ⟨hanswer, hrun⟩ |
          ⟨result2, hanswer, ⟨err, hrender, hrun⟩ | ⟨body2, hrender, hrun⟩⟩
        · rw [hrun] at hsent
          injection hsent with hp _
          rw [hp, hok] at hanswer
          cases hanswer
        · rw [hrun] at hsent
          injection hsent with hp _
          rw [hp, hok] at hanswer
          cases hanswer
        · rw [hrun] at hsuccess
          simp at hsuccess
        · rw [hrun] at hsent ⊢
          injection hsent with hp _
          rw [hp, hok] at hanswer
          injection hanswer with hres
          have hbody : body2 = body := by
            rw [← hres] at hrender
            simp only [renderResult] at hrender
            split at hrender
            · cases hrender
            · split at hrender
              · cases hrender
              · injection hrender with hb
                exact hb.symm
          simp only
          rw [hbody, hroutes]
          refine hdraw _ ?_ routes
          exact hmap2
  · intro geo optimizer students dom log hnot
    have hfr := ensureSchoolCoords_frame geo dom (clearExistingRoutesOnMap st) log
    rcases handleComputeRoute_cases geo optimizer students dom st log with
      ⟨err, st2, log2, hschool, hrun⟩ | ⟨school, st2, log2, hschool, hrest⟩
    · rw [hschool] at hfr
      have h1 := hfr.1
      simp only at h1
      rw [hrun]
      simp only
      rw [h1]
      rfl
    · rw [hschool] at hfr
      have h1 := hfr.1
      simp only at h1
      have hnone : st2.activeRenderers = [] := by
        rw [h1]
        rfl
      rcases hrest with ⟨err, cache, log3, _, hrun⟩ | ⟨stops, cache, log3, hcollect, hopt⟩
      · rw [hrun]
        exact hnone
      · rcases hopt with ⟨message, hanswer, hrun⟩ | ⟨hanswer, hrun⟩ |
          ⟨result2, hanswer, ⟨err, hrender, hrun⟩ | ⟨body2, hrender, hrun⟩⟩
        · rw [hrun]
          exact hnone
        · rw [hrun]
          exact hnone
        · rw [hrun]
          exact hnone
        · rw [hrun] at hnot
          exact absurd rfl hnot

/-- C14 in a session with one stale overlay: drawing three routes, of which one has a
single stop, leaves two renderers. -/
theorem overlays_do_not_accumulate_witness :
    laterState.activeRenderers.length = 1 ∧
      (drawRoutesOnMap (some threeRoutes) laterState).activeRenderers.length = 2 ∧
      (threeRoutes.filter (fun r => decide (2 ≤ r.stops.length))).length = 2 :=
  ⟨rfl, ((overlays_do_not_accumulate laterState rfl).1 threeRoutes).trans (by decide),
    by decide⟩


/-! ## Stop ids -/

theorem digitChar_value (k : Nat) (hk : k < 10) : (Nat.digitChar k).toNat - 48 = k := by
  interval_cases k <;> rfl

/-- Reading back the digits that `Nat.toDigitsCore` writes in front of `ds`. -/
theorem foldl_toDigitsCore (fuel : Nat) :
    ∀ (n : Nat) (ds : List Char), n < fuel →
      (Nat.toDigitsCore 10 fuel n ds).foldl (fun m c => 10 * m + (c.toNat - 48)) 0 =
        ds.foldl (fun m c => 10 * m + (c.toNat - 48)) n := by
  induction fuel with
  | zero => intro n ds h; exact absurd h (Nat.not_lt_zero _)
  | succ fuel ih =>
    intro n ds h
    simp only [Nat.toDigitsCore]
    have hval := digitChar_value (n % 10) (Nat.mod_lt n (by decide))
    by_cases hq : n / 10 = 0
    · simp only [hq, if_true, List.foldl_cons, hval]
      have hn : n % 10 = n := by omega
      rw [hn]
      simp
    · simp only [hq, if_false]
      have hlt : n / 10 < fuel := by omega
      rw [ih (n / 10) _ hlt]
      simp only [List.foldl_cons, hval]
      have hn : 10 * (n / 10) + n % 10 = n := Nat.div_add_mod n 10
      rw [hn]

/-- The decimal text of a number reads back as the number. -/
theorem digitsValue_toString (n : Nat) : digitsValue (toString n).data = n := by
  show (Nat.toDigitsCore 10 (n + 1) n []).foldl (fun m c => 10 * m + (c.toNat - 48)) 0 = n
  rw [foldl_toDigitsCore (n + 1) n [] (Nat.lt_succ_self n)]
  rfl

/-- Leading zeros do not change the value that is read. -/
theorem digitsValue_zeros (zeros rest : List Char) (hz : ∀ c ∈ zeros, c = '0') :
    digitsValue (zeros ++ rest) = digitsValue rest := by
  induction zeros with
  | nil => rfl
  | cons z zeros ih =>
    have hz0 : z = '0' := hz z (List.mem_cons_self _ _)
    have ih2 := ih (fun c hc => hz c (List.mem_cons_of_mem _ hc))
    subst hz0
    unfold digitsValue at ih2 ⊢
    simpa using ih2

/-- Padding with zeros does not change the value that is read. -/
theorem digitsValue_padStart (s : String) (targetLength : Nat) :
    digitsValue (padStart s targetLength "0").data = digitsValue s.data := by
  unfold padStart
  split
  · rfl
  · apply digitsValue_zeros
    intro c hc
    obtain ⟨i, _, hi⟩ := List.mem_map.mp hc
    rw [← hi]
    have h1 : "0".length = 1 := rfl
    rw [h1, Nat.mod_one]
    rfl

theorem string_append_cancel (p a b : String) (h : p ++ a = p ++ b) : a = b := by
  have h2 := congrArg String.data h
  simp only [String.data_append] at h2
  exact String.ext (List.append_cancel_left h2)

/-- Different added students get different ids. -/
theorem inlineStudentId_injective : Function.Injective inlineStudentId := by
  intro a b h
  have h2 := congrArg (fun t : String => digitsValue t.data)
    (string_append_cancel "X" _ _ h)
  simp only [digitsValue_padStart, digitsValue_toString] at h2
  omega

/-- Different manual stops get different ids. -/
theorem manualStopId_injective : Function.Injective manualStopId := by
  intro a b h
  have h2 := congrArg (fun t : String => digitsValue t.data)
    (string_append_cancel "M" _ _ h)
  simp only [digitsValue_toString] at h2
  omega

theorem inlineStudentId_head (count : Nat) : (inlineStudentId count).data.head? = some 'X' := by
  unfold inlineStudentId
  rw [String.data_append]
  rfl

theorem manualStopId_head (count : Nat) : (manualStopId count).data.head? = some 'M' := by
  unfold manualStopId
  rw [String.data_append]
  rfl

/-- The ids in a reachable state: the added students have the ids `X001`, `X002`, ... in
the order in which they were added, the manual stops the ids `M1`, `M2`, ... -/
theorem reachable_ids (st : State) (h : Reachable st) :
    st.extraStudents.map Stop.id =
        (List.range st.extraStudents.length).map inlineStudentId ∧
      st.manualStops.map ManualStop.id =
        (List.range st.manualStops.length).map manualStopId := by
  induction h with
  | start st hextra hmanual => rw [hextra, hmanual]; exact ⟨rfl, rfl⟩
  | addInline form st _ ih =>
    unfold handleAddInlineStudent
    simp only
    split
    · exact ih
    · split
      · exact ih
      · refine ⟨?_, ih.2⟩
        simp only [List.map_append, List.length_append, List.length_singleton, List.map_cons,
          List.map_nil, List.range_succ, ih.1]
  | addManual latLng st _ ih =>
    refine ⟨ih.1, ?_⟩
    simp only [addManualStop, List.map_append, List.length_append, List.length_singleton,
      List.map_cons, List.map_nil, List.range_succ, ih.2]
  | other st next _ hextra hmanual ih =>
    rw [hextra, hmanual]
    exact ih


/-- C15. Stop ids are unique within a session: in every state reachable from the initial
roster through `handleAddInlineStudent` and `addManualStop`, the added students have the
ids `X001`, `X002`, ... and the manual stops the ids `M1`, `M2`, ..., and the ids of the
roster students, of the added students and of the manual stops, taken together, are
pairwise distinct. -/
theorem stop_ids_unique (st : State) (h : Reachable st) :
    st.extraStudents.map Stop.id =
        (List.range st.extraStudents.length).map inlineStudentId ∧
      st.manualStops.map ManualStop.id =
        (List.range st.manualStops.length).map manualStopId ∧
      (rosterStudents.map Stop.id ++ st.extraStudents.map Stop.id ++
        st.manualStops.map ManualStop.id).Nodup := by
  obtain ⟨hextra, hmanual⟩ := reachable_ids st h
  refine ⟨hextra, hmanual, ?_⟩
  rw [hextra, hmanual]
  have hroster : ∀ id ∈ rosterStudents.map Stop.id, id.data.head? = some '0' := by
    decide
  have hX : ∀ id ∈ (List.range st.extraStudents.length).map inlineStudentId,
      id.data.head? = some 'X' := by
    intro id hid
    obtain ⟨k, _, hk⟩ := List.mem_map.mp hid
    rw [← hk]
    exact inlineStudentId_head k
  have hM : ∀ id ∈ (List.range st.manualStops.length).map manualStopId,
      id.data.head? = some 'M' := by
    intro id hid
    obtain ⟨k, _, hk⟩ := List.mem_map.mp hid
    rw [← hk]
    exact manualStopId_head k
  rw [List.nodup_append, List.nodup_append]
  refine ⟨⟨by decide, (List.nodup_range _).map inlineStudentId_injective, ?_⟩,
    (List.nodup_range _).map manualStopId_injective, ?_⟩
  · intro id h1 h2
    have a := hroster id h1
    rw [hX id h2] at a
    exact absurd a (by decide)
  · intro id h1 h2
    have b := hM id h2
    rcases List.mem_append.mp h1 with h1 | h1
    · rw [hroster id h1] at b
      exact absurd b (by decide)
    · rw [hX id h1] at b
      exact absurd b (by decide)

/-- C15 after two added students and one manual stop. -/
theorem stop_ids_unique_witness :
    (rosterStudents.map Stop.id ++ twoAddedState.extraStudents.map Stop.id ++
        twoAddedState.manualStops.map ManualStop.id) =
        ["001", "002", "003", "004", "X001", "X002", "M1"] ∧
      (rosterStudents.map Stop.id ++ twoAddedState.extraStudents.map Stop.id ++
        twoAddedState.manualStops.map ManualStop.id).Nodup :=
  ⟨by decide,
    (stop_ids_unique twoAddedState
      (Reachable.addManual _ _
        (Reachable.addInline _ _
          (Reachable.addInline _ _ (Reachable.start initialState rfl rfl))))).2.2⟩


/-! ## The cache across the operations of a session -/

/-- The function `handleComputeRoute` never removes or changes a cache entry. -/
theorem handleComputeRoute_cache_keeps (geo : Geocoder) (optimizer : Optimizer)
    (students : List Stop) (dom : Dom) (st : State) (log : List GeoCall) (key : String)
    (w : LatLng) (h : cacheGet st.studentCoordsByKey key = some w) :
    cacheGet (handleComputeRoute geo optimizer students dom st log).state.studentCoordsByKey
      key = some w := by
  have hfr := ensureSchoolCoords_frame geo dom (clearExistingRoutesOnMap st) log
  rcases handleComputeRoute_cases geo optimizer students dom st log with
    ⟨err, st2, log2, hschool, hrun⟩ | ⟨school, st2, log2, hschool, hrest⟩
  · rw [hschool] at hfr
    rw [hrun]
    exact hfr.2.1 key w h
  · rw [hschool] at hfr
    have h2 : cacheGet st2.studentCoordsByKey key = some w := hfr.2.1 key w h
    have hkeep := collectStudentsForPayload_cache_keeps geo students st2 log2 key w h2
    rcases hrest with ⟨err, cache, log3, hcollect, hrun⟩ | ⟨stops, cache, log3, hcollect, hopt⟩
    · rw [hcollect] at hkeep
      rw [hrun]
      exact hkeep
    · rw [hcollect] at hkeep
      rcases hopt with ⟨_, _, hrun⟩ | ⟨_, hrun⟩ | ⟨result, _, ⟨_, _, hrun⟩ | ⟨_, _, hrun⟩⟩
      · rw [hrun]; exact hkeep
      · rw [hrun]; exact hkeep
      · rw [hrun]; exact hkeep
      · rw [hrun]
        simp only
        rw [drawRoutesOnMap_frame]
        exact hkeep

/-- C16. The geocode cache is append-only: an entry that `studentCoordsByKey` holds
before an operation of the session is held afterwards, under the same key with the same
coordinates, for `ensureSchoolCoords`, `collectStudentsForPayload`, `handleComputeRoute`,
adding a student, adding a manual stop, toggling a student, setting the school location,
assigning a driver and drawing routes. -/
theorem cache_append_only (st : State) (key : String) (w : LatLng)
    (h : cacheGet st.studentCoordsByKey key = some w) :
    (∀ (geo : Geocoder) (dom : Dom) (log : List GeoCall),
      cacheGet (ensureSchoolCoords geo dom st log).state.studentCoordsByKey key = some w) ∧
    (∀ (geo : Geocoder) (students : List Stop) (log : List GeoCall),
      cacheGet (collectStudentsForPayload geo students st log).cache key = some w) ∧
    (∀ (geo : Geocoder) (optimizer : Optimizer) (students : List Stop) (dom : Dom)
        (log : List GeoCall),
      cacheGet (handleComputeRoute geo optimizer students dom st log).state.studentCoordsByKey
        key = some w) ∧
    (∀ form : InlineForm,
      cacheGet (handleAddInlineStudent form st).state.studentCoordsByKey key = some w) ∧
    (∀ latLng : LatLng, cacheGet (addManualStop latLng st).1.studentCoordsByKey key = some w) ∧
    (∀ id : String, cacheGet (toggleExcluded id st).studentCoordsByKey key = some w) ∧
    (∀ (latLng : LatLng) (nameFrom : String) (dom : Dom),
      cacheGet (setSchoolLocation latLng nameFrom st dom).1.studentCoordsByKey key = some w) ∧
    (∀ (idx : Nat) (value : String),
      cacheGet (assignDriver idx value st).1.studentCoordsByKey key = some w) ∧
    (∀ routes : Option (List Route),
      cacheGet (drawRoutesOnMap routes st).studentCoordsByKey key = some w) := by
  refine ⟨?_, ?_, ?_, ?_, ?_, ?_, ?_, ?_, ?_⟩
  · intro geo dom log
    exact (ensureSchoolCoords_frame geo dom st log).2.1 key w h
  · intro geo students log
    exact collectStudentsForPayload_cache_keeps geo students st log key w h
  · intro geo optimizer students dom log
    exact handleComputeRoute_cache_keeps geo optimizer students dom st log key w h
  · intro form
    unfold handleAddInlineStudent
    simp only
    split
    · exact h
    · split <;> exact h
  · intro latLng
    exact h
  · intro id
    rcases toggleExcluded_cases id st with ⟨_, e⟩ | ⟨_, e⟩ <;> rw [e] <;> exact h
  · intro latLng nameFrom dom
    exact h
  · intro idx value
    unfold assignDriver
    simp only
    split <;> exact h
  · intro routes
    rw [drawRoutesOnMap_frame]
    exact h

/-- C16 for the entry of `cachedState` and a computation that geocodes a second address. -/
theorem cache_append_only_witness :
    cacheGet cachedState.studentCoordsByKey "Ain Chok, Casablanca" = some ⟨.fin 33, .fin 7⟩ ∧
      (handleComputeRoute townGeocoder sampleOptimizer [stopA, stopC] timeDom cachedState
        []).state.studentCoordsByKey =
        [("Ain Chok, Casablanca", ⟨.fin 33, .fin 7⟩),
          ("Hay Hassani, Casablanca", ⟨.fin 33, .fin 7⟩)] ∧
      cacheGet (handleComputeRoute townGeocoder sampleOptimizer [stopA, stopC] timeDom cachedState
        []).state.studentCoordsByKey "Ain Chok, Casablanca" = some ⟨.fin 33, .fin 7⟩ :=
  ⟨by decide, by decide,
    (cache_append_only cachedState "Ain Chok, Casablanca" ⟨.fin 33, .fin 7⟩ (by decide)).2.2.1
      townGeocoder sampleOptimizer [stopA, stopC] timeDom []⟩

/-- C17, the key of the school `Ecole` and the key of a student whose address is
`school:Ecole` are the same key. In a session whose school location is unset, the
computation geocodes the school, stores it under `school:Ecole`, and then stamps the
student with the coordinates of the school without asking the geocoder for the address of
the student. The other way round, once the student has been geocoded, the school lookup
returns the coordinates of the student without asking the geocoder for the school. -/
theorem school_key_collides_with_student_key :
    "school:" ++ jsTrim timeDom.schoolName = stopNamesake.address ∧
      namesakeGeocoder [] "Ecole" = some ⟨.fin 33, .fin 7⟩ ∧
      namesakeGeocoder [] stopNamesake.address = some ⟨.fin 35, .fin 9⟩ ∧
      (handleComputeRoute namesakeGeocoder sampleOptimizer [stopNamesake] timeDom
        unsetSchoolState []).log = [⟨"Ecole", some ⟨.fin 33, .fin 7⟩⟩] ∧
      (handleComputeRoute namesakeGeocoder sampleOptimizer [stopNamesake] timeDom
        unsetSchoolState []).requests.map (fun p => p.students) =
        [[stampedStop stopNamesake ⟨.fin 33, .fin 7⟩]] ∧
      (collectStudentsForPayload namesakeGeocoder [stopNamesake] unsetSchoolState []).cache =
        [("school:Ecole", ⟨.fin 35, .fin 9⟩)] ∧
      ensureSchoolCoords namesakeGeocoder timeDom
        { unsetSchoolState with
          studentCoordsByKey :=
            (collectStudentsForPayload namesakeGeocoder [stopNamesake] unsetSchoolState
              []).cache } [] =
        ⟨.ok ⟨.fin 35, .fin 9⟩,
          { unsetSchoolState with
            schoolLatLng := some ⟨.fin 35, .fin 9⟩
            studentCoordsByKey := [("school:Ecole", ⟨.fin 35, .fin 9⟩)] }, []⟩ := by
  decide


/-- The loop writes the cache only under the addresses of its stops. -/
theorem collectLoop_cache_other (geo : Geocoder) (l : List Stop) :
    ∀ (out : List Stop) (cache : List (String × LatLng)) (log : List GeoCall) (key : String),
      (∀ s ∈ l, s.address ≠ key) →
      cacheGet (collectLoop geo l out cache log).cache key = cacheGet cache key := by
  induction l with
  | nil => intro out cache log key _; rfl
  | cons s rest ih =>
    intro out cache log key hkey
    have hrest : ∀ t ∈ rest, t.address ≠ key := fun t ht => hkey t (List.mem_cons_of_mem _ ht)
    have hs : key ≠ s.address := fun h => hkey s (List.mem_cons_self _ _) h.symm
    rcases collectLoop_cons_cases geo s rest out cache log with
      ⟨_, e⟩ | ⟨w1, _, _, e⟩ | ⟨res, _, _, _, e⟩ | ⟨_, _, _, _, e⟩ | ⟨_, _, _, _, e⟩
    · rw [e]; exact ih _ _ _ _ hrest
    · rw [e]; exact ih _ _ _ _ hrest
    · rw [e, ih _ _ _ _ hrest]
      exact cacheGet_cacheSet_of_ne cache s.address key res hs
    · rw [e]; exact ih _ _ _ _ hrest
    · rw [e]

/-- The loop reads the cache only under the addresses of its stops: on two caches that
hold the same for these addresses it pushes the same stops and makes the same calls. -/
theorem collectLoop_congr (geo : Geocoder) (l : List Stop) :
    ∀ (out : List Stop) (c1 c2 : List (String × LatLng)) (log : List GeoCall),
      (∀ s ∈ l, cacheGet c1 s.address = cacheGet c2 s.address) →
      (collectLoop geo l out c1 log).result = (collectLoop geo l out c2 log).result ∧
        (collectLoop geo l out c1 log).log = (collectLoop geo l out c2 log).log := by
  induction l with
  | nil => intro out c1 c2 log _; exact ⟨rfl, rfl⟩
  | cons s rest ih =>
    intro out c1 c2 log hsame
    have hrest : ∀ t ∈ rest, cacheGet c1 t.address = cacheGet c2 t.address :=
      fun t ht => hsame t (List.mem_cons_of_mem _ ht)
    have hs : cacheGet c1 s.address = cacheGet c2 s.address := hsame s (List.mem_cons_self _ _)
    cases hc : hasCoords s with
    | true =>
      rw [collectLoop_cons_coords geo s rest out c1 log hc,
        collectLoop_cons_coords geo s rest out c2 log hc]
      exact ih _ _ _ _ hrest
    | false =>
      cases h1 : cacheGet c1 s.address with
      | some w =>
        have h2 : cacheGet c2 s.address = some w := by rw [← hs, h1]
        rw [collectLoop_cons_hit geo s rest out c1 log w hc h1,
          collectLoop_cons_hit geo s rest out c2 log w hc h2]
        exact ih _ _ _ _ hrest
      | none =>
        have h2 : cacheGet c2 s.address = none := by rw [← hs, h1]
        cases hg : geo log s.address with
        | some res =>
          rw [collectLoop_cons_geocoded geo s rest out c1 log res hc h1 hg,
            collectLoop_cons_geocoded geo s rest out c2 log res hc h2 hg]
          refine ih _ _ _ _ ?_
          intro t ht
          by_cases hta : t.address = s.address
          · rw [hta, cacheGet_cacheSet_self, cacheGet_cacheSet_self]
          · rw [cacheGet_cacheSet_of_ne c1 s.address t.address res hta,
              cacheGet_cacheSet_of_ne c2 s.address t.address res hta]
            exact hrest t ht
        | none =>
          cases hu : isHttpUrl s.address with
          | true =>
            rw [collectLoop_cons_link geo s rest out c1 log hc h1 hg hu,
              collectLoop_cons_link geo s rest out c2 log hc h2 hg hu]
            exact ih _ _ _ _ hrest
          | false =>
            rw [collectLoop_cons_abort geo s rest out c1 log hc h1 hg hu,
              collectLoop_cons_abort geo s rest out c2 log hc h2 hg hu]
            exact ⟨rfl, rfl⟩

/-- Two sessions with the same students, exclusions and manual stops, whose caches hold
the same for the addresses of the active students, collect the same stops with the same
calls. -/
theorem collectStudentsForPayload_congr (geo : Geocoder) (students : List Stop)
    (st1 st2 : State) (log : List GeoCall)
    (hextra : st1.extraStudents = st2.extraStudents)
    (hexcluded : st1.excludedIds = st2.excludedIds)
    (hmanual : st1.manualStops = st2.manualStops)
    (hcache : ∀ s ∈ activeStudents students st2,
      cacheGet st1.studentCoordsByKey s.address = cacheGet st2.studentCoordsByKey s.address) :
    (collectStudentsForPayload geo students st1 log).result =
        (collectStudentsForPayload geo students st2 log).result ∧
      (collectStudentsForPayload geo students st1 log).log =
        (collectStudentsForPayload geo students st2 log).log := by
  have hact : activeStudents students st1 = activeStudents students st2 := by
    simp only [activeStudents, getAllStudents, hextra, hexcluded]
  have hloop := collectLoop_congr geo (activeStudents students st2) []
    st1.studentCoordsByKey st2.studentCoordsByKey log hcache
  by_cases hempty : activeStudents students st2 = [] ∧ st2.manualStops = []
  · rw [collectStudentsForPayload_empty geo students st2 log hempty.1 hempty.2,
      collectStudentsForPayload_empty geo students st1 log (hact.trans hempty.1)
        (hmanual.trans hempty.2)]
    exact ⟨rfl, rfl⟩
  · have hempty1 : ¬ (activeStudents students st1 = [] ∧ st1.manualStops = []) := by
      rw [hact, hmanual]
      exact hempty
    rcases h2 : collectLoop geo (activeStudents students st2) [] st2.studentCoordsByKey log with
      ⟨r2, cache2, log2⟩
    rcases h1 : collectLoop geo (activeStudents students st2) [] st1.studentCoordsByKey log with
      ⟨r1, cache1, log1⟩
    rw [h1, h2] at hloop
    obtain ⟨hr, hl⟩ := hloop
    simp only at hr hl
    subst hr
    subst hl
    rw [← hact] at h1
    cases r1 with
    | error err =>
      rw [collectStudentsForPayload_error geo students st1 log err cache1 log1 hempty1 h1,
        collectStudentsForPayload_error geo students st2 log err cache2 log1 hempty h2]
      exact ⟨rfl, rfl⟩
    | ok out =>
      rw [collectStudentsForPayload_ok geo students st1 log out cache1 log1 hempty1 h1,
        collectStudentsForPayload_ok geo students st2 log out cache2 log1 hempty h2, hmanual]
      exact ⟨rfl, rfl⟩

/-- The school lookup writes the cache only under the key of the school. -/
theorem ensureSchoolCoords_cache_other (geo : Geocoder) (dom : Dom) (st : State)
    (log : List GeoCall) (key : String) (hkey : key ≠ "school:" ++ jsTrim dom.schoolName) :
    cacheGet (ensureSchoolCoords geo dom st log).state.studentCoordsByKey key =
      cacheGet st.studentCoordsByKey key := by
  cases hloc : st.schoolLatLng with
  | some loc => rw [ensureSchoolCoords_set geo dom st log loc hloc]
  | none =>
    by_cases haddr : jsTrim dom.schoolName = ""
    · rw [ensureSchoolCoords_blank geo dom st log hloc haddr]
    · cases hhit : cacheGet st.studentCoordsByKey ("school:" ++ jsTrim dom.schoolName) with
      | some loc => rw [ensureSchoolCoords_cached geo dom st log loc hloc haddr hhit]
      | none =>
        cases hgeo : geo log (jsTrim dom.schoolName) with
        | some res =>
          rw [ensureSchoolCoords_geocoded geo dom st log res hloc haddr hhit hgeo]
          exact cacheGet_cacheSet_of_ne _ _ _ _ hkey
        | none => rw [ensureSchoolCoords_rejected geo dom st log hloc haddr hhit hgeo]

/-- The school lookup reads the cache only under the key of the school: in two sessions
with the same school location whose caches hold the same under that key it gives the same
result with the same calls. -/
theorem ensureSchoolCoords_congr (geo : Geocoder) (dom : Dom) (st1 st2 : State)
    (log : List GeoCall) (hschool : st1.schoolLatLng = st2.schoolLatLng)
    (hsame : cacheGet st1.studentCoordsByKey ("school:" ++ jsTrim dom.schoolName) =
      cacheGet st2.studentCoordsByKey ("school:" ++ jsTrim dom.schoolName)) :
    (ensureSchoolCoords geo dom st1 log).result = (ensureSchoolCoords geo dom st2 log).result ∧
      (ensureSchoolCoords geo dom st1 log).log = (ensureSchoolCoords geo dom st2 log).log := by
  cases hloc : st2.schoolLatLng with
  | some loc =>
    rw [ensureSchoolCoords_set geo dom st2 log loc hloc,
      ensureSchoolCoords_set geo dom st1 log loc (hschool.trans hloc)]
    exact ⟨rfl, rfl⟩
  | none =>
    have hloc1 : st1.schoolLatLng = none := hschool.trans hloc
    by_cases haddr : jsTrim dom.schoolName = ""
    · rw [ensureSchoolCoords_blank geo dom st2 log hloc haddr,
        ensureSchoolCoords_blank geo dom st1 log hloc1 haddr]
      exact ⟨rfl, rfl⟩
    · cases hhit : cacheGet st2.studentCoordsByKey ("school:" ++ jsTrim dom.schoolName) with
      | some loc =>
        rw [ensureSchoolCoords_cached geo dom st2 log loc hloc haddr hhit,
          ensureSchoolCoords_cached geo dom st1 log loc hloc1 haddr (hsame.trans hhit)]
        exact ⟨rfl, rfl⟩
      | none =>
        cases hgeo : geo log (jsTrim dom.schoolName) with
        | some res =>
          rw [ensureSchoolCoords_geocoded geo dom st2 log res hloc haddr hhit hgeo,
            ensureSchoolCoords_geocoded geo dom st1 log res hloc1 haddr (hsame.trans hhit) hgeo]
          exact ⟨rfl, rfl⟩
        | none =>
          rw [ensureSchoolCoords_rejected geo dom st2 log hloc haddr hhit hgeo,
            ensureSchoolCoords_rejected geo dom st1 log hloc1 haddr (hsame.trans hhit) hgeo]
          exact ⟨rfl, rfl⟩

/-- C17, amended. The key of the school is `school:` followed by the school input, the
key of a student is the address itself, so the two are the same key exactly for a student
whose address is `school:` followed by the school input. For every session in which no
active student has that address, the entries stay apart: collecting the students leaves
the entry of the school as it is, and the school lookup gives the same result with the
same geocoder calls after the collection as before it; the school lookup leaves the entry
of every active student as it is, and the collection gives the same stops with the same
geocoder calls after the school lookup as before it. And in a session whose school
location is set, as `initMap` sets it, the school lookup returns it and neither reads nor
writes the cache. -/
theorem school_and_student_entries_apart (geo : Geocoder) (dom : Dom) (students : List Stop)
    (st : State) (log : List GeoCall)
    (hapart : ∀ s ∈ activeStudents students st,
      s.address ≠ "school:" ++ jsTrim dom.schoolName) :
    cacheGet (collectStudentsForPayload geo students st log).cache
        ("school:" ++ jsTrim dom.schoolName) =
        cacheGet st.studentCoordsByKey ("school:" ++ jsTrim dom.schoolName) ∧
      (∀ (geo2 : Geocoder) (log2 : List GeoCall),
        (ensureSchoolCoords geo2 dom
            { st with studentCoordsByKey := (collectStudentsForPayload geo students st log).cache }
            log2).result = (ensureSchoolCoords geo2 dom st log2).result ∧
          (ensureSchoolCoords geo2 dom
            { st with studentCoordsByKey := (collectStudentsForPayload geo students st log).cache }
            log2).log = (ensureSchoolCoords geo2 dom st log2).log) ∧
      (∀ s ∈ activeStudents students st,
        cacheGet (ensureSchoolCoords geo dom st log).state.studentCoordsByKey s.address =
          cacheGet st.studentCoordsByKey s.address) ∧
      (∀ (geo2 : Geocoder) (log2 : List GeoCall),
        (collectStudentsForPayload geo2 students (ensureSchoolCoords geo dom st log).state
            log2).result = (collectStudentsForPayload geo2 students st log2).result ∧
          (collectStudentsForPayload geo2 students (ensureSchoolCoords geo dom st log).state
            log2).log = (collectStudentsForPayload geo2 students st log2).log) ∧
      (∀ loc, st.schoolLatLng = some loc →
        ∀ (cache : List (String × LatLng)),
          ensureSchoolCoords geo dom { st with studentCoordsByKey := cache } log =
            ⟨.ok loc, { st with studentCoordsByKey := cache }, log⟩) := by
  have hschoolKey : cacheGet (collectStudentsForPayload geo students st log).cache
      ("school:" ++ jsTrim dom.schoolName) =
      cacheGet st.studentCoordsByKey ("school:" ++ jsTrim dom.schoolName) := by
    rw [(collectStudentsForPayload_cache_log geo students st log).1]
    exact collectLoop_cache_other geo _ _ _ _ _ hapart
  have hstudentKey : ∀ s ∈ activeStudents students st,
      cacheGet (ensureSchoolCoords geo dom st log).state.studentCoordsByKey s.address =
        cacheGet st.studentCoordsByKey s.address :=
    fun s hs => ensureSchoolCoords_cache_other geo dom st log s.address (hapart s hs)
  refine ⟨hschoolKey, ?_, hstudentKey, ?_, ?_⟩
  · intro geo2 log2
    exact ensureSchoolCoords_congr geo2 dom _ st log2 rfl hschoolKey
  · intro geo2 log2
    have hfr := (ensureSchoolCoords_frame geo dom st log).1
    refine collectStudentsForPayload_congr geo2 students _ st log2 ?_ ?_ ?_ hstudentKey
    · rw [hfr]
    · rw [hfr]
    · rw [hfr]
  · intro loc hloc cache
    exact ensureSchoolCoords_set geo dom _ log loc hloc

/-- C17, amended, in the session whose school `Ecole` is not yet resolved, with the
student `A`: the address of `A` is not `school:Ecole`; the school lookup stores the
school and leaves the cache without an entry for the address of `A`, and the collection
then asks the geocoder for `A`. -/
theorem school_and_student_entries_apart_witness :
    stopA.address ≠ "school:" ++ jsTrim timeDom.schoolName ∧
      (ensureSchoolCoords townGeocoder timeDom unsetSchoolState []).state.studentCoordsByKey =
        [("school:Ecole", ⟨.fin 33, .fin 7⟩)] ∧
      cacheGet (ensureSchoolCoords townGeocoder timeDom unsetSchoolState
        []).state.studentCoordsByKey stopA.address = none ∧
      (collectStudentsForPayload townGeocoder [stopA]
          (ensureSchoolCoords townGeocoder timeDom unsetSchoolState []).state []).result =
        (collectStudentsForPayload townGeocoder [stopA] unsetSchoolState []).result :=
  ⟨by decide, by decide,
    ((school_and_student_entries_apart townGeocoder timeDom [stopA] unsetSchoolState []
      (by decide)).2.2.1 stopA (by decide)).trans (by decide),
    ((school_and_student_entries_apart townGeocoder timeDom [stopA] unsetSchoolState []
      (by decide)).2.2.2.1 townGeocoder []).1⟩


/-! ## The school location -/

/-- C18. When the school location has been set directly through `setSchoolLocation` (map
click or autocomplete), `ensureSchoolCoords` returns exactly those coordinates, makes no
geocoder call (the call log is as before) and leaves the state, so also the geocode
cache, as it is, whatever the geocoder and the school input are; and so it does in every
later state in which those coordinates are still the school location. -/
theorem direct_school_location_is_returned (latLng : LatLng) (nameFrom : String) (st : State)
    (dom : Dom) (geo : Geocoder) (input : Dom) (log : List GeoCall) :
    ensureSchoolCoords geo input (setSchoolLocation latLng nameFrom st dom).1 log =
        ⟨.ok latLng, (setSchoolLocation latLng nameFrom st dom).1, log⟩ ∧
      (setSchoolLocation latLng nameFrom st dom).1.studentCoordsByKey = st.studentCoordsByKey ∧
      ∀ later : State,
        later.schoolLatLng = (setSchoolLocation latLng nameFrom st dom).1.schoolLatLng →
        ensureSchoolCoords geo input later log = ⟨.ok latLng, later, log⟩ := by
  refine ⟨ensureSchoolCoords_set geo input _ log latLng rfl, rfl, ?_⟩
  intro later hlater
  exact ensureSchoolCoords_set geo input later log latLng hlater

/-- C19, the memoized school location survives a change of the school input. After
`initMap` the school is at the default centre; the user then types `Lycee`, which the
geocoder knows; `ensureSchoolCoords` still returns the default centre and asks nothing.
Likewise in a session whose school was resolved from the input `Ecole`: after the input
is changed to `Lycee` the lookup returns the coordinates of `Ecole`, asks nothing and
stores nothing for `Lycee`. -/
theorem school_input_change_keeps_memo :
    (initMap initialState blankDom).1.schoolLatLng = some defaultCenter ∧
      namesakeGeocoder [] "Lycee" = some ⟨.fin 36, .fin 6⟩ ∧
      ensureSchoolCoords namesakeGeocoder
          { (initMap initialState blankDom).2 with schoolName := "Lycee" }
          (initMap initialState blankDom).1 [] =
        ⟨.ok defaultCenter, (initMap initialState blankDom).1, []⟩ ∧
      (ensureSchoolCoords namesakeGeocoder timeDom unsetSchoolState []).result =
        .ok ⟨.fin 33, .fin 7⟩ ∧
      ensureSchoolCoords namesakeGeocoder { timeDom with schoolName := "Lycee" }
          (ensureSchoolCoords namesakeGeocoder timeDom unsetSchoolState []).state
          [⟨"Ecole", some ⟨.fin 33, .fin 7⟩⟩] =
        ⟨.ok ⟨.fin 33, .fin 7⟩,
          { unsetSchoolState with
            schoolLatLng := some ⟨.fin 33, .fin 7⟩
            studentCoordsByKey := [("school:Ecole", ⟨.fin 33, .fin 7⟩)] },
          [⟨"Ecole", some ⟨.fin 33, .fin 7⟩⟩]⟩ ∧
      defaultCenter ≠ ⟨.fin 36, .fin 6⟩ := by
  refine ⟨rfl, by decide, rfl, by decide, by decide, by decide!⟩

/-- The function `handleComputeRoute` keeps a school location that is set. -/
theorem handleComputeRoute_schoolLatLng (geo : Geocoder) (optimizer : Optimizer)
    (students : List Stop) (dom : Dom) (st : State) (log : List GeoCall) (loc : LatLng)
    (h : st.schoolLatLng = some loc) :
    (handleComputeRoute geo optimizer students dom st log).state.schoolLatLng = some loc := by
  have hfr := ensureSchoolCoords_frame geo dom (clearExistingRoutesOnMap st) log
  rcases handleComputeRoute_cases geo optimizer students dom st log with
    ⟨err, st2, log2, hschool, hrun⟩ | ⟨school, st2, log2, hschool, hrest⟩
  · rw [hschool] at hfr
    rw [hrun]
    exact hfr.2.2 loc h
  · rw [hschool] at hfr
    have h2 : st2.schoolLatLng = some loc := hfr.2.2 loc h
    rcases hrest with ⟨err, cache, log3, hcollect, hrun⟩ | ⟨stops, cache, log3, hcollect, hopt⟩
    · rw [hrun]
      exact h2
    · rcases hopt with ⟨_, _, hrun⟩ | ⟨_, hrun⟩ | ⟨result, _, ⟨_, _, hrun⟩ | ⟨_, _, hrun⟩⟩
      · rw [hrun]; exact h2
      · rw [hrun]; exact h2
      · rw [hrun]; exact h2
      · rw [hrun]
        simp only
        rw [drawRoutesOnMap_frame]
        exact h2

/-- C19, amended. Once `ensureSchoolCoords` has resolved the school location, it is
memoized for the rest of the session also when the user changes the school input: the
next `ensureSchoolCoords` returns the memoized coordinates for every text of the school
input and every geocoder, makes no geocoder call and changes nothing. The same holds in
every later state whose school location is the memoized one, and every operation of the
session other than `setSchoolLocation` leaves such a state with the same school
location: `ensureSchoolCoords`, `handleComputeRoute`, adding a student, adding a manual
stop, toggling a student, assigning a driver, drawing and clearing the routes. Only
`setSchoolLocation` changes it, to the position it is given. -/
theorem memoized_school_location_is_kept (geo : Geocoder) (dom : Dom) (st : State)
    (log : List GeoCall) (loc : LatLng)
    (hresolved : (ensureSchoolCoords geo dom st log).result = .ok loc)
    (geo2 : Geocoder) (input : Dom) (log2 : List GeoCall) :
    (ensureSchoolCoords geo dom st log).state.schoolLatLng = some loc ∧
      ensureSchoolCoords geo2 input (ensureSchoolCoords geo dom st log).state log2 =
        ⟨.ok loc, (ensureSchoolCoords geo dom st log).state, log2⟩ ∧
      ∀ later : State, later.schoolLatLng = some loc →
        ensureSchoolCoords geo2 input later log2 = ⟨.ok loc, later, log2⟩ ∧
        (∀ (optimizer : Optimizer) (students : List Stop),
          (handleComputeRoute geo2 optimizer students input later log2).state.schoolLatLng =
            some loc) ∧
        (∀ form : InlineForm, (handleAddInlineStudent form later).state.schoolLatLng = some loc) ∧
        (∀ latLng : LatLng, (addManualStop latLng later).1.schoolLatLng = some loc) ∧
        (∀ id : String, (toggleExcluded id later).schoolLatLng = some loc) ∧
        (∀ (idx : Nat) (value : String), (assignDriver idx value later).1.schoolLatLng = some loc) ∧
        (∀ routes : Option (List Route), (drawRoutesOnMap routes later).schoolLatLng = some loc) ∧
        (clearExistingRoutesOnMap later).schoolLatLng = some loc ∧
        (∀ (latLng : LatLng) (nameFrom : String) (d : Dom),
          (setSchoolLocation latLng nameFrom later d).1.schoolLatLng = some latLng) := by
  have hmemo : (ensureSchoolCoords geo dom st log).state.schoolLatLng = some loc := by
    cases hloc : st.schoolLatLng with
    | some l0 =>
      rw [ensureSchoolCoords_set geo dom st log l0 hloc] at hresolved ⊢
      injection hresolved with hr
      rw [← hr]
      exact hloc
    | none =>
      by_cases haddr : jsTrim dom.schoolName = ""
      · rw [ensureSchoolCoords_blank geo dom st log hloc haddr] at hresolved
        cases hresolved
      · cases hhit : cacheGet st.studentCoordsByKey ("school:" ++ jsTrim dom.schoolName) with
        | some l1 =>
          rw [ensureSchoolCoords_cached geo dom st log l1 hloc haddr hhit] at hresolved ⊢
          injection hresolved with hr
          rw [← hr]
        | none =>
          cases hgeo : geo log (jsTrim dom.schoolName) with
          | some res =>
            rw [ensureSchoolCoords_geocoded geo dom st log res hloc haddr hhit hgeo]
              at hresolved ⊢
            injection hresolved with hr
            rw [← hr]
          | none =>
            rw [ensureSchoolCoords_rejected geo dom st log hloc haddr hhit hgeo] at hresolved
            cases hresolved
  refine ⟨hmemo, ensureSchoolCoords_set geo2 input _ log2 loc hmemo, ?_⟩
  intro later hlater
  refine ⟨ensureSchoolCoords_set geo2 input later log2 loc hlater, ?_, ?_, ?_, ?_, ?_, ?_,
    hlater, ?_⟩
  · intro optimizer students
    exact handleComputeRoute_schoolLatLng geo2 optimizer students input later log2 loc hlater
  · intro form
    unfold handleAddInlineStudent
    simp only
    split
    · exact hlater
    · split <;> exact hlater
  · intro latLng
    exact hlater
  · intro id
    rcases toggleExcluded_cases id later with ⟨_, e⟩ | ⟨_, e⟩ <;> rw [e] <;> exact hlater
  · intro idx value
    unfold assignDriver
    simp only
    split <;> exact hlater
  · intro routes
    rw [drawRoutesOnMap_frame]
    exact hlater
  · intro latLng nameFrom d
    rfl

/-- C19, amended, for the school resolved from the input `Ecole` and the input changed to
`Lycee`: the lookup still returns the coordinates of `Ecole`, and a computation run with
the new input leaves them as the school location. -/
theorem memoized_school_location_is_kept_witness :
    (ensureSchoolCoords namesakeGeocoder { timeDom with schoolName := "Lycee" }
        (ensureSchoolCoords namesakeGeocoder timeDom unsetSchoolState []).state
        [⟨"Ecole", some ⟨.fin 33, .fin 7⟩⟩]).result = .ok ⟨.fin 33, .fin 7⟩ ∧
      (handleComputeRoute namesakeGeocoder sampleOptimizer [scenarioS1]
        { timeDom with schoolName := "Lycee" }
        (ensureSchoolCoords namesakeGeocoder timeDom unsetSchoolState []).state
        [⟨"Ecole", some ⟨.fin 33, .fin 7⟩⟩]).state.schoolLatLng = some ⟨.fin 33, .fin 7⟩ :=
  ⟨congrArg SchoolLookup.result
    (memoized_school_location_is_kept namesakeGeocoder timeDom unsetSchoolState []
      ⟨.fin 33, .fin 7⟩ (by decide) namesakeGeocoder { timeDom with schoolName := "Lycee" }
      [⟨"Ecole", some ⟨.fin 33, .fin 7⟩⟩]).2.1,
    ((memoized_school_location_is_kept namesakeGeocoder timeDom unsetSchoolState []
      ⟨.fin 33, .fin 7⟩ (by decide) namesakeGeocoder { timeDom with schoolName := "Lycee" }
      [⟨"Ecole", some ⟨.fin 33, .fin 7⟩⟩]).2.2 _ (by decide)).2.1 sampleOptimizer [scenarioS1]⟩

/-! ## Driver assignment -/

theorem assignGet_assignSet_self (ledger : List (Nat × Option String)) (idx : Nat)
    (v : Option String) : assignGet (assignSet ledger idx v) idx = some v := by
  induction ledger with
  | nil => simp [assignSet, assignGet]
  | cons e rest ih =>
    obtain ⟨k, w⟩ := e
    by_cases hk : k = idx
    · simp [assignSet, assignGet, hk]
    · simp [assignSet, assignGet, hk, ih]

theorem assignGet_assignSet_of_ne (ledger : List (Nat × Option String)) (idx other : Nat)
    (v : Option String) (hne : other ≠ idx) :
    assignGet (assignSet ledger idx v) other = assignGet ledger other := by
  induction ledger with
  | nil =>
    have hne2 : idx ≠ other := fun h => hne h.symm
    simp [assignSet, assignGet, hne2]
  | cons e rest ih =>
    obtain ⟨k, w⟩ := e
    by_cases hk : k = idx
    · subst hk
      have hne2 : k ≠ other := fun h => hne h.symm
      simp [assignSet, assignGet, hne2]
    · by_cases hko : k = other
      · subst hko
        simp [assignSet, assignGet, hk]
      · simp [assignSet, assignGet, hk, hko, ih]

/-- What the handler does to a session that has a result. -/
theorem assignDriver_some (idx : Nat) (value : String) (st : State) (opt : Optimization)
    (h : st.lastOptimization = some opt) :
    (assignDriver idx value st).1 =
      { st with
        lastOptimization :=
          some { opt with
            assignments :=
              assignSet opt.assignments idx (if value = "" then none else some value) } } := by
  simp [assignDriver, h]

/-- C20. Driver assignment is last-write-wins per route index: for every current session
result, route index and value of the select, after the change handler has run the ledger
holds that value for the index (null when the empty option is chosen), whatever it held
before; the entries of all other indices, the payload and the result are as before; and a
later assignment to the same index replaces this one. -/
theorem assignment_last_write_wins (idx : Nat) (value : String) (st : State)
    (opt : Optimization) (h : st.lastOptimization = some opt) :
    ∃ next : Optimization,
      (assignDriver idx value st).1.lastOptimization = some next ∧
      next.payload = opt.payload ∧ next.result = opt.result ∧
      assignGet next.assignments idx = some (if value = "" then none else some value) ∧
      (∀ other, other ≠ idx →
        assignGet next.assignments other = assignGet opt.assignments other) ∧
      ∀ value2 : String, ∃ last : Optimization,
        (assignDriver idx value2 (assignDriver idx value st).1).1.lastOptimization = some last ∧
        assignGet last.assignments idx = some (if value2 = "" then none else some value2) ∧
        ∀ other, other ≠ idx →
          assignGet last.assignments other = assignGet opt.assignments other := by
  have h1 := assignDriver_some idx value st opt h
  refine ⟨{ opt with
      assignments := assignSet opt.assignments idx (if value = "" then none else some value) },
    by rw [h1], rfl, rfl, assignGet_assignSet_self _ _ _,
    fun other hne => assignGet_assignSet_of_ne _ _ _ _ hne, ?_⟩
  intro value2
  have h2 := assignDriver_some idx value2 (assignDriver idx value st).1
    { opt with
      assignments := assignSet opt.assignments idx (if value = "" then none else some value) }
    (by rw [h1])
  refine ⟨{ opt with
      assignments :=
        assignSet (assignSet opt.assignments idx (if value = "" then none else some value)) idx
          (if value2 = "" then none else some value2) },
    by rw [h2], assignGet_assignSet_self _ _ _, ?_⟩
  intro other hne
  simp only
  rw [assignGet_assignSet_of_ne _ _ _ _ hne, assignGet_assignSet_of_ne _ _ _ _ hne]

/-- C20 in the session whose ledger holds bus 7 for route 0: assigning bus 9 to route 0
replaces it, choosing the empty option for route 1 records null next to it. -/
theorem assignment_last_write_wins_witness :
    ((assignDriver 0 "9" laterState).1.lastOptimization.map (fun o => o.assignments)) =
        some [(0, some "9")] ∧
      ((assignDriver 1 "" laterState).1.lastOptimization.map (fun o => o.assignments)) =
        some [(0, some "7"), (1, none)] ∧
      ∃ next : Optimization,
        (assignDriver 0 "9" laterState).1.lastOptimization = some next ∧
        assignGet next.assignments 0 = some (some "9") :=
  ⟨by decide, by decide,
    (assignment_last_write_wins 0 "9" laterState priorOptimization rfl).imp
      (fun _ hnext => ⟨hnext.1, hnext.2.2.2.1⟩)⟩



/-! ## The paths requested for the routes -/

/-- The renderer of a route with at least two stops. -/
theorem routeRenderer_path (route : Route) (idx : Nat) (h : 2 ≤ route.stops.length) :
    ∃ renderer : Renderer,
      routeRenderer route idx = some renderer ∧
      route.stops.head?.map (fun s => (⟨s.lat, s.lng⟩ : LatLng)) = some renderer.origin ∧
      route.stops.getLast?.map (fun s => (⟨s.lat, s.lng⟩ : LatLng)) =
        some renderer.destination ∧
      renderer.waypoints =
        ((route.stops.drop 1).take (route.stops.length - 2)).map
          (fun s => (⟨s.lat, s.lng⟩ : LatLng)) ∧
      renderer.waypoints.length = route.stops.length - 2 := by
  unfold routeRenderer
  rcases hstops : route.stops with _ | ⟨first, _ | ⟨second, more⟩⟩
  · rw [hstops] at h; simp at h
  · rw [hstops] at h; simp at h
  · refine ⟨_, rfl, rfl, ?_, ?_, ?_⟩
    · simp [List.getLast?_eq_getLast]
    · cases more with
      | nil => simp
      | cons third more =>
        simp [List.dropLast_eq_take]
    · cases more with
      | nil => simp
      | cons third more =>
        simp [List.dropLast_eq_take]

/-- The loop of `drawRoutesOnMap` tracks, after the renderers it started with, the
renderer of every route that has one, in the order of the routes, each made from the
route and its own index. -/
theorem drawLoop_eq_filterMap (routes : List Route) :
    ∀ (idx : Nat) (tracked : List Renderer),
      drawLoop routes idx tracked =
        tracked ++ (routes.enumFrom idx).filterMap (fun p => routeRenderer p.2 p.1) := by
  induction routes with
  | nil => intro idx tracked; simp [drawLoop]
  | cons route rest ih =>
    intro idx tracked
    cases hr : routeRenderer route idx with
    | none => simp [drawLoop, hr, ih, List.enumFrom_cons, List.filterMap_cons]
    | some renderer => simp [drawLoop, hr, ih, List.enumFrom_cons, List.filterMap_cons]

/-- C21. For every route with n >= 2 stops `drawRoutesOnMap` requests a path whose origin
is the position of the first stop, whose destination is the position of the last stop and
whose waypoints are the positions of the stops 1 to n-2 in their order (n-2 waypoints,
none when n = 2); for a route with fewer than two stops it requests nothing and tracks
nothing; and every route is treated on its own, with its own index, so the routes after a
skipped one are processed: on an initialised map the tracked renderers are those of the
routes that have one, in the order of the routes. -/
theorem route_paths_requested :
    (∀ (route : Route) (idx : Nat), 2 ≤ route.stops.length →
      ∃ renderer : Renderer,
        routeRenderer route idx = some renderer ∧
        route.stops.head?.map (fun s => (⟨s.lat, s.lng⟩ : LatLng)) = some renderer.origin ∧
        route.stops.getLast?.map (fun s => (⟨s.lat, s.lng⟩ : LatLng)) =
          some renderer.destination ∧
        renderer.waypoints =
          ((route.stops.drop 1).take (route.stops.length - 2)).map
            (fun s => (⟨s.lat, s.lng⟩ : LatLng)) ∧
        renderer.waypoints.length = route.stops.length - 2) ∧
    (∀ (route : Route) (idx : Nat), route.stops.length < 2 →
      routeRenderer route idx = none) ∧
    (∀ (routes : List Route) (st : State), st.map = true →
      (drawRoutesOnMap (some routes) st).activeRenderers =
        routes.enum.filterMap (fun p => routeRenderer p.2 p.1)) := by
  refine ⟨routeRenderer_path, ?_, ?_⟩
  · intro route idx h
    have hsome := routeRenderer_isSome route idx
    have hfew : decide (2 ≤ route.stops.length) = false := by
      simpa using h
    rw [hfew] at hsome
    cases hr : routeRenderer route idx with
    | none => rfl
    | some r => rw [hr] at hsome; cases hsome
  · intro routes st hmap
    rw [drawRoutesOnMap_initialised routes st hmap]
    simp only
    rw [drawLoop_eq_filterMap]
    rfl

/-- C21 for three routes of which the second has a single stop: the first gives a path
with one waypoint, the second nothing, the third, still processed, a path without
waypoint in the colour of index 2. -/
theorem route_paths_requested_witness :
    (drawRoutesOnMap (some threeRoutes) laterState).activeRenderers =
      [{ origin := ⟨.fin 33, .fin 7⟩, destination := ⟨.fin 35, .fin 9⟩,
         waypoints := [⟨.fin 34, .fin 8⟩], strokeColor := "#2563eb" },
       { origin := ⟨.fin 33, .fin 7⟩, destination := ⟨.fin 36, .fin 6⟩, waypoints := [],
         strokeColor := "#f97316" }] :=
  (route_paths_requested.2.2 threeRoutes laterState rfl).trans (by decide)


/-! ## The hybrid weights of the summary -/

/-- The rounding of `toFixed`: a nonnegative `q` whose scaled value is less than one half
away from the integer `n` is rounded to `n`. -/
theorem roundScaled_eq (q : ℚ) (f n : Nat) (hq : 0 ≤ q)
    (hnear : |q * (10 : ℚ) ^ f - n| < 1 / 2) : roundScaled q f = n := by
  unfold roundScaled
  have hnum : 0 ≤ q.num := Rat.num_nonneg.mpr hq
  have hden : (0 : ℚ) < q.den := by exact_mod_cast q.den_pos
  have habs : ((q.num.natAbs : ℕ) : ℚ) = (q.num : ℚ) := by
    have hnat : ((q.num.natAbs : ℕ) : ℤ) = q.num := Int.natAbs_of_nonneg hnum
    rw [← Int.cast_natCast, hnat]
  have hqd : (q.num : ℚ) = q * q.den := (Rat.mul_den_eq_num q).symm
  obtain ⟨hlo, hhi⟩ := abs_lt.mp hnear
  apply Nat.div_eq_of_lt_le
  · have h1 : ((n * (2 * q.den) : ℕ) : ℚ) ≤ ((2 * q.num.natAbs * 10 ^ f + q.den : ℕ) : ℚ) := by
      push_cast
      rw [habs, hqd]
      nlinarith
    exact_mod_cast h1
  · have h1 : ((2 * q.num.natAbs * 10 ^ f + q.den : ℕ) : ℚ) <
        (((n + 1) * (2 * q.den) : ℕ) : ℚ) := by
      push_cast
      rw [habs, hqd]
      nlinarith
    exact_mod_cast h1

/-- The text of `toFixed(2)` for a nonnegative number less than 0.005 away from `k/100`. -/
theorem toFixed_two_near (x : ℚ) (k : Nat) (hx : 0 ≤ x) (hnear : |x - (k : ℚ) / 100| < 1 / 200) :
    toFixed (.fin x) 2 = fixedDigits k 2 := by
  have hround : roundScaled x 2 = k := by
    apply roundScaled_eq x 2 k hx
    obtain ⟨hlo, hhi⟩ := abs_lt.mp hnear
    rw [abs_lt]
    constructor <;> norm_num <;> linarith
  have hneg : ¬ x < 0 := not_lt.mpr hx
  simp only [toFixed, hneg, if_false, hround]
  rfl

/-- The texts of `toFixed(2)` for the hundredths from 0 to 1 read back as the hundredths. -/
theorem parseFloat_fixedDigits :
    ∀ k, k ≤ 100 → parseFloat (fixedDigits k 2) = .fin ((k : ℚ) / 100) := by
  decide!

/-- The texts of `toFixed(2)` for the hundredths from 0 to 1: the unit, a point and the
two decimals. -/
theorem fixedDigits_two :
    ∀ k, k ≤ 100 →
      fixedDigits k 2 =
        toString (k / 100) ++ "." ++ toString (k / 10 % 10) ++ toString (k % 10) := by
  decide


/-- C22. For a hybrid summary whose duration weight is a number `w` of the interval from 0
to 1 given with at most two decimals (`k/100`, stored as a nonnegative number less than
0.005 away from it), `renderSummary` shows as the time weight `w` with two decimals and as
the distance weight `1 - w` with two decimals: the unit, a point and the two decimals of
`k`, respectively of `100 - k`. This holds for exact arithmetic and for every rounding
`fl` of the results that keeps nonnegative numbers nonnegative, numbers up to 1 up to 1,
and is less than 0.0025 away from the exact result, as the rounding to binary
floating-point numbers is. -/
theorem hybrid_summary_weights (fl : ℚ → ℚ) (hnonneg : ∀ q, 0 ≤ q → 0 ≤ fl q)
    (hle : ∀ q, q ≤ 1 → fl q ≤ 1) (herr : ∀ q, |fl q - q| < 1 / 400)
    (summary : Summary) (hobj : summary.objective = "hybrid") (k : Nat) (hk : k ≤ 100)
    (x : ℚ) (hw : summary.weightDuration = some (.fin x)) (hx : 0 ≤ x)
    (hxk : |x - (k : ℚ) / 100| < 1 / 200) :
    hybridWeights fl summary = some (fixedDigits k 2, fixedDigits (100 - k) 2) ∧
      fixedDigits k 2 =
        toString (k / 100) ++ "." ++ toString (k / 10 % 10) ++ toString (k % 10) ∧
      fixedDigits (100 - k) 2 =
        toString ((100 - k) / 100) ++ "." ++ toString ((100 - k) / 10 % 10) ++
          toString ((100 - k) % 10) := by
  refine ⟨?_, fixedDigits_two k hk, fixedDigits_two (100 - k) (Nat.sub_le 100 k)⟩
  have hkq : (k : ℚ) / 100 ≤ 1 := by
    have : (k : ℚ) ≤ 100 := by exact_mod_cast hk
    linarith
  have hw1 : toFixed (.fin x) 2 = fixedDigits k 2 := toFixed_two_near x k hx hxk
  have hback : toNumberRounded fl (fixedDigits k 2) = .fin (fl ((k : ℚ) / 100)) := by
    simp only [toNumberRounded, parseFloat_fixedDigits k hk]
  have hz0 : 0 ≤ fl (1 - fl ((k : ℚ) / 100)) := by
    apply hnonneg
    have := hle _ hkq
    linarith
  have hcast : (((100 - k : ℕ)) : ℚ) = 100 - (k : ℚ) := by
    push_cast [Nat.cast_sub hk]
    ring
  have hznear : |fl (1 - fl ((k : ℚ) / 100)) - ((100 - k : ℕ) : ℚ) / 100| < 1 / 200 := by
    rw [hcast]
    have h1 := abs_lt.mp (herr (1 - fl ((k : ℚ) / 100)))
    have h2 := abs_lt.mp (herr ((k : ℚ) / 100))
    rw [abs_lt]
    constructor <;> linarith [h1.1, h1.2, h2.1, h2.2]
  have hw2 : toFixed (.fin (fl (1 - fl ((k : ℚ) / 100)))) 2 = fixedDigits (100 - k) 2 :=
    toFixed_two_near _ (100 - k) hz0 hznear
  simp only [hybridWeights, hobj, if_true, hw, hw1, hback, oneMinus, hw2]

/-- C22 for the weight 0.7 in exact arithmetic: the summary shows `0.70` and `0.30`. -/
theorem hybrid_summary_weights_witness :
    hybridWeights id hybridSummary = some ("0.70", "0.30") :=
  (hybrid_summary_weights id (fun _ h => h) (fun _ h => h) (fun q => by norm_num)
    hybridSummary rfl 70 (by decide) (7 / 10) rfl (by norm_num) (by norm_num)).1.trans
    (by decide)


/-! ## The dashboard helpers of data.js -/

theorem readArray_newArray (store : DataStore) (elements : List Driver) :
    readArray (newArray store elements).2 (newArray store elements).1 = elements := by
  simp [newArray, readArray, List.getD_eq_getElem?_getD]

theorem newArray_globals (store : DataStore) (elements : List Driver) :
    (newArray store elements).2.drivers = store.drivers ∧
    (newArray store elements).2.students = store.students ∧
    (newArray store elements).2.routes = store.routes :=
  ⟨rfl, rfl, rfl⟩

theorem sortArray_newArray (store : DataStore) (elements : List Driver)
    (before : Driver → Driver → Prop) [DecidableRel before] :
    readArray (sortArray (newArray store elements).2 (newArray store elements).1 before).2
      (newArray store elements).1 = elements.insertionSort before := by
  simp [sortArray, newArray, readArray, writeArray, List.getD_eq_getElem?_getD]

theorem sortArray_newArray_globals (store : DataStore) (elements : List Driver)
    (before : Driver → Driver → Prop) [DecidableRel before] :
    (sortArray (newArray store elements).2 (newArray store elements).1 before).2.drivers
      = store.drivers ∧
    (sortArray (newArray store elements).2 (newArray store elements).1 before).2.students
      = store.students ∧
    (sortArray (newArray store elements).2 (newArray store elements).1 before).2.routes
      = store.routes :=
  ⟨rfl, rfl, rfl⟩

theorem getTopDriversByFuel_result (store : DataStore) (limit : Nat) :
    (getTopDriversByFuel store limit).1
      = (((store.drivers.filter (fun d => d.fuelLiters.isSome)).insertionSort byFuel).take
          limit) := by
  unfold getTopDriversByFuel
  simp only [sliceArray, filterArray, spreadArray, readArray_newArray]
  rw [show (sortArray (newArray (newArray store (readArray store ArrayRef.drivers)).2
        (List.filter (fun d => d.fuelLiters.isSome) (readArray store ArrayRef.drivers))).2
        (newArray (newArray store (readArray store ArrayRef.drivers)).2
        (List.filter (fun d => d.fuelLiters.isSome) (readArray store ArrayRef.drivers))).1
        byFuel).1 = (newArray (newArray store (readArray store ArrayRef.drivers)).2
        (List.filter (fun d => d.fuelLiters.isSome) (readArray store ArrayRef.drivers))).1
      from rfl, sortArray_newArray]
  rfl

theorem getTopDriversByPunctuality_result (store : DataStore) (limit : Nat) :
    (getTopDriversByPunctuality store limit).1
      = (((store.drivers.filter (fun d => d.punctuality.isSome)).insertionSort
          byPunctuality).take limit) := by
  unfold getTopDriversByPunctuality
  simp only [sliceArray, filterArray, spreadArray, readArray_newArray]
  rw [show (sortArray (newArray (newArray store (readArray store ArrayRef.drivers)).2
        (List.filter (fun d => d.punctuality.isSome) (readArray store ArrayRef.drivers))).2
        (newArray (newArray store (readArray store ArrayRef.drivers)).2
        (List.filter (fun d => d.punctuality.isSome) (readArray store ArrayRef.drivers))).1
        byPunctuality).1 = (newArray (newArray store (readArray store ArrayRef.drivers)).2
        (List.filter (fun d => d.punctuality.isSome) (readArray store ArrayRef.drivers))).1
      from rfl, sortArray_newArray]
  rfl

theorem orderedInsert_congr {α : Type} (r s : α → α → Prop) [DecidableRel r] [DecidableRel s]
    (a : α) (l : List α) (h : ∀ b ∈ l, (r a b ↔ s a b)) :
    l.orderedInsert r a = l.orderedInsert s a := by
  induction l with
  | nil => rfl
  | cons b l ih =>
    have hb := h b (List.mem_cons_self _ _)
    have ih2 := ih (fun c hc => h c (List.mem_cons_of_mem _ hc))
    by_cases hr : r a b
    · have hs : s a b := hb.mp hr
      simp [List.orderedInsert, hr, hs]
    · have hs : ¬ s a b := fun hs => hr (hb.mpr hs)
      simp [List.orderedInsert, hr, hs, ih2]

theorem insertionSort_congr {α : Type} (r s : α → α → Prop) [DecidableRel r] [DecidableRel s]
    (l : List α) (h : ∀ a ∈ l, ∀ b ∈ l, (r a b ↔ s a b)) :
    l.insertionSort r = l.insertionSort s := by
  induction l with
  | nil => rfl
  | cons a l ih =>
    have ih2 := ih (fun x hx y hy => h x (List.mem_cons_of_mem _ hx) y (List.mem_cons_of_mem _ hy))
    simp only [List.insertionSort]
    rw [ih2]
    apply orderedInsert_congr
    intro b hb
    have hbl : b ∈ l := (List.perm_insertionSort s l).subset hb
    exact h a (List.mem_cons_self _ _) b (List.mem_cons_of_mem _ hbl)

/-- The place of a number in the ascending order: minus infinity first, then the finite
numbers, then plus infinity. -/
theorem jsLe_iff_rank (x y : JSNum) (hx : x ≠ .nan) (hy : y ≠ .nan) :
    (notPositive (jsSub x y) ↔ jsLe x y) ∧
      (jsLe x y ↔
        (match x with
          | .fin p => ((p : WithTop ℚ) : WithBot (WithTop ℚ))
          | .inf true => ⊥
          | _ => ((⊤ : WithTop ℚ) : WithBot (WithTop ℚ))) ≤
        (match y with
          | .fin q => ((q : WithTop ℚ) : WithBot (WithTop ℚ))
          | .inf true => ⊥
          | _ => ((⊤ : WithTop ℚ) : WithBot (WithTop ℚ)))) := by
  cases x with
  | nan => exact absurd rfl hx
  | fin p =>
    cases y with
    | nan => exact absurd rfl hy
    | fin q => simp [jsSub, notPositive, jsLe]
    | inf b => cases b <;> simp [jsSub, notPositive, jsLe]
  | inf a =>
    cases y with
    | nan => exact absurd rfl hy
    | fin q => cases a <;> simp [jsSub, notPositive, jsLe]
    | inf b => cases a <;> cases b <;> simp [jsSub, notPositive, jsLe]

/-- On drivers whose fuel is a number other than `NaN` the compare function orders by the
number. -/
theorem insertionSort_byFuel_sorted (l : List Driver)
    (h : ∀ d ∈ l, ∃ x, d.fuelLiters = some x ∧ x ≠ .nan) :
    (l.insertionSort byFuel).Pairwise
      (fun a b => ∃ x y, a.fuelLiters = some x ∧ b.fuelLiters = some y ∧ jsLe x y) := by
  let rank : Driver → WithBot (WithTop ℚ) := fun d =>
    match d.fuelLiters with
    | some (.fin p) => ((p : WithTop ℚ) : WithBot (WithTop ℚ))
    | some (.inf true) => ⊥
    | _ => ((⊤ : WithTop ℚ) : WithBot (WithTop ℚ))
  let key : Driver → Driver → Prop := fun a b => rank a ≤ rank b
  have hdec : DecidableRel key := Classical.decRel key
  have htotal : IsTotal Driver key := ⟨fun a b => le_total (rank a) (rank b)⟩
  have htrans : IsTrans Driver key := ⟨fun a b c hab hbc => le_trans hab hbc⟩
  have hkey : ∀ a b x y, a.fuelLiters = some x → b.fuelLiters = some y → x ≠ .nan →
      y ≠ .nan → (key a b ↔ jsLe x y) := by
    intro a b x y ha hb hx hy
    rw [(jsLe_iff_rank x y hx hy).2]
    simp only [key, rank, ha, hb]
    cases x with
    | nan => exact absurd rfl hx
    | fin p =>
      cases y with
      | nan => exact absurd rfl hy
      | fin q => rfl
      | inf b => cases b <;> rfl
    | inf a =>
      cases y with
      | nan => exact absurd rfl hy
      | fin q => cases a <;> rfl
      | inf b => cases a <;> cases b <;> rfl
  have hsame : l.insertionSort byFuel = l.insertionSort key := by
    apply insertionSort_congr
    intro a ha b hb
    obtain ⟨x, hx, hxn⟩ := h a ha
    obtain ⟨y, hy, hyn⟩ := h b hb
    rw [hkey a b x y hx hy hxn hyn, ← (jsLe_iff_rank x y hxn hyn).1]
    simp only [byFuel, minus, hx, hy]
  rw [hsame]
  have hsorted : (l.insertionSort key).Sorted key := List.sorted_insertionSort key l
  have hmem : ∀ d ∈ l.insertionSort key, ∃ x, d.fuelLiters = some x ∧ x ≠ .nan := fun d hd =>
    h d ((List.perm_insertionSort key l).subset hd)
  refine (List.Pairwise.and_mem.mp hsorted).imp ?_
  intro a b hab
  obtain ⟨ha, hb, hle⟩ := hab
  obtain ⟨x, hx, hxn⟩ := hmem a ha
  obtain ⟨y, hy, hyn⟩ := hmem b hb
  exact ⟨x, y, hx, hy, (hkey a b x y hx hy hxn hyn).mp hle⟩

/-- The number of drivers returned is the minimum of the limit and of the number of
drivers with a numeric `fuelLiters`, whatever the fuel values are. -/
theorem getTopDriversByFuel_length (store : DataStore) (limit : Nat) :
    (getTopDriversByFuel store limit).1.length
      = min limit (store.drivers.filter (fun d => d.fuelLiters.isSome)).length := by
  rw [getTopDriversByFuel_result, List.length_take, List.length_insertionSort]

/-- C23, a fuel value that is `NaN`. The three drivers have the fuel values 3, `NaN` and
1, which all pass the `typeof` test. The compare function returns `NaN` whenever the
second driver is compared, `sort` takes that as zero, and the array stays as it is: with
the limit 3 the helper returns the fuel values 3, `NaN`, 1, which are not ascending, and
with the limit 1 it returns the driver with 3 and leaves out the driver with 1. -/
theorem nan_fuel_is_not_sorted :
    (nanData.drivers.filter (fun d => d.fuelLiters.isSome)).map Driver.fuelLiters =
        [some (.fin 3), some .nan, some (.fin 1)] ∧
      (getTopDriversByFuel nanData 3).1.map Driver.fuelLiters =
        [some (.fin 3), some .nan, some (.fin 1)] ∧
      (getTopDriversByFuel nanData 1).1.map Driver.fuelLiters = [some (.fin 3)] ∧
      ¬ jsLe (.fin 3) (.fin 1) ∧
      ¬ (getTopDriversByFuel nanData 3).1.Pairwise
        (fun a b => ∃ x y, a.fuelLiters = some x ∧ b.fuelLiters = some y ∧ jsLe x y) := by
  have h3 : (getTopDriversByFuel nanData 3).1.map Driver.fuelLiters =
      [some (.fin 3), some .nan, some (.fin 1)] := by decide
  have hle : ¬ jsLe (.fin 3) (.fin 1) := by
    simp only [jsLe]
    norm_num
  refine ⟨by decide, h3, by decide, hle, ?_⟩
  intro hsorted
  have hmap := List.Pairwise.map Driver.fuelLiters
    (S := fun u v => ∃ x y, u = some x ∧ v = some y ∧ jsLe x y) (fun a b hab => hab) hsorted
  rw [h3] at hmap
  simp only [List.pairwise_cons] at hmap
  obtain ⟨x, y, hx, hy, hxy⟩ := hmap.1 (some (.fin 1)) (by simp)
  injection hx with hx
  injection hy with hy
  rw [← hx, ← hy] at hxy
  exact hle hxy

/-- C23, amended. For every content of the drivers array in which no `fuelLiters` is
`NaN`, and every limit, `getTopDriversByFuel` returns the drivers whose `fuelLiters` is a
number, sorted by ascending `fuelLiters` and cut to the first `limit`. The drivers
returned are in ascending order of `fuelLiters`; their number is the minimum of the limit
and of the number of drivers with a numeric `fuelLiters`; and together with the drivers
left out they are exactly the drivers with a numeric `fuelLiters`, where no driver left
out has a lower `fuelLiters` than a driver returned. -/
theorem top_drivers_by_fuel (store : DataStore) (limit : Nat)
    (hnum : ∀ d ∈ store.drivers, d.fuelLiters ≠ some .nan) :
    (getTopDriversByFuel store limit).1.Pairwise
      (fun a b => ∃ x y, a.fuelLiters = some x ∧ b.fuelLiters = some y ∧ jsLe x y) ∧
    (getTopDriversByFuel store limit).1.length
      = min limit (store.drivers.filter (fun d => d.fuelLiters.isSome)).length ∧
    ∃ leftOut : List Driver,
      ((getTopDriversByFuel store limit).1 ++ leftOut).Perm
        (store.drivers.filter (fun d => d.fuelLiters.isSome)) ∧
      ∀ a ∈ (getTopDriversByFuel store limit).1, ∀ b ∈ leftOut,
        ∃ x y, a.fuelLiters = some x ∧ b.fuelLiters = some y ∧ jsLe x y := by
  rw [getTopDriversByFuel_result]
  have hkept : ∀ d ∈ store.drivers.filter (fun d => d.fuelLiters.isSome),
      ∃ x, d.fuelLiters = some x ∧ x ≠ .nan := by
    intro d hd
    obtain ⟨hmem, hsome⟩ := List.mem_filter.mp hd
    obtain ⟨x, hx⟩ := Option.isSome_iff_exists.mp hsome
    refine ⟨x, hx, ?_⟩
    intro hnan
    exact hnum d hmem (by rw [hx, hnan])
  have hsorted := insertionSort_byFuel_sorted _ hkept
  refine ⟨hsorted.sublist (List.take_sublist _ _), ?_, ?_⟩
  · rw [List.length_take, List.length_insertionSort]
  · refine ⟨((store.drivers.filter (fun d => d.fuelLiters.isSome)).insertionSort byFuel).drop
      limit, ?_, ?_⟩
    · rw [List.take_append_drop]
      exact List.perm_insertionSort _ _
    · rw [← List.take_append_drop limit
        ((store.drivers.filter (fun d => d.fuelLiters.isSome)).insertionSort byFuel)] at hsorted
      exact (List.pairwise_append.mp hsorted).2.2

/-- C23, amended, on the data of data.js with the limit 2: no fuel value is `NaN`, and
the two drivers returned have the fuel values 21.8 and 23.5 in this order. -/
theorem top_drivers_by_fuel_witness :
    (getTopDriversByFuel mockData 2).1.map Driver.busNumber = [11, 7] ∧
      (getTopDriversByFuel mockData 2).1.Pairwise
        (fun a b => ∃ x y, a.fuelLiters = some x ∧ b.fuelLiters = some y ∧ jsLe x y) :=
  ⟨by decide!, (top_drivers_by_fuel mockData 2 (by decide)).1⟩

theorem getTopDriversByFuel_globals (store : DataStore) (limit : Nat) :
    (getTopDriversByFuel store limit).2.drivers = store.drivers ∧
    (getTopDriversByFuel store limit).2.students = store.students ∧
    (getTopDriversByFuel store limit).2.routes = store.routes :=
  ⟨rfl, rfl, rfl⟩

theorem getTopDriversByPunctuality_globals (store : DataStore) (limit : Nat) :
    (getTopDriversByPunctuality store limit).2.drivers = store.drivers ∧
    (getTopDriversByPunctuality store limit).2.students = store.students ∧
    (getTopDriversByPunctuality store limit).2.routes = store.routes :=
  ⟨rfl, rfl, rfl⟩

/-- An array that existed before a call of getTopDriversByFuel holds the same elements
after it: the helper writes only to the arrays it has created itself. -/
theorem getTopDriversByFuel_keeps_arrays (store : DataStore) (limit index : Nat)
    (h : index < store.temporaries.length) :
    readArray (getTopDriversByFuel store limit).2 (.temporary index)
      = readArray store (.temporary index) := by
  have hne : store.temporaries.length + 1 ≠ index := by omega
  simp [getTopDriversByFuel, sliceArray, sortArray, filterArray, spreadArray, newArray,
    readArray, writeArray, List.getD_eq_getElem?_getD, List.getElem?_append, h,
    List.getElem?_set, hne]

/-- Claim C24: the dashboard helpers are read-only. For every content of the data and
every limit, after a call of getTopDriversByFuel, of getTopDriversByPunctuality or of
getDashboardTotals the arrays drivers, students and routes hold the same elements in the
same order as before the call: the sort of the two ranking helpers works in place on an
array that the helper has created, not on drivers. -/
theorem dashboard_helpers_read_only (store : DataStore) (limit : Nat) :
    ((getTopDriversByFuel store limit).2.drivers = store.drivers ∧
      (getTopDriversByFuel store limit).2.students = store.students ∧
      (getTopDriversByFuel store limit).2.routes = store.routes) ∧
    ((getTopDriversByPunctuality store limit).2.drivers = store.drivers ∧
      (getTopDriversByPunctuality store limit).2.students = store.students ∧
      (getTopDriversByPunctuality store limit).2.routes = store.routes) ∧
    ((getDashboardTotals store).2.drivers = store.drivers ∧
      (getDashboardTotals store).2.students = store.students ∧
      (getDashboardTotals store).2.routes = store.routes) :=
  ⟨getTopDriversByFuel_globals store limit, getTopDriversByPunctuality_globals store limit,
    rfl, rfl, rfl⟩

/-- On the data of data.js the two drivers with the lowest fuel are those of bus 11 and
of bus 7, and the drivers array is still in the order of the file. -/
theorem getTopDriversByFuel_mockData :
    (getTopDriversByFuel mockData 2).1.map Driver.busNumber = [11, 7] ∧
    (getTopDriversByFuel mockData 2).2.drivers.map Driver.busNumber = [7, 9, 11] := by
  decide!

/-- A sort called on the drivers array itself would reorder it: the model of the sort is
in place. -/
theorem sortArray_in_place :
    (sortArray mockData .drivers byFuel).2.drivers.map Driver.busNumber = [11, 7, 9] := by
  decide!

/-- On the data of data.js the totals count three drivers, four students and two routes,
and ninety percent on time. -/
theorem getDashboardTotals_mockData :
    (getDashboardTotals mockData).1.totalDrivers = 3 ∧
    (getDashboardTotals mockData).1.totalStudents = 4 ∧
    (getDashboardTotals mockData).1.totalRoutes = 2 ∧
    (getDashboardTotals mockData).1.onTimePercent = .fin 90 ∧
    (getDashboardTotals mockData).2 = mockData := by
  decide!

end SBR
